import Mathlib

/-!
Physio coaching app: landmark geometry and exercise validation.

A shallow embedding of `frontend/src/utils/angleCalculations.js`,
`frontend/src/utils/exerciseValidation.js`, the handlers of
`frontend/src/context/SessionContext.jsx` (as functions on an explicit session
state) and the accuracy emission of `frontend/src/components/PatientView.jsx`.
The join operation of the coordination server is not among the sources and is
modelled from the specification.

JavaScript numbers are IEEE-754 binary64 values.  They are modelled exactly:
a finite value is a sign and a magnitude counted in units of `2^-1074` (the
smallest subnormal), every arithmetic operation is the exact operation
followed by round-to-nearest, ties-to-even, and the special values (NaN,
signed infinities, signed zeros) follow IEEE-754 / ECMAScript.
-/

namespace Physio

/-! ## JavaScript numbers -/

/-- A JavaScript Number: NaN, a signed infinity, or the finite value
`(-1)^neg * k * 2^-1074`.  Every binary64 value is of this form; the values
the operations below produce have a magnitude `k` of at most 53 significant
bits below `2^2098`. -/
inductive F64 where
  | nan : F64
  | inf (neg : Bool) : F64
  | fin (neg : Bool) (k : Nat) : F64
  deriving DecidableEq, Repr

namespace F64

/-- Number of units of `2^-1074` in `1.0`. -/
def unit : Nat := 1 <<< 1074

/-- First magnitude (in units) that no longer fits binary64: `2^1024`. -/
def overflowBound : Nat := 1 <<< 2098

/-- Smallest `j` reached within `fuel` steps with `n < 2^(2^j)`. -/
def bitLenUp : Nat → Nat → Nat → Nat
  | 0, _, j => j
  | fuel + 1, n, j => if n >>> (1 <<< j) = 0 then j else bitLenUp fuel n (j + 1)

/-- Bit length of `n < 2^(2^j)` added to `acc`, by halving the window. -/
def bitLenDown : Nat → Nat → Nat → Nat
  | 0, n, acc => if n = 0 then acc else acc + 1
  | j + 1, n, acc =>
    if n >>> (1 <<< j) = 0 then bitLenDown j n acc
    else bitLenDown j (n >>> (1 <<< j)) (acc + (1 <<< j))

/-- Number of binary digits of `n` (`0` for `0`). -/
def bitLen (n : Nat) : Nat := bitLenDown (bitLenUp n n 0) n 0

/-- Round the non-negative rational `N / D` (counted in units of `2^-1074`)
to the nearest binary64 magnitude, ties to even.  `none` is overflow. -/
def roundUnits (N D : Nat) : Option Nat :=
  let q := N / D
  let shift := bitLen q - 53
  let g := 1 <<< shift
  let n := q / g
  let R := N - n * g * D
  let n1 := if 2 * R > g * D then n + 1 else if 2 * R = g * D then n + n % 2 else n
  let k := n1 * g
  if overflowBound ≤ k then none else some k

/-- Signed result of rounding `N / D` units. -/
def ofRounded (neg : Bool) (N D : Nat) : F64 :=
  match roundUnits N D with
  | some k => fin neg k
  | none => inf neg

/-- The Number value of a natural-number literal. -/
def ofNat (n : Nat) : F64 := ofRounded false (n * unit) 1

/-- The Number value of the decimal literal `num / den`, for instance
`0.15` is `ofDec 15 100`. -/
def ofDec (num den : Nat) : F64 := ofRounded false (num * unit) den

/-- Unary minus. -/
def neg : F64 → F64
  | nan => nan
  | inf s => inf (!s)
  | fin s k => fin (!s) k

/-- The function `Math.abs`. -/
def abs : F64 → F64
  | nan => nan
  | inf _ => inf false
  | fin _ k => fin false k

/-- Addition `x + y`. -/
def add : F64 → F64 → F64
  | nan, _ => nan
  | _, nan => nan
  | inf s, inf t => if s = t then inf s else nan
  | inf s, fin _ _ => inf s
  | fin _ _, inf t => inf t
  | fin s a, fin t b =>
    if s = t then
      ofRounded s (a + b) 1
    else if a = b then
      fin false 0
    else if b < a then
      ofRounded s (a - b) 1
    else
      ofRounded t (b - a) 1

/-- Subtraction `x - y`. -/
def sub (x y : F64) : F64 := add x (neg y)

/-- Multiplication `x * y`. -/
def mul : F64 → F64 → F64
  | nan, _ => nan
  | _, nan => nan
  | inf s, inf t => inf (xor s t)
  | inf s, fin t b => if b = 0 then nan else inf (xor s t)
  | fin s a, inf t => if a = 0 then nan else inf (xor s t)
  | fin s a, fin t b => ofRounded (xor s t) (a * b) unit

/-- Division `x / y`. -/
def div : F64 → F64 → F64
  | nan, _ => nan
  | _, nan => nan
  | inf _, inf _ => nan
  | inf s, fin t _ => inf (xor s t)
  | fin s _, inf t => fin (xor s t) 0
  | fin s a, fin t b =>
    if b = 0 then
      if a = 0 then nan else inf (xor s t)
    else
      ofRounded (xor s t) (a * unit) b

/-- Newton iteration for the integer square root, descending from a start
value above the root. -/
def isqrtAux (n : Nat) : Nat → Nat → Nat
  | 0, x => x
  | fuel + 1, x =>
    let y := (x + n / x) / 2
    if y < x then isqrtAux n fuel y else x

/-- Integer square root: the largest `s` with `s * s ≤ n`. -/
def isqrt (n : Nat) : Nat :=
  if n = 0 then 0 else isqrtAux n (bitLen n + 2) (1 <<< (bitLen n / 2 + 1))

/-- The function `Math.sqrt`, correctly rounded (IEEE-754 squareRoot). -/
def sqrt : F64 → F64
  | nan => nan
  | inf s => if s then nan else inf false
  | fin s k =>
    if k = 0 then fin s 0
    else if s then nan
    else
      let m := k * unit * 16
      let r := isqrt m
      ofRounded false (2 * r + (if r * r = m then 0 else 1)) 8

/-- The exponentiation `x ** 2`, computed as the rounded product `x * x`. -/
def sq (x : F64) : F64 := mul x x

/-- Position of a non-NaN value on the extended number line, in units; both
zeros sit at `0`. -/
def key : F64 → Int
  | nan => 0
  | inf s => if s then -(overflowBound : Int) else (overflowBound : Int)
  | fin s k => if s then -(k : Int) else (k : Int)

/-- Whether the value is NaN. -/
def isNaN : F64 → Bool
  | nan => true
  | _ => false

/-- The comparison `x < y`; false when either side is NaN. -/
def lt (x y : F64) : Bool := !x.isNaN && !y.isNaN && decide (x.key < y.key)

/-- The comparison `x <= y`; false when either side is NaN. -/
def le (x y : F64) : Bool := !x.isNaN && !y.isNaN && decide (x.key ≤ y.key)

/-- The comparison `x > y`. -/
def gt (x y : F64) : Bool := lt y x

/-- The comparison `x >= y`. -/
def ge (x y : F64) : Bool := le y x

/-- Truthiness of a Number: `0`, `-0` and NaN are falsy. -/
def truthy : F64 → Bool
  | nan => false
  | inf _ => true
  | fin _ k => k != 0

/-- The constant `Math.PI`, the binary64 value `0x400921FB54442D18`
(`7074237752028440 * 2^-51`). -/
def PI : F64 := fin false (7074237752028440 <<< 1023)

/-- The function `Math.acos`.  ECMAScript fixes the results for NaN, for
arguments outside `[-1, 1]` (NaN) and for `1` (`+0`); elsewhere the result is
implementation-approximated and is taken from `acosApprox`. -/
def acos (acosApprox : F64 → F64) (x : F64) : F64 :=
  if x.isNaN then nan
  else if gt x (ofNat 1) then nan
  else if lt x (neg (ofNat 1)) then nan
  else if x = ofNat 1 then fin false 0
  else acosApprox x

/-- The function `Math.round`: the nearest integer, ties towards `+∞`; values
in `[-0.5, -0]` give `-0`. -/
def round : F64 → F64
  | nan => nan
  | inf s => inf s
  | fin s k =>
    if s then
      if 2 * k ≤ unit then fin true 0
      else fin true ((2 * k - unit + (2 * unit - 1)) / (2 * unit) * unit)
    else fin false ((2 * k + unit) / (2 * unit) * unit)

/-- The function `Math.max` on two arguments. -/
def max (x y : F64) : F64 :=
  if x.isNaN || y.isNaN then nan
  else if lt x y then y
  else if lt y x then x
  else if x = fin true 0 then y
  else x

/-- The function `Math.min` on two arguments. -/
def min (x y : F64) : F64 :=
  if x.isNaN || y.isNaN then nan
  else if lt x y then x
  else if lt y x then y
  else if x = fin true 0 then x
  else y

/-- The magnitude `roundUnits` computes before its overflow check. -/
def roundRaw (N D : Nat) : Nat :=
  let q := N / D
  let shift := bitLen q - 53
  let g := 1 <<< shift
  let n := q / g
  let R := N - n * g * D
  let n1 := if 2 * R > g * D then n + 1 else if 2 * R = g * D then n + n % 2 else n
  n1 * g

/-- Round-to-nearest, ties-to-even, of the integer `x` onto the multiples of
`g`. -/
def rne (x g : Nat) : Nat :=
  (if 2 * (x % g) > g then x / g + 1 else if 2 * (x % g) = g then x / g + (x / g) % 2 else x / g) * g

/-- Rounding of the integer `x` to 53 significant bits. -/
def rInt (x : Nat) : Nat := rne x (2 ^ (bitLen x - 53))

/-- A magnitude with at most 53 significant bits. -/
def Rep (k : Nat) : Prop := ∃ n s, n ≤ 2 ^ 53 ∧ k = n * 2 ^ s

/-- The value `w = fl(v * 100)` of a positive `v`, as the capped rounding of
`k * 100`. -/
def capped (r : Nat) : F64 := if overflowBound ≤ r then inf false else fin false r

end F64

open F64

/-! ## angleCalculations.js -/

/-- A pose landmark `{x, y, z, visibility}`; a missing numeric field reads as
`undefined`, which every arithmetic operation turns into NaN. -/
structure Landmark where
  x : F64
  y : F64
  z : F64
  visibility : F64
  deriving DecidableEq, Repr

/-- A landmarks argument: absent (`null` / `undefined`) or an array whose
entries may themselves be absent. -/
abbrev Landmarks := Option (List (Option Landmark))

/-- The array access `landmarks[i]`. -/
def Landmarks.at (l : List (Option Landmark)) (i : Nat) : Option Landmark :=
  (l.get? i).join

/-- The function `calculateAngle(pointA, pointB, pointC)`. -/
def calculateAngle (acosApprox : F64 → F64) (pointA pointB pointC : Option Landmark) : F64 :=
  match pointA, pointB, pointC with
  | some a, some b, some c =>
    let bax := sub a.x b.x
    let bay := sub a.y b.y
    let baz := sub a.z b.z
    let bcx := sub c.x b.x
    let bcy := sub c.y b.y
    let bcz := sub c.z b.z
    let dotProduct := add (add (mul bax bcx) (mul bay bcy)) (mul baz bcz)
    let magnitudeBA := sqrt (add (add (sq bax) (sq bay)) (sq baz))
    let magnitudeBC := sqrt (add (add (sq bcx) (sq bcy)) (sq bcz))
    let angleRadians := acos acosApprox (div dotProduct (mul magnitudeBA magnitudeBC))
    mul angleRadians (div (ofNat 180) PI)
  | _, _, _ => ofNat 0

/-- The vector `from - to` that `calculateAngle` forms, as its three
components. -/
def vecFrom (p b : Landmark) : F64 × F64 × F64 :=
  (sub p.x b.x, sub p.y b.y, sub p.z b.z)

/-- The magnitude `Math.sqrt(v.x ** 2 + v.y ** 2 + v.z ** 2)`. -/
def magnitude (v : F64 × F64 × F64) : F64 :=
  sqrt (add (add (sq v.1) (sq v.2.1)) (sq v.2.2))

/-- The dot product `u.x * v.x + u.y * v.y + u.z * v.z`. -/
def dot (u v : F64 × F64 × F64) : F64 :=
  add (add (mul u.1 v.1) (mul u.2.1 v.2.1)) (mul u.2.2 v.2.2)

/-- The value `dotProduct / (magnitudeBA * magnitudeBC)` that `calculateAngle`
hands to `Math.acos`. -/
def cosArg (a b c : Landmark) : F64 :=
  div (dot (vecFrom a b) (vecFrom c b)) (mul (magnitude (vecFrom a b)) (magnitude (vecFrom c b)))

/-- Whether a Number is `0` or `-0`. -/
def F64.isZero : F64 → Bool
  | .fin _ k => k == 0
  | _ => false

/-- The clamp `min(max(x, lo), hi)`. -/
def clamp (x lo hi : F64) : F64 := F64.min (F64.max x lo) hi

/-- The angle the specification prescribes for `angleBetween(A, B, C)`: `0`
for an absent point or a zero magnitude, otherwise the inverse cosine of the
ratio clamped to `[-1, 1]`, in degrees.  Written from the specification, for
comparison with `calculateAngle`. -/
def angleBetweenSpec (acosApprox : F64 → F64) (pointA pointB pointC : Option Landmark) : F64 :=
  match pointA, pointB, pointC with
  | some a, some b, some c =>
    if (magnitude (vecFrom a b)).isZero || (magnitude (vecFrom c b)).isZero then ofNat 0
    else mul (acos acosApprox (clamp (cosArg a b c) (neg (ofNat 1)) (ofNat 1))) (div (ofNat 180) PI)
  | _, _, _ => ofNat 0

/-- A present point with the given coordinates (and visibility `1`). -/
def pt (x y z : F64) : Option Landmark := some { x := x, y := y, z := z, visibility := ofNat 1 }

/-- The object returned by `calculateJointAngles`. -/
structure JointAngles where
  leftElbow : F64
  leftShoulder : F64
  leftHip : F64
  leftKnee : F64
  rightElbow : F64
  rightShoulder : F64
  rightHip : F64
  rightKnee : F64
  deriving DecidableEq, Repr

/-- The function `calculateJointAngles(landmarks)`; `none` is `null`. -/
def calculateJointAngles (acosApprox : F64 → F64) (landmarks : Landmarks) : Option JointAngles :=
  match landmarks with
  | none => none
  | some l =>
    if l.length < 33 then none
    else
      let p := Landmarks.at l
      some {
        leftElbow := calculateAngle acosApprox (p 11) (p 13) (p 15)
        leftShoulder := calculateAngle acosApprox (p 13) (p 11) (p 23)
        leftHip := calculateAngle acosApprox (p 11) (p 23) (p 25)
        leftKnee := calculateAngle acosApprox (p 23) (p 25) (p 27)
        rightElbow := calculateAngle acosApprox (p 12) (p 14) (p 16)
        rightShoulder := calculateAngle acosApprox (p 14) (p 12) (p 24)
        rightHip := calculateAngle acosApprox (p 12) (p 24) (p 26)
        rightKnee := calculateAngle acosApprox (p 24) (p 26) (p 28) }

/-- The `x`, `y`, `z` of a possibly absent landmark, without its
visibility. -/
def coords (p : Option Landmark) : Option (F64 × F64 × F64) :=
  p.map fun q => (q.x, q.y, q.z)

/-- The 12 landmark indices `calculateJointAngles` reads. -/
def jointIndices : List Nat := [11, 12, 13, 14, 15, 16, 23, 24, 25, 26, 27, 28]

/-- A raised JavaScript exception. -/
inductive JSError where
  | typeError : JSError
  deriving DecidableEq, Repr

deriving instance DecidableEq for Except

/-- The midpoint coordinate `(a + b) / 2`. -/
def mid (a b : F64) : F64 := div (add a b) (ofNat 2)

/-- The function `calculateBackStraightness(landmarks)`.  Reading `.x` of an
absent entry raises a `TypeError`. -/
def calculateBackStraightness (landmarks : Landmarks) : Except JSError F64 :=
  match landmarks with
  | none => .ok (ofNat 0)
  | some l =>
    if l.length < 33 then .ok (ofNat 0)
    else
      match Landmarks.at l 11, Landmarks.at l 12, Landmarks.at l 23, Landmarks.at l 24 with
      | some leftShoulder, some rightShoulder, some leftHip, some rightHip =>
        let smx := mid leftShoulder.x rightShoulder.x
        let smy := mid leftShoulder.y rightShoulder.y
        let smz := mid leftShoulder.z rightShoulder.z
        let hmx := mid leftHip.x rightHip.x
        let hmy := mid leftHip.y rightHip.y
        let hmz := mid leftHip.z rightHip.z
        let verticalDist := abs (sub smy hmy)
        let totalDist := sqrt (add (add (sq (sub smx hmx)) (sq (sub smy hmy))) (sq (sub smz hmz)))
        .ok (div verticalDist totalDist)
      | _, _, _, _ => .error .typeError

/-- A pose of 33 landmarks with the given shoulders (indices 11, 12) and hips
(indices 23, 24); every other landmark sits at the origin. -/
def poseOf (leftShoulder rightShoulder leftHip rightHip : Landmark) : List (Option Landmark) :=
  List.replicate 11 (some ⟨ofNat 0, ofNat 0, ofNat 0, ofNat 1⟩) ++
    [some leftShoulder, some rightShoulder] ++
    List.replicate 10 (some ⟨ofNat 0, ofNat 0, ofNat 0, ofNat 1⟩) ++
    [some leftHip, some rightHip] ++
    List.replicate 8 (some ⟨ofNat 0, ofNat 0, ofNat 0, ofNat 1⟩)

/-- An upright pose: shoulders at `y = 0.3`, hips at `y = 0.6`. -/
def uprightPose : List (Option Landmark) :=
  poseOf ⟨ofDec 4 10, ofDec 3 10, ofNat 0, ofNat 1⟩ ⟨ofDec 6 10, ofDec 3 10, ofNat 0, ofNat 1⟩
    ⟨ofDec 5 10, ofDec 6 10, ofNat 0, ofNat 1⟩ ⟨ofDec 6 10, ofDec 6 10, ofNat 0, ofNat 1⟩

/-- A value whose sign bit is clear: NaN, `+∞`, or a finite value from `+0`
upwards. -/
def NonNeg : F64 → Prop
  | .nan => True
  | .inf s => s = false
  | .fin s _ => s = false

/-! ## exerciseValidation.js -/

/-- A target range `{min, max}`. -/
structure Range where
  min : F64
  max : F64
  deriving DecidableEq, Repr

/-- A profile target `{min, max, weight}`. -/
structure Target where
  min : F64
  max : F64
  weight : F64
  deriving DecidableEq, Repr

/-- The `{min, max}` part that `validateAngle` reads from a target. -/
def Target.range (t : Target) : Range := { min := t.min, max := t.max }

/-- An exercise profile `{name, description, targets}`; `targets` lists the
entries in property order, as `Object.entries` yields them. -/
structure Exercise where
  name : String
  description : String
  targets : List (String × Target)
  deriving DecidableEq, Repr

/-- The profile `EXERCISES.SQUAT`. -/
def SQUAT : Exercise :=
  { name := "Squat"
    description := "Proper squat form with knees at 80-110 degrees"
    targets :=
      [ ("leftKnee", { min := ofNat 80, max := ofNat 110, weight := ofDec 10 10 }),
        ("rightKnee", { min := ofNat 80, max := ofNat 110, weight := ofDec 10 10 }),
        ("backStraightness", { min := ofDec 85 100, max := ofDec 10 10, weight := ofDec 8 10 }) ] }

/-- The profile `EXERCISES.LATERAL_RAISE`. -/
def LATERAL_RAISE : Exercise :=
  { name := "Lateral Shoulder Raise"
    description := "Arms raised to shoulder level (160-180 degrees)"
    targets :=
      [ ("leftShoulder", { min := ofNat 160, max := ofNat 180, weight := ofDec 10 10 }),
        ("rightShoulder", { min := ofNat 160, max := ofNat 180, weight := ofDec 10 10 }) ] }

/-- What the property read `EXERCISES[key]` yields: a profile, a member
inherited from `Object.prototype` (truthy, but without `targets`), or
`undefined`. -/
inductive Member where
  | profile (e : Exercise) : Member
  | inherited : Member
  | undefined : Member
  deriving DecidableEq, Repr

/-- Property names every plain object inherits from `Object.prototype`. -/
def objectPrototypeKeys : List String :=
  [ "constructor", "__defineGetter__", "__defineSetter__", "hasOwnProperty",
    "__lookupGetter__", "__lookupSetter__", "isPrototypeOf", "propertyIsEnumerable",
    "toString", "valueOf", "__proto__", "toLocaleString" ]

/-- The property read `EXERCISES[key]`. -/
def EXERCISES (key : String) : Member :=
  if key = "SQUAT" then .profile SQUAT
  else if key = "LATERAL_RAISE" then .profile LATERAL_RAISE
  else if key ∈ objectPrototypeKeys then .inherited
  else .undefined

/-- The three validation statuses `'correct'`, `'slight'`, `'incorrect'`. -/
inductive Status where
  | correct : Status
  | slight : Status
  | incorrect : Status
  deriving DecidableEq, Repr

/-- The function `validateAngle(angle, target)`; an absent argument is
`none`. -/
def validateAngle (angle : Option F64) (target : Option Range) : Status :=
  match angle, target with
  | some angle, some target =>
    if !angle.truthy then .incorrect
    else
      let min := target.min
      let max := target.max
      let tolerance := mul (sub max min) (ofDec 15 100)
      if ge angle min && le angle max then .correct
      else if (ge angle (sub min tolerance) && lt angle min) ||
          (gt angle max && le angle (add max tolerance)) then .slight
      else .incorrect
  | _, _ => .incorrect

/-- The function `getJointColor(status)`. -/
def getJointColor : Status → String
  | .correct => "#22C55E"
  | .slight => "#EAB308"
  | .incorrect => "#EF4444"

/-- An entry of `jointStatus`. -/
structure JointEntry where
  value : Option F64
  status : Status
  target : Target
  color : String
  deriving DecidableEq, Repr

/-- The holes of one error line
`${joint}: ${Math.round(value)}° (target: ${target.min}-${target.max}°)`. -/
structure ErrorLine where
  joint : String
  rounded : F64
  min : F64
  max : F64
  deriving DecidableEq, Repr

/-- The object returned by `validateExercise`. -/
structure ValidationResult where
  isValid : Bool
  accuracy : F64
  jointStatus : List (String × JointEntry)
  errors : List ErrorLine
  deriving DecidableEq, Repr

/-- A joint-angle argument: a lookup from property name to value,
`undefined` being `none`. -/
abbrev AngleSet := String → Option F64

/-- The object `calculateJointAngles` returns, read by property name. -/
def JointAngles.toAngleSet (a : JointAngles) : AngleSet := fun key =>
  if key = "leftElbow" then some a.leftElbow
  else if key = "leftShoulder" then some a.leftShoulder
  else if key = "leftHip" then some a.leftHip
  else if key = "leftKnee" then some a.leftKnee
  else if key = "rightElbow" then some a.rightElbow
  else if key = "rightShoulder" then some a.rightShoulder
  else if key = "rightHip" then some a.rightHip
  else if key = "rightKnee" then some a.rightKnee
  else none

/-- The accumulators of the loop in `validateExercise`. -/
structure LoopState where
  jointStatus : List (String × JointEntry)
  errors : List ErrorLine
  totalScore : F64
  totalWeight : F64
  deriving DecidableEq, Repr

/-- The score of a status: `1.0`, `0.5` or `0.0`. -/
def jointScore : Status → F64
  | .correct => ofDec 10 10
  | .slight => ofDec 5 10
  | .incorrect => ofDec 0 10

/-- The function `Math.round` applied to a possibly `undefined` value. -/
def roundValue : Option F64 → F64
  | some v => F64.round v
  | none => nan

/-- The value and status the loop body determines for one target: the back
straightness of the landmarks, scaled by 100 together with the bounds, for
`backStraightness`, the named angle otherwise. -/
def measure (angles : AngleSet) (landmarks : Landmarks) (joint : String) (target : Target) :
    Except JSError (Option F64 × Status) :=
  if joint = "backStraightness" then
    match calculateBackStraightness landmarks with
    | .ok value =>
      .ok (some value, validateAngle (some (mul value (ofNat 100)))
        (some { min := mul target.min (ofNat 100), max := mul target.max (ofNat 100) }))
    | .error e => .error e
  else
    .ok (angles joint, validateAngle (angles joint) (some target.range))

/-- The accumulators after the loop body has handled one target with the
given value and status. -/
def record (st : LoopState) (joint : String) (target : Target) (value : Option F64)
    (status : Status) : LoopState :=
  { jointStatus := st.jointStatus ++
      [(joint, { value := value, status := status, target := target,
                 color := getJointColor status })]
    errors :=
      if status = .incorrect then
        st.errors ++ [{ joint := joint, rounded := roundValue value,
                        min := target.min, max := target.max }]
      else st.errors
    totalScore := add st.totalScore (mul (jointScore status) target.weight)
    totalWeight := add st.totalWeight target.weight }

/-- One iteration of the loop over `Object.entries(exercise.targets)`. -/
def validateStep (angles : AngleSet) (landmarks : Landmarks) (st : LoopState)
    (entry : String × Target) : Except JSError LoopState :=
  match measure angles landmarks entry.1 entry.2 with
  | .error e => .error e
  | .ok (value, status) => .ok (record st entry.1 entry.2 value status)

/-- The loop of `validateExercise` over the remaining target entries. -/
def validateLoop (angles : AngleSet) (landmarks : Landmarks) :
    List (String × Target) → LoopState → Except JSError LoopState
  | [], st => .ok st
  | entry :: rest, st =>
    match validateStep angles landmarks st entry with
    | .ok st1 => validateLoop angles landmarks rest st1
    | .error e => .error e

/-- The result returned for a missing angle set or an unknown profile. -/
def emptyResult : ValidationResult :=
  { isValid := false, accuracy := ofNat 0, jointStatus := [], errors := [] }

/-- The function `validateExercise(angles, landmarks, exerciseType)`. -/
def validateExercise (angles : Option AngleSet) (landmarks : Landmarks)
    (exerciseType : Option String) : Except JSError ValidationResult :=
  match angles, exerciseType with
  | some angles, some exerciseType =>
    if exerciseType = "" then .ok emptyResult
    else
      match EXERCISES exerciseType with
      | .undefined => .ok emptyResult
      | .inherited => .error .typeError
      | .profile exercise =>
        match validateLoop angles landmarks exercise.targets
            { jointStatus := [], errors := [], totalScore := ofNat 0, totalWeight := ofNat 0 } with
        | .error e => .error e
        | .ok st =>
          let accuracy :=
            if gt st.totalWeight (ofNat 0) then mul (div st.totalScore st.totalWeight) (ofNat 100)
            else ofNat 0
          .ok { isValid := ge accuracy (ofNat 70)
                accuracy := F64.round accuracy
                jointStatus := st.jointStatus
                errors := st.errors }
  | _, _ => .ok emptyResult

/-- The value and status the loop body records for one target, with the
defaults `undefined` and `'incorrect'` where `measure` raises. -/
def measured (angles : AngleSet) (landmarks : Landmarks) (entry : String × Target) :
    Option F64 × Status :=
  match measure angles landmarks entry.1 entry.2 with
  | .ok p => p
  | .error _ => (none, .incorrect)

/-- The accumulators after the loop body has handled every entry of
`targets` in turn. -/
def recordAll (angles : AngleSet) (landmarks : Landmarks) :
    List (String × Target) → LoopState → LoopState
  | [], st => st
  | entry :: rest, st =>
    recordAll angles landmarks rest
      (record st entry.1 entry.2 (measured angles landmarks entry).1
        (measured angles landmarks entry).2)

/-- The accumulators before the first iteration. -/
def initialState : LoopState :=
  { jointStatus := [], errors := [], totalScore := ofNat 0, totalWeight := ofNat 0 }

/-- The unrounded accuracy `totalWeight > 0 ? (totalScore / totalWeight) * 100 : 0`. -/
def rawAccuracy (totalScore totalWeight : F64) : F64 :=
  if gt totalWeight (ofNat 0) then mul (div totalScore totalWeight) (ofNat 100) else ofNat 0

/-- The object `validateExercise` builds from the final accumulators. -/
def resultOf (st : LoopState) : ValidationResult :=
  { isValid := ge (rawAccuracy st.totalScore st.totalWeight) (ofNat 70)
    accuracy := F64.round (rawAccuracy st.totalScore st.totalWeight)
    jointStatus := st.jointStatus
    errors := st.errors }

/-- The text of an error line,
`${joint}: ${Math.round(value)}° (target: ${target.min}-${target.max}°)`;
`numToString` is the Number-to-String conversion of the template literal. -/
def ErrorLine.render (numToString : F64 → String) (line : ErrorLine) : String :=
  line.joint ++ ": " ++ numToString line.rounded ++ "° (target: " ++
    numToString line.min ++ "-" ++ numToString line.max ++ "°)"

/-- The error line the loop body pushes for a `jointStatus` entry, if its
status is `'incorrect'`. -/
def errorLineOf (p : String × JointEntry) : Option ErrorLine :=
  if p.2.status = .incorrect then
    some { joint := p.1, rounded := roundValue p.2.value,
           min := p.2.target.min, max := p.2.target.max }
  else none

/-- The `name` property of the member `EXERCISES[key]` inherited from
`Object.prototype`: the function name, `"Object"` for `constructor`, and
`undefined` for the prototype object `__proto__`. -/
def inheritedName (key : String) : String :=
  if key = "constructor" then "Object"
  else if key = "__proto__" then "undefined"
  else key

/-- The function `getFeedbackMessage(validation, exerciseType)`; the error
lines of the validation are rendered with `numToString`.  Reading `.name` of
an `undefined` exercise raises a `TypeError`. -/
def getFeedbackMessage (numToString : F64 → String) (validation : Option ValidationResult)
    (exerciseType : Option String) : Except JSError String :=
  match validation, exerciseType with
  | some validation, some exerciseType =>
    if exerciseType = "" then .ok ""
    else if ge validation.accuracy (ofNat 90) then
      match EXERCISES exerciseType with
      | .profile exercise => .ok ("Excellent form! " ++ exercise.name ++ " performed correctly.")
      | .inherited => .ok ("Excellent form! " ++ inheritedName exerciseType ++ " performed correctly.")
      | .undefined => .error .typeError
    else if ge validation.accuracy (ofNat 70) then
      .ok ("Good effort! Minor adjustments needed: " ++
        ", ".intercalate (validation.errors.map (ErrorLine.render numToString)))
    else
      .ok ("Form needs correction: " ++
        ", ".intercalate (validation.errors.map (ErrorLine.render numToString)))
  | _, _ => .ok ""

/-- The function `getExerciseInstructions(exerciseType)`; an inherited member
has no `description`, which reads as `undefined` (`none`). -/
def getExerciseInstructions (exerciseType : String) : Option String :=
  match EXERCISES exerciseType with
  | .profile exercise => some exercise.description
  | .inherited => none
  | .undefined => some ""

/-! ## SessionContext.jsx -/

/-- An entry of the `participants` list. -/
structure Participant where
  id : String
  name : String
  deriving DecidableEq, Repr

/-- An entry of `patientStats`; an absent field is `none`. -/
structure PatientStats where
  accuracy : Option F64
  accuracyHistory : Option (List (Option F64))
  lastPoseData : Option String
  lastUpdate : Option Nat
  deriving DecidableEq, Repr

/-- The entry `{}` that spreading an absent `prev[patientId]` yields. -/
def PatientStats.empty : PatientStats :=
  { accuracy := none, accuracyHistory := none, lastPoseData := none, lastUpdate := none }

/-- An entry of the visible feedback queue `{id, message, timestamp}`; id and
timestamp are both read from the clock when the entry is made. -/
structure FeedbackMessage where
  id : Nat
  message : Option String
  timestamp : Nat
  deriving DecidableEq, Repr

/-- A parsed message envelope `{type, ...fields}`; a missing field is
`none`. -/
structure Envelope where
  type : String
  user_id : Option String
  target_patient : Option String
  message : Option String
  pose_data : Option String
  accuracy : Option F64
  report : Option String
  deriving DecidableEq, Repr

/-- The `readyState` of a WebSocket. -/
inductive ReadyState where
  | connecting : ReadyState
  | opened : ReadyState
  | closing : ReadyState
  | closed : ReadyState
  deriving DecidableEq, Repr

/-- A WebSocket: its `readyState` and the messages handed to `send`. -/
structure WebSocket where
  readyState : ReadyState
  sent : List Envelope
  deriving DecidableEq, Repr

/-- The method `ws.close()`. -/
def WebSocket.close (w : WebSocket) : WebSocket :=
  match w.readyState with
  | .closed => w
  | _ => { w with readyState := .closing }

/-- The state held by `SessionProvider`, together with the effects its
handlers leave behind: pending expiry timers `(due time, feedback id)`,
downloaded reports and dispatched `webrtc_signal` events. -/
structure SessionState where
  sessionCode : String
  userId : String
  userRole : String
  userName : String
  isInSession : Bool
  participants : List Participant
  patientStats : List (String × PatientStats)
  selectedExercise : String
  feedbackMessages : List FeedbackMessage
  ws : Option WebSocket
  isConnected : Bool
  timers : List (Nat × Nat)
  downloads : List (Option String)
  events : List Envelope
  deriving DecidableEq, Repr

/-- The property read `prev[patientId]`. -/
def statsOf (stats : List (String × PatientStats)) (patientId : String) : Option PatientStats :=
  stats.lookup patientId

/-- The object `{...prev, [patientId]: entry}`, its keys in insertion order:
an existing key keeps its place, a new key is added at the end.  (JavaScript
lists integer-like keys first; nothing here depends on the order of the keys:
`statsOf` looks one key up and `patients` is only counted.) -/
def setStats (stats : List (String × PatientStats)) (patientId : String) (entry : PatientStats) :
    List (String × PatientStats) :=
  if (stats.lookup patientId).isSome then
    stats.map fun p => if p.1 = patientId then (patientId, entry) else p
  else stats ++ [(patientId, entry)]

/-- The property key a possibly `undefined` user id is converted to. -/
def keyOf (userId : Option String) : String := userId.getD "undefined"

/-- The function `updatePatientPoseData(patientId, poseData)`. -/
def updatePatientPoseData (now : Nat) (st : SessionState) (patientId : String)
    (poseData : Option String) : SessionState :=
  let prev := (statsOf st.patientStats patientId).getD PatientStats.empty
  let entry : PatientStats := { prev with lastPoseData := poseData, lastUpdate := some now }
  { st with patientStats := setStats st.patientStats patientId entry }

/-- The function `updatePatientAccuracy(patientId, accuracy)`. -/
def updatePatientAccuracy (st : SessionState) (patientId : String) (accuracy : Option F64) :
    SessionState :=
  let prev := (statsOf st.patientStats patientId).getD PatientStats.empty
  let entry : PatientStats :=
    { prev with
      accuracy := accuracy
      accuracyHistory := some (prev.accuracyHistory.getD [] ++ [accuracy]) }
  { st with patientStats := setStats st.patientStats patientId entry }

/-- The function `addFeedbackMessage(message)`: the entry is appended to the
queue and a timer is set that removes the entries with its id 5000 ms
later. -/
def addFeedbackMessage (now : Nat) (st : SessionState) (message : Option String) : SessionState :=
  { st with
    feedbackMessages := st.feedbackMessages ++ [{ id := now, message := message, timestamp := now }]
    timers := st.timers ++ [(now + 5000, now)] }

/-- The function `handleSessionEnd(report)` of the render whose `ws` is
`st.ws`: it closes that socket.  Called from `endSession` this is the
connection of the current state; called from the socket's handler it is the
`ws` of the handler's closure (see `onmessage`). -/
def handleSessionEnd (st : SessionState) (report : Option String) : SessionState :=
  { st with
    downloads := st.downloads ++ [report]
    ws := st.ws.map WebSocket.close
    isInSession := false }

/-- The function `handleWebSocketMessage(data)`, run at clock time `now`, of
the render whose `userRole` and `ws` are those of `st`: these are the values
the handler reads.  The handler installed on a socket is `onmessage`, which
takes them from the render in which the session was created or joined. -/
def handleWebSocketMessage (now : Nat) (st : SessionState) (data : Envelope) : SessionState :=
  if data.type = "user_joined" then st
  else if data.type = "user_left" then
    { st with participants := st.participants.filter fun p => some p.id ≠ data.user_id }
  else if data.type = "feedback" then addFeedbackMessage now st data.message
  else if data.type = "pose_update" then
    if st.userRole = "therapist" then updatePatientPoseData now st (keyOf data.user_id) data.pose_data
    else st
  else if data.type = "accuracy_update" then
    if st.userRole = "therapist" then updatePatientAccuracy st (keyOf data.user_id) data.accuracy
    else st
  else if data.type = "session_ended" then handleSessionEnd st data.report
  else if data.type = "webrtc_signal" then { st with events := st.events ++ [data] }
  else st

/-- An `accuracy_update` envelope from `patientId` with the given value. -/
def accuracyUpdate (patientId : String) (accuracy : F64) : Envelope :=
  { type := "accuracy_update", user_id := some patientId, target_patient := none,
    message := none, pose_data := none, accuracy := some accuracy, report := none }

/-- A `pose_update` envelope from `patientId` with the given payload. -/
def poseUpdate (patientId : String) (poseData : String) : Envelope :=
  { type := "pose_update", user_id := some patientId, target_patient := none,
    message := none, pose_data := some poseData, accuracy := none, report := none }

/-- The `lastUpdate` recorded for a patient, if any. -/
def lastUpdateOf (st : SessionState) (patientId : String) : Option Nat :=
  (statsOf st.patientStats patientId).bind fun e => e.lastUpdate

/-- A `feedback` envelope for `target` with the given text. -/
def feedbackFor (target : String) (message : String) : Envelope :=
  { type := "feedback", user_id := none, target_patient := some target,
    message := some message, pose_data := none, accuracy := none, report := none }

/-- A state of a participant in a session with an open connection, before any
message has been handled, whose handlers read the role `userRole`.  As the
handler of a socket keeps the role held when its session was created or joined
(see `onmessage`), with the role `"therapist"` this is the state of a provider
that already held that role when it created the session. -/
def freshState (userId userRole : String) : SessionState :=
  { sessionCode := "ABC123", userId := userId, userRole := userRole, userName := "",
    isInSession := true, participants := [], patientStats := [], selectedExercise := "SQUAT",
    feedbackMessages := [], ws := some { readyState := .opened, sent := [] },
    isConnected := true, timers := [], downloads := [], events := [] }

/-- The accuracy history recorded for a patient (`[]` when there is no entry
or no history yet). -/
def historyOf (st : SessionState) (patientId : String) : List (Option F64) :=
  ((statsOf st.patientStats patientId).bind fun e => e.accuracyHistory).getD []

/-- The state after handling each envelope of a list in turn, all at clock
time `now`. -/
def handleAll (now : Nat) (st : SessionState) (msgs : List Envelope) : SessionState :=
  msgs.foldl (handleWebSocketMessage now) st

/-- The exact rational value of a finite Number (`0` for NaN and the
infinities). -/
def F64.toRat : F64 → ℚ
  | .fin s k => if s then -((k : ℚ) / (F64.unit : ℚ)) else (k : ℚ) / (F64.unit : ℚ)
  | _ => 0

/-- The score of a status as a rational: `1`, `1/2` or `0`. -/
def scoreOf : Status → ℚ
  | .correct => 1
  | .slight => 1 / 2
  | .incorrect => 0

/-- The accuracy the specification prescribes for a list of (status, weight)
pairs: `round(100 * Σ score * weight / Σ weight)` in exact arithmetic, halves
rounded up.  Written from the specification, for comparison with
`validateExercise`. -/
def accuracySpec (ws : List (Status × ℚ)) : ℤ :=
  ⌊100 * (ws.map fun p => scoreOf p.1 * p.2).sum / (ws.map fun p => p.2).sum + 1 / 2⌋

/-- The statuses and exact weights recorded in a `jointStatus` map. -/
def statusWeights (js : List (String × JointEntry)) : List (Status × ℚ) :=
  js.map fun p => (p.2.status, F64.toRat p.2.target.weight)

/-- An angle set with the two knee angles only. -/
def kneeAngles (leftKnee rightKnee : F64) : AngleSet := fun key =>
  if key = "leftKnee" then some leftKnee
  else if key = "rightKnee" then some rightKnee
  else none

/-- A value that is NaN or a (signed) zero. -/
def ZeroOrNaN (x : F64) : Prop := x = nan ∨ ∃ s, x = fin s 0

/-- The timer callback set by `addFeedbackMessage`, run when the expiry of
the entry with id `feedbackId` fires: the queue keeps the entries whose id
differs. -/
def expireFeedback (st : SessionState) (feedbackId : Nat) : SessionState :=
  { st with feedbackMessages := st.feedbackMessages.filter fun f => f.id ≠ feedbackId }

/-- The error caught by `joinSession`: `error.message` and
`error.response?.data?.detail` (`none` when a link of the chain is absent). -/
structure HttpError where
  message : String
  detail : Option String
  deriving DecidableEq, Repr

/-- The object a call of `joinSession` resolves to. -/
structure JoinResult where
  success : Bool
  error : Option String
  deriving DecidableEq, Repr

/-- The expression `detail || message` on strings: an absent or empty detail
is falsy. -/
def detailOrMessage (e : HttpError) : String :=
  match e.detail with
  | some d => if d = "" then e.message else d
  | none => e.message

/-- The function `connectWebSocket(code, user_id)`: a new socket, still
connecting, becomes the connection of the state. -/
def connectWebSocket (st : SessionState) (_code _user_id : String) : SessionState :=
  { st with ws := some { readyState := .connecting, sent := [] } }

/-- The function `joinSession(code, patientName)`; `response` is the outcome
of the join request, on success the pair `(session_code, patient_id)`. -/
def joinSession (st : SessionState) (_code patientName : String)
    (response : Except HttpError (String × String)) : SessionState × JoinResult :=
  match response with
  | .ok (session_code, patient_id) =>
    (connectWebSocket
      { st with
        sessionCode := session_code
        userId := patient_id
        userRole := "patient"
        userName := patientName
        isInSession := true } session_code patient_id,
      { success := true, error := none })
  | .error e => (st, { success := false, error := some (detailOrMessage e) })

/-- Modelled from the spec: the session record of the coordination server,
whose code is not among the sources: the session code and the identities of
the joined patients. -/
structure Session where
  code : String
  patients : List String
  deriving DecidableEq, Repr

/-- Modelled from the spec: the two rejections of a join request. -/
inductive JoinRejection where
  | capacity : JoinRejection
  | notFound : JoinRejection
  deriving DecidableEq, Repr

/-- Modelled from the spec: the join operation of the coordination server,
whose code is not among the sources.  It requires an existing session with
fewer than 3 patients, adds the new patient identity `patientId` to it, and
rejects with a capacity error if the session is full or a not-found error if
the code is unknown. -/
def serverJoin (sessions : List Session) (code patientId : String) :
    List Session × Except JoinRejection String :=
  match sessions.find? fun s => s.code = code with
  | none => (sessions, .error .notFound)
  | some s =>
    if s.patients.length < 3 then
      (sessions.map fun s2 =>
        if s2.code = code then { s2 with patients := s2.patients ++ [patientId] } else s2,
        .ok patientId)
    else (sessions, .error .capacity)

/-- Modelled from the spec: the number of patients the server holds for a
session code (`0` for an unknown code). -/
def patientCount (sessions : List Session) (code : String) : Nat :=
  match sessions.find? fun s => s.code = code with
  | none => 0
  | some s => s.patients.length

/-- The function `sendMessage(data)`: the message is handed to the socket
only when there is one and it is open. -/
def sendMessage (st : SessionState) (data : Envelope) : SessionState :=
  match st.ws with
  | some w =>
    if w.readyState = .opened then { st with ws := some { w with sent := w.sent ++ [data] } }
    else st
  | none => st

/-- The function `sendFeedback(patientId, message)`. -/
def sendFeedback (st : SessionState) (patientId message : String) : SessionState :=
  sendMessage st
    { type := "feedback", user_id := none, target_patient := some patientId,
      message := some message, pose_data := none, accuracy := none, report := none }

/-- The function `sendPoseUpdate(poseData)`. -/
def sendPoseUpdate (st : SessionState) (poseData : String) : SessionState :=
  sendMessage st
    { type := "pose_update", user_id := none, target_patient := none,
      message := none, pose_data := some poseData, accuracy := none, report := none }

/-- The body `submitPoseData` posts to the backend for storage. -/
structure PoseSubmission where
  session_code : String
  user_id : String
  accuracy : F64
  timestamp : Nat
  deriving DecidableEq, Repr

/-- The function `sendAccuracyUpdate(accuracy)`, run at clock time `now`: the
message part goes through `sendMessage`, the storage part is the returned
submission. -/
def sendAccuracyUpdate (now : Nat) (st : SessionState) (accuracy : F64) :
    SessionState × PoseSubmission :=
  (sendMessage st
      { type := "accuracy_update", user_id := none, target_patient := none,
        message := none, pose_data := none, accuracy := some accuracy, report := none },
    { session_code := st.sessionCode, user_id := st.userId, accuracy := accuracy,
      timestamp := now })

/-- The messages handed to the connection of the state so far. -/
def transmitted (st : SessionState) : List Envelope :=
  match st.ws with
  | some w => w.sent
  | none => []

/-- The function `endSession()`; `response` is the outcome of the end
request, on success the report. -/
def endSession (st : SessionState) (response : Except HttpError (Option String)) : SessionState :=
  match response with
  | .ok report => handleSessionEnd st report
  | .error _ => st

/-- The handler `websocket.onopen`, run when a connecting socket opens. -/
def onopen (st : SessionState) : SessionState :=
  match st.ws with
  | some w =>
    if w.readyState = .connecting then
      { st with ws := some { w with readyState := .opened }, isConnected := true }
    else st
  | none => st

/-- The handler `websocket.onclose`, run when the socket has closed. -/
def onclose (st : SessionState) : SessionState :=
  { st with ws := st.ws.map fun w => { w with readyState := .closed }, isConnected := false }

/-- The tail of `handlePoseResults(results)` in PatientView.jsx, for a frame
that has been processed and validated at clock time `now` with the given
accuracy: the accuracy is sent when `Date.now() % 2000 < 100`. -/
def handlePoseResults (now : Nat) (st : SessionState) (accuracy : F64) : SessionState :=
  if now % 2000 < 100 then (sendAccuracyUpdate now st accuracy).1 else st

/-- The state after a sequence of processed frames `(time, accuracy)`. -/
def processFrames (st : SessionState) (frames : List (Nat × F64)) : SessionState :=
  frames.foldl (fun s f => handlePoseResults f.1 s f.2) st

/-- The number of `accuracy_update` messages handed to the connection. -/
def accuracyUpdatesSent (st : SessionState) : Nat :=
  ((transmitted st).filter fun m => m.type = "accuracy_update").length

/-- The list `Object.entries(patientStats)` of TherapistDashboard.jsx, whose
length is shown as the number of active patients. -/
def patients (st : SessionState) : List (String × PatientStats) := st.patientStats

/-- A `user_left` envelope for `patientId`. -/
def userLeft (patientId : String) : Envelope :=
  { type := "user_left", user_id := some patientId, target_patient := none,
    message := none, pose_data := none, accuracy := none, report := none }

/-- The values of a render of `SessionProvider` that the handlers created in
that render read directly: `userRole` and `ws`.  A handler keeps the values
of its render, while an update of the form `setX(prev => ...)` works on the
current state. -/
structure Closure where
  userRole : String
  ws : Option WebSocket
  deriving DecidableEq, Repr

/-- The closure of the render whose state is `st`. -/
def closureOf (st : SessionState) : Closure := { userRole := st.userRole, ws := st.ws }

/-- The handler `websocket.onmessage` that `connectWebSocket` installs on a
new socket: the `handleWebSocketMessage` of the render in which
`createSession` or `joinSession` ran, with closure `c`.  It reads `userRole`
and `ws` from `c` and updates the current state `st`.  The socket `c.ws`, if
any, is an earlier socket and never the one the handler is installed on, which
is created after the render; so the connection of the state is left as it
is. -/
def onmessage (now : Nat) (c : Closure) (st : SessionState) (data : Envelope) : SessionState :=
  let r := handleWebSocketMessage now { st with userRole := c.userRole, ws := c.ws } data
  { r with userRole := st.userRole, ws := st.ws }

/-- The state after the socket's handler with closure `c` has handled each
envelope of a list in turn, all at clock time `now`. -/
def receiveAll (now : Nat) (c : Closure) (st : SessionState) (msgs : List Envelope) :
    SessionState :=
  msgs.foldl (onmessage now c) st

/-- The object a call of `createSession` resolves to. -/
structure CreateResult where
  success : Bool
  sessionCode : Option String
  error : Option String
  deriving DecidableEq, Repr

/-- The function `createSession(therapistName)`; `response` is the outcome of
the create request, on success the pair `(session_code, therapist_id)`.  The
socket it connects gets the handler `onmessage` with the closure of the state
`st` the function is called in. -/
def createSession (st : SessionState) (therapistName : String)
    (response : Except HttpError (String × String)) : SessionState × CreateResult :=
  match response with
  | .ok (session_code, therapist_id) =>
    (connectWebSocket
      { st with
        sessionCode := session_code
        userId := therapist_id
        userRole := "therapist"
        userName := therapistName
        isInSession := true } session_code therapist_id,
      { success := true, sessionCode := some session_code, error := none })
  | .error e => (st, { success := false, sessionCode := none, error := some e.message })

/-- A `session_ended` envelope carrying `report`. -/
def sessionEnded (report : String) : Envelope :=
  { type := "session_ended", user_id := none, target_patient := none,
    message := none, pose_data := none, accuracy := none, report := some report }

/-- What can happen to a participant without a new session being created or
joined: a message arrives on the socket, one of the send functions is called,
a frame is processed, an expiry fires, the socket opens or closes, an end
request returns. -/
inductive Action where
  | receive (now : Nat) (data : Envelope) : Action
  | send (data : Envelope) : Action
  | feedback (patientId message : String) : Action
  | pose (poseData : String) : Action
  | accuracy (now : Nat) (value : F64) : Action
  | frame (now : Nat) (value : F64) : Action
  | expire (feedbackId : Nat) : Action
  | opened : Action
  | closed : Action
  | endRequest (response : Except HttpError (Option String)) : Action

/-- The state after one action.  A received message is handled by the
socket's handler, whose closure `c` is that of the render in which the session
was created or joined; the send functions, the frame callback and the end
request are those of the current render and read the current state. -/
def step (c : Closure) (st : SessionState) : Action → SessionState
  | .receive now data => onmessage now c st data
  | .send data => sendMessage st data
  | .feedback patientId message => sendFeedback st patientId message
  | .pose poseData => sendPoseUpdate st poseData
  | .accuracy now value => (sendAccuracyUpdate now st value).1
  | .frame now value => handlePoseResults now st value
  | .expire feedbackId => expireFeedback st feedbackId
  | .opened => onopen st
  | .closed => onclose st
  | .endRequest response => endSession st response

/-- The state after a sequence of actions, for a socket whose handler has
the closure `c`. -/
def run (c : Closure) (st : SessionState) (actions : List Action) : SessionState :=
  actions.foldl (step c) st

/-- The connection of the state, if there is one, is closing or closed. -/
def TornDown (st : SessionState) : Prop :=
  ∀ w, st.ws = some w → w.readyState = .closing ∨ w.readyState = .closed

/-- The state of `SessionProvider` before a session is created or joined. -/
def idleState : SessionState :=
  { sessionCode := "", userId := "", userRole := "", userName := "", isInSession := false,
    participants := [], patientStats := [], selectedExercise := "SQUAT", feedbackMessages := [],
    ws := none, isConnected := false, timers := [], downloads := [], events := [] }

/-- The order of the statuses: incorrect below slight below correct. -/
def Status.rank : Status → Nat
  | .incorrect => 0
  | .slight => 1
  | .correct => 2

/-! ## Facts about the arithmetic -/

/-- Spot checks of the arithmetic against well-known binary64 results:
`0.1 + 0.2`, `Math.sqrt(2)`, `1 / 3`, the literal of `Math.PI`, a tie that
rounds the smallest subnormal to `0`, and overflow to `Infinity`. -/
theorem arithmetic_spot_checks :
    add (ofDec 1 10) (ofDec 2 10) = ofDec 30000000000000004 100000000000000000 ∧
      sqrt (ofNat 2) = ofDec 14142135623730951 10000000000000000 ∧
      div (ofNat 1) (ofNat 3) = ofDec 3333333333333333 10000000000000000 ∧
      PI = ofDec 3141592653589793 1000000000000000 ∧
      div (fin false 1) (ofNat 2) = fin false 0 ∧
      mul (fin false (1 <<< 2097)) (ofNat 2) = inf false := by
  refine ⟨by decide!, by decide!, by decide!, by decide!, by decide!, by decide!⟩

theorem nan_mul (y : F64) : mul nan y = nan := by cases y <;> rfl

theorem acos_of_gt_one (f : F64 → F64) (x : F64) (h : gt x (ofNat 1) = true) :
    acos f x = nan := by
  unfold acos
  by_cases hx : x.isNaN = true
  · simp [hx]
  · simp [hx, h]

theorem acos_of_lt_neg_one (f : F64 → F64) (x : F64) (h : lt x (neg (ofNat 1)) = true) :
    acos f x = nan := by
  unfold acos
  by_cases hx : x.isNaN = true
  · simp [hx]
  · by_cases h1 : gt x (ofNat 1) = true
    · simp [hx, h1]
    · simp [hx, h1, h]

theorem acos_nan (f : F64 → F64) : acos f nan = nan := by
  simp [acos, isNaN]

theorem acos_one (f : F64 → F64) : acos f (ofNat 1) = fin false 0 := by
  have h1 : (ofNat 1).isNaN = false := by decide!
  have h2 : gt (ofNat 1) (ofNat 1) = false := by decide!
  have h3 : lt (ofNat 1) (neg (ofNat 1)) = false := by decide!
  simp [acos, h1, h2, h3]

theorem calculateAngle_eq (f : F64 → F64) (a b c : Landmark) :
    calculateAngle f (some a) (some b) (some c) =
      mul (acos f (cosArg a b c)) (div (ofNat 180) PI) := rfl

theorem roundUnits_zero (D : Nat) : roundUnits 0 D = some 0 := by
  have h : ¬ overflowBound ≤ 0 := by decide!
  simp [roundUnits, bitLen, bitLenUp, bitLenDown, h]

theorem ofRounded_zero (s : Bool) (D : Nat) : ofRounded s 0 D = fin s 0 := by
  unfold ofRounded
  rw [roundUnits_zero]

theorem sub_self_zeroOrNaN (x : F64) : sub x x = nan ∨ sub x x = fin false 0 := by
  cases x with
  | nan => left; rfl
  | inf s => left; cases s <;> rfl
  | fin s k => right; cases s <;> simp [sub, neg, add]

theorem mul_zeroOrNaN_left (x y : F64) (hx : ZeroOrNaN x) : ZeroOrNaN (mul x y) := by
  rcases hx with rfl | ⟨s, rfl⟩
  · left; exact nan_mul y
  · cases y with
    | nan => left; rfl
    | inf t => left; simp [mul]
    | fin t b => right; exact ⟨xor s t, by simp [mul, ofRounded_zero]⟩

theorem mul_zeroOrNaN_right (x y : F64) (hy : ZeroOrNaN y) : ZeroOrNaN (mul x y) := by
  rcases hy with rfl | ⟨t, rfl⟩
  · left; cases x <;> rfl
  · cases x with
    | nan => left; rfl
    | inf s => left; simp [mul]
    | fin s a => right; exact ⟨xor s t, by simp [mul, ofRounded_zero]⟩

theorem add_zeroOrNaN (x y : F64) (hx : ZeroOrNaN x) (hy : ZeroOrNaN y) :
    ZeroOrNaN (add x y) := by
  rcases hx with rfl | ⟨s, rfl⟩
  · left; cases y <;> rfl
  · rcases hy with rfl | ⟨t, rfl⟩
    · left; rfl
    · right
      by_cases h : s = t
      · exact ⟨s, by simp [add, h, ofRounded_zero]⟩
      · exact ⟨false, by simp [add, h]⟩

theorem sqrt_zeroOrNaN (x : F64) (hx : ZeroOrNaN x) : ZeroOrNaN (sqrt x) := by
  rcases hx with rfl | ⟨s, rfl⟩
  · left; rfl
  · right; exact ⟨s, by simp [sqrt]⟩

theorem div_zeroOrNaN (x y : F64) (hx : ZeroOrNaN x) (hy : ZeroOrNaN y) : div x y = nan := by
  rcases hx with rfl | ⟨s, rfl⟩
  · cases y <;> rfl
  · rcases hy with rfl | ⟨t, rfl⟩
    · rfl
    · simp [div]

theorem magnitude_zeroOrNaN (v : F64 × F64 × F64) (h1 : ZeroOrNaN v.1) (h2 : ZeroOrNaN v.2.1)
    (h3 : ZeroOrNaN v.2.2) : ZeroOrNaN (magnitude v) :=
  sqrt_zeroOrNaN _ (add_zeroOrNaN _ _ (add_zeroOrNaN _ _ (mul_zeroOrNaN_left _ _ h1)
    (mul_zeroOrNaN_left _ _ h2)) (mul_zeroOrNaN_left _ _ h3))

theorem sub_self_isZeroOrNaN (x : F64) : ZeroOrNaN (sub x x) := by
  rcases sub_self_zeroOrNaN x with h | h
  · exact Or.inl h
  · exact Or.inr ⟨false, h⟩

theorem cosArg_coincident_left (a c : Landmark) : cosArg a a c = nan := by
  unfold cosArg
  apply div_zeroOrNaN
  · exact add_zeroOrNaN _ _ (add_zeroOrNaN _ _ (mul_zeroOrNaN_left _ _ (sub_self_isZeroOrNaN _))
      (mul_zeroOrNaN_left _ _ (sub_self_isZeroOrNaN _))) (mul_zeroOrNaN_left _ _ (sub_self_isZeroOrNaN _))
  · exact mul_zeroOrNaN_left _ _ (magnitude_zeroOrNaN _ (sub_self_isZeroOrNaN _)
      (sub_self_isZeroOrNaN _) (sub_self_isZeroOrNaN _))

theorem cosArg_coincident_right (a c : Landmark) : cosArg a c c = nan := by
  unfold cosArg
  apply div_zeroOrNaN
  · exact add_zeroOrNaN _ _ (add_zeroOrNaN _ _ (mul_zeroOrNaN_right _ _ (sub_self_isZeroOrNaN _))
      (mul_zeroOrNaN_right _ _ (sub_self_isZeroOrNaN _))) (mul_zeroOrNaN_right _ _ (sub_self_isZeroOrNaN _))
  · exact mul_zeroOrNaN_right _ _ (magnitude_zeroOrNaN _ (sub_self_isZeroOrNaN _)
      (sub_self_isZeroOrNaN _) (sub_self_isZeroOrNaN _))

/-! ## Claims -/

/-- C1: `calculateAngle` does not clamp the cosine argument.  For
`A = C = (1, 1, 1)` and `B = (0, 0, 0)` the computed ratio is
`3 / (√3 * √3) = 1.0000000000000002 > 1`, so `Math.acos` yields NaN and the
function returns NaN, where the clamped formula of the claim gives `0`. -/
theorem calculateAngle_unclamped_nan (acosApprox : F64 → F64) :
    cosArg ⟨ofNat 1, ofNat 1, ofNat 1, ofNat 1⟩ ⟨ofNat 0, ofNat 0, ofNat 0, ofNat 1⟩
        ⟨ofNat 1, ofNat 1, ofNat 1, ofNat 1⟩ = ofDec 10000000000000002 10000000000000000 ∧
      calculateAngle acosApprox (pt (ofNat 1) (ofNat 1) (ofNat 1)) (pt (ofNat 0) (ofNat 0) (ofNat 0))
        (pt (ofNat 1) (ofNat 1) (ofNat 1)) = nan ∧
      angleBetweenSpec acosApprox (pt (ofNat 1) (ofNat 1) (ofNat 1)) (pt (ofNat 0) (ofNat 0) (ofNat 0))
        (pt (ofNat 1) (ofNat 1) (ofNat 1)) = fin false 0 := by
  have hgt : gt (cosArg ⟨ofNat 1, ofNat 1, ofNat 1, ofNat 1⟩ ⟨ofNat 0, ofNat 0, ofNat 0, ofNat 1⟩
      ⟨ofNat 1, ofNat 1, ofNat 1, ofNat 1⟩) (ofNat 1) = true := by decide!
  have hclamp : clamp (cosArg ⟨ofNat 1, ofNat 1, ofNat 1, ofNat 1⟩ ⟨ofNat 0, ofNat 0, ofNat 0, ofNat 1⟩
      ⟨ofNat 1, ofNat 1, ofNat 1, ofNat 1⟩) (neg (ofNat 1)) (ofNat 1) = ofNat 1 := by decide!
  have hmag : ((magnitude (vecFrom (⟨ofNat 1, ofNat 1, ofNat 1, ofNat 1⟩ : Landmark)
      ⟨ofNat 0, ofNat 0, ofNat 0, ofNat 1⟩)).isZero ||
      (magnitude (vecFrom (⟨ofNat 1, ofNat 1, ofNat 1, ofNat 1⟩ : Landmark)
      ⟨ofNat 0, ofNat 0, ofNat 0, ofNat 1⟩)).isZero) = false := by decide!
  have hzero : mul (fin false 0) (div (ofNat 180) PI) = fin false 0 := by decide!
  refine ⟨by decide!, ?_, ?_⟩
  · rw [pt, pt, calculateAngle_eq, acos_of_gt_one acosApprox _ hgt]
    exact nan_mul _
  · simp only [pt, angleBetweenSpec]
    rw [hmag, hclamp, acos_one]
    simpa using hzero

theorem calculateAngle_coincident_left (f : F64 → F64) (a c : Landmark) :
    calculateAngle f (some a) (some a) (some c) = nan := by
  rw [calculateAngle_eq, cosArg_coincident_left, acos_nan]
  exact nan_mul _

theorem calculateAngle_coincident_right (f : F64 → F64) (a c : Landmark) :
    calculateAngle f (some a) (some c) (some c) = nan := by
  rw [calculateAngle_eq, cosArg_coincident_right, acos_nan]
  exact nan_mul _

/-- C2: an absent point makes `calculateAngle` return `0`, but coincident
points do not: whenever `A` coincides with `B`, or `C` with `B`, the division
is `0 / 0` and the function returns NaN, while the specified angle is `0`. -/
theorem calculateAngle_degenerate (acosApprox : F64 → F64) :
    (∀ B C, calculateAngle acosApprox none B C = ofNat 0) ∧
      (∀ A C, calculateAngle acosApprox A none C = ofNat 0) ∧
      (∀ A B, calculateAngle acosApprox A B none = ofNat 0) ∧
      (∀ b c, calculateAngle acosApprox (some b) (some b) (some c) = nan) ∧
      (∀ a b, calculateAngle acosApprox (some a) (some b) (some b) = nan) ∧
      calculateAngle acosApprox (pt (ofDec 5 10) (ofDec 5 10) (ofNat 0))
        (pt (ofDec 5 10) (ofDec 5 10) (ofNat 0)) (pt (ofNat 1) (ofNat 0) (ofNat 0)) = nan ∧
      angleBetweenSpec acosApprox (pt (ofDec 5 10) (ofDec 5 10) (ofNat 0))
        (pt (ofDec 5 10) (ofDec 5 10) (ofNat 0)) (pt (ofNat 1) (ofNat 0) (ofNat 0)) = ofNat 0 := by
  refine ⟨fun B C => rfl, fun A C => ?_, fun A B => ?_, fun b c => ?_, fun a b => ?_, ?_, ?_⟩
  · cases A <;> rfl
  · cases A <;> cases B <;> rfl
  · exact calculateAngle_coincident_left acosApprox b c
  · exact calculateAngle_coincident_right acosApprox a b
  · exact calculateAngle_coincident_left acosApprox _ _
  · have hmag : (magnitude (vecFrom (⟨ofDec 5 10, ofDec 5 10, ofNat 0, ofNat 1⟩ : Landmark)
        ⟨ofDec 5 10, ofDec 5 10, ofNat 0, ofNat 1⟩)).isZero = true := by decide!
    simp only [pt, angleBetweenSpec]
    rw [hmag]
    rfl

/-- C3: for collinear points `calculateAngle` returns NaN instead of `0` or
`180`: with `B` the origin and `A = (1, 1, 1)`, the same-direction point
`C = (2, 2, 2)` gives the ratio `1.0000000000000002` and the opposite point
`C = (-1, -1, -1)` the ratio `-1.0000000000000002`, both outside the domain of
`Math.acos`.  The right angle `A = (1, 0, 0)`, `C = (0, 1, 0)` gives
`Math.acos(0) * (180 / Math.PI)`, which is `90` for `Math.acos(0) =
1.5707963267948966`. -/
theorem calculateAngle_collinear_nan (acosApprox : F64 → F64) :
    calculateAngle acosApprox (pt (ofNat 1) (ofNat 1) (ofNat 1)) (pt (ofNat 0) (ofNat 0) (ofNat 0))
        (pt (ofNat 2) (ofNat 2) (ofNat 2)) = nan ∧
      calculateAngle acosApprox (pt (ofNat 1) (ofNat 1) (ofNat 1)) (pt (ofNat 0) (ofNat 0) (ofNat 0))
        (pt (neg (ofNat 1)) (neg (ofNat 1)) (neg (ofNat 1))) = nan ∧
      calculateAngle acosApprox (pt (ofNat 1) (ofNat 0) (ofNat 0)) (pt (ofNat 0) (ofNat 0) (ofNat 0))
        (pt (ofNat 0) (ofNat 1) (ofNat 0)) =
          mul (acosApprox (fin false 0)) (div (ofNat 180) PI) ∧
      mul (ofDec 15707963267948966 10000000000000000) (div (ofNat 180) PI) = ofNat 90 := by
  have h1 : gt (cosArg ⟨ofNat 1, ofNat 1, ofNat 1, ofNat 1⟩ ⟨ofNat 0, ofNat 0, ofNat 0, ofNat 1⟩
      ⟨ofNat 2, ofNat 2, ofNat 2, ofNat 1⟩) (ofNat 1) = true := by decide!
  have h2 : lt (cosArg ⟨ofNat 1, ofNat 1, ofNat 1, ofNat 1⟩ ⟨ofNat 0, ofNat 0, ofNat 0, ofNat 1⟩
      ⟨neg (ofNat 1), neg (ofNat 1), neg (ofNat 1), ofNat 1⟩) (neg (ofNat 1)) = true := by decide!
  have h3 : cosArg ⟨ofNat 1, ofNat 0, ofNat 0, ofNat 1⟩ ⟨ofNat 0, ofNat 0, ofNat 0, ofNat 1⟩
      ⟨ofNat 0, ofNat 1, ofNat 0, ofNat 1⟩ = fin false 0 := by decide!
  have h4 : acos acosApprox (fin false 0) = acosApprox (fin false 0) := by
    have a1 : (fin false 0).isNaN = false := rfl
    have a2 : gt (fin false 0) (ofNat 1) = false := by decide!
    have a3 : lt (fin false 0) (neg (ofNat 1)) = false := by decide!
    have a4 : ¬ (fin false 0 = ofNat 1) := by decide!
    simp [acos, a1, a2, a3, a4]
  refine ⟨?_, ?_, ?_, by decide!⟩
  · rw [pt, pt, pt, calculateAngle_eq, acos_of_gt_one acosApprox _ h1]
    exact nan_mul _
  · rw [pt, pt, pt, calculateAngle_eq, acos_of_lt_neg_one acosApprox _ h2]
    exact nan_mul _
  · rw [pt, pt, pt, calculateAngle_eq, h3, h4]

/-- C4: the result of `calculateAngle` is not always within `[0, 180]`: for a
vertex that coincides with an outer point it is NaN, and for a pose whose 33
landmarks all sit at one point every one of the 8 angles returned by
`calculateJointAngles` is NaN, which is neither `>= 0` nor `<= 180`. -/
theorem calculateJointAngles_nan (acosApprox : F64 → F64) (p : Landmark) :
    calculateAngle acosApprox (some p) (some p) (some p) = nan ∧
      calculateJointAngles acosApprox (some (List.replicate 33 (some p))) =
        some { leftElbow := nan, leftShoulder := nan, leftHip := nan, leftKnee := nan,
               rightElbow := nan, rightShoulder := nan, rightHip := nan, rightKnee := nan } ∧
      le (ofNat 0) nan = false ∧ le nan (ofNat 180) = false := by
  refine ⟨calculateAngle_coincident_left acosApprox p p, ?_, rfl, rfl⟩
  simp [calculateJointAngles, Landmarks.at, List.getElem?_replicate,
    calculateAngle_coincident_left]

/-- C5 (as stated, refuted): a sequence of 34 entries is not rejected, so
`calculateJointAngles` does not return `null` for every length other than
33. -/
theorem calculateJointAngles_longer_accepted :
    ¬ ∀ (acosApprox : F64 → F64) (l : List (Option Landmark)), l.length ≠ 33 →
      calculateJointAngles acosApprox (some l) = none := by
  intro h
  have h34 := h (fun _ => nan) (List.replicate 34 none) (by simp)
  simp [calculateJointAngles] at h34

/-- C5 (amended): `calculateJointAngles` returns `null` exactly for an absent
sequence and for a sequence of fewer than 33 entries; every sequence of 33 or
more entries yields an angle set. -/
theorem calculateJointAngles_none_iff (acosApprox : F64 → F64) (landmarks : Landmarks) :
    calculateJointAngles acosApprox landmarks = none ↔
      landmarks = none ∨ ∃ l, landmarks = some l ∧ l.length < 33 := by
  cases landmarks with
  | none => simp [calculateJointAngles]
  | some l =>
    by_cases h : l.length < 33
    · simp [calculateJointAngles, h]
    · simp [calculateJointAngles, h]

theorem calculateAngle_congr (f : F64 → F64) (A B C A1 B1 C1 : Option Landmark)
    (hA : coords A1 = coords A) (hB : coords B1 = coords B) (hC : coords C1 = coords C) :
    calculateAngle f A1 B1 C1 = calculateAngle f A B C := by
  cases A <;> cases A1 <;> simp [coords] at hA <;>
  cases B <;> cases B1 <;> simp [coords] at hB <;>
  cases C <;> cases C1 <;> simp [coords] at hC <;>
  simp [calculateAngle, *]

/-- C6: for a sequence `l` of at least 33 entries `calculateJointAngles`
returns exactly the 8 angles of the fixed landmark triples, and a second
accepted sequence that has the same `x`, `y`, `z` at the 12 indices read gives
the same result, whatever the visibilities and the other landmarks are. -/
theorem calculateJointAngles_spec (acosApprox : F64 → F64) (l l1 : List (Option Landmark))
    (hl : 33 ≤ l.length) (hl1 : 33 ≤ l1.length)
    (hc : ∀ i ∈ jointIndices, coords (Landmarks.at l1 i) = coords (Landmarks.at l i)) :
    calculateJointAngles acosApprox (some l) =
        some { leftElbow := calculateAngle acosApprox (Landmarks.at l 11) (Landmarks.at l 13) (Landmarks.at l 15)
               leftShoulder := calculateAngle acosApprox (Landmarks.at l 13) (Landmarks.at l 11) (Landmarks.at l 23)
               leftHip := calculateAngle acosApprox (Landmarks.at l 11) (Landmarks.at l 23) (Landmarks.at l 25)
               leftKnee := calculateAngle acosApprox (Landmarks.at l 23) (Landmarks.at l 25) (Landmarks.at l 27)
               rightElbow := calculateAngle acosApprox (Landmarks.at l 12) (Landmarks.at l 14) (Landmarks.at l 16)
               rightShoulder := calculateAngle acosApprox (Landmarks.at l 14) (Landmarks.at l 12) (Landmarks.at l 24)
               rightHip := calculateAngle acosApprox (Landmarks.at l 12) (Landmarks.at l 24) (Landmarks.at l 26)
               rightKnee := calculateAngle acosApprox (Landmarks.at l 24) (Landmarks.at l 26) (Landmarks.at l 28) } ∧
      calculateJointAngles acosApprox (some l1) = calculateJointAngles acosApprox (some l) := by
  have h : ¬ l.length < 33 := by omega
  have h1 : ¬ l1.length < 33 := by omega
  have c := fun i (hi : i ∈ jointIndices) => hc i hi
  constructor
  · simp only [calculateJointAngles, h, if_false]
  · simp only [calculateJointAngles, h, h1, if_false]
    congr 2 <;> apply calculateAngle_congr <;> apply c <;> simp [jointIndices]

/-- Witness for C6: two poses of 33 landmarks that differ only in
visibility. -/
theorem calculateJointAngles_spec_witness :
    33 ≤ (List.replicate 33 (some (⟨ofNat 1, ofNat 2, ofNat 3, ofNat 1⟩ : Landmark))).length ∧
      33 ≤ (List.replicate 33 (some (⟨ofNat 1, ofNat 2, ofNat 3, ofNat 0⟩ : Landmark))).length ∧
      calculateJointAngles (fun _ => nan)
          (some (List.replicate 33 (some ⟨ofNat 1, ofNat 2, ofNat 3, ofNat 0⟩))) =
        calculateJointAngles (fun _ => nan)
          (some (List.replicate 33 (some ⟨ofNat 1, ofNat 2, ofNat 3, ofNat 1⟩))) :=
  ⟨by simp, by simp,
    (calculateJointAngles_spec (fun _ => nan)
      (List.replicate 33 (some ⟨ofNat 1, ofNat 2, ofNat 3, ofNat 1⟩))
      (List.replicate 33 (some ⟨ofNat 1, ofNat 2, ofNat 3, ofNat 0⟩)) (by simp) (by simp)
      (by
        intro i hi
        simp only [jointIndices, List.mem_cons, List.mem_singleton, List.mem_nil_iff,
          or_false] at hi
        rcases hi with h | h | h | h | h | h | h | h | h | h | h | h <;> subst h <;> decide!)).2⟩

theorem ofRounded_nonNeg (N D : Nat) : NonNeg (ofRounded false N D) := by
  unfold ofRounded
  split <;> simp [NonNeg]

theorem sq_nonNeg (x : F64) : NonNeg (sq x) := by
  cases x with
  | nan => simp [F64.sq, mul, NonNeg]
  | inf s => simp [F64.sq, mul, NonNeg]
  | fin s a =>
    have h : sq (fin s a) = ofRounded false (a * a) unit := by simp [F64.sq, mul]
    rw [h]
    exact ofRounded_nonNeg _ _

theorem add_nonNeg (x y : F64) (hx : NonNeg x) (hy : NonNeg y) : NonNeg (add x y) := by
  cases x with
  | nan => simp [add, NonNeg]
  | inf s =>
    cases y with
    | nan => simp [add, NonNeg]
    | inf t =>
      simp only [NonNeg] at hx hy
      subst hx; subst hy
      simp [add, NonNeg]
    | fin t b => simpa [add, NonNeg] using hx
  | fin s a =>
    cases y with
    | nan => simp [add, NonNeg]
    | inf t => simpa [add, NonNeg] using hy
    | fin t b =>
      simp only [NonNeg] at hx hy
      subst hx; subst hy
      have h : add (fin false a) (fin false b) = ofRounded false (a + b) 1 := by simp [add]
      rw [h]
      exact ofRounded_nonNeg _ _

theorem sqrt_nonNeg (x : F64) (hx : NonNeg x) : NonNeg (sqrt x) := by
  cases x with
  | nan => simp [sqrt, NonNeg]
  | inf s =>
    simp only [NonNeg] at hx
    subst hx
    simp [sqrt, NonNeg]
  | fin s k =>
    simp only [NonNeg] at hx
    subst hx
    by_cases hk : k = 0
    · simp [sqrt, hk, NonNeg]
    · simp only [sqrt, hk, if_false]
      exact ofRounded_nonNeg _ _

theorem abs_nonNeg (x : F64) : NonNeg (abs x) := by
  cases x <;> simp [F64.abs, NonNeg]

theorem div_nonNeg (x y : F64) (hx : NonNeg x) (hy : NonNeg y) : NonNeg (div x y) := by
  cases x with
  | nan => simp [div, NonNeg]
  | inf s =>
    cases y with
    | nan => simp [div, NonNeg]
    | inf t => simp [div, NonNeg]
    | fin t b =>
      simp only [NonNeg] at hx hy
      subst hx; subst hy
      simp [div, NonNeg]
  | fin s a =>
    cases y with
    | nan => simp [div, NonNeg]
    | inf t =>
      simp only [NonNeg] at hx hy
      subst hx; subst hy
      simp [div, NonNeg]
    | fin t b =>
      simp only [NonNeg] at hx hy
      subst hx; subst hy
      by_cases hb : b = 0
      · by_cases ha : a = 0
        · simp [div, hb, ha, NonNeg]
        · simp [div, hb, ha, NonNeg]
      · have h : div (fin false a) (fin false b) = ofRounded false (a * unit) b := by
          simp [div, hb]
        rw [h]
        exact ofRounded_nonNeg _ _

theorem nonNeg_nan_or_le (x : F64) (hx : NonNeg x) : x = nan ∨ le (ofNat 0) x = true := by
  have h0 : ofNat 0 = fin false 0 := by decide!
  have hb : (0 : Int) ≤ (overflowBound : Int) := Int.ofNat_nonneg _
  cases x with
  | nan => left; rfl
  | inf s =>
    right
    simp only [NonNeg] at hx
    subst hx
    simp [h0, le, isNaN, key]
  | fin s k =>
    right
    simp only [NonNeg] at hx
    subst hx
    simp [h0, le, isNaN, key]

/-- C7: two poses with distinct shoulder and hip midpoints.  With the
shoulders at `y = 2^-600` straight above the hips the squared distance
underflows to `0`, the unguarded division `verticalDist / totalDist` divides by
`0` and the result is `+Infinity`, outside `[0, 1]`.  With the shoulders at
`(2^-30, 1, 0)` the midpoints differ in `x`, yet `1 + 2^-60` rounds to `1` and
the result is exactly `1`. -/
theorem calculateBackStraightness_unbounded :
    calculateBackStraightness (some (poseOf
        ⟨ofNat 0, fin false (1 <<< 474), ofNat 0, ofNat 1⟩
        ⟨ofNat 0, fin false (1 <<< 474), ofNat 0, ofNat 1⟩
        ⟨ofNat 0, ofNat 0, ofNat 0, ofNat 1⟩ ⟨ofNat 0, ofNat 0, ofNat 0, ofNat 1⟩)) =
          .ok (inf false) ∧
      mid (fin false (1 <<< 474)) (fin false (1 <<< 474)) ≠ mid (ofNat 0) (ofNat 0) ∧
      le (inf false) (ofNat 1) = false ∧
      calculateBackStraightness (some (poseOf
        ⟨ofDec 1 1073741824, ofNat 1, ofNat 0, ofNat 1⟩
        ⟨ofDec 1 1073741824, ofNat 1, ofNat 0, ofNat 1⟩
        ⟨ofNat 0, ofNat 0, ofNat 0, ofNat 1⟩ ⟨ofNat 0, ofNat 0, ofNat 0, ofNat 1⟩)) =
          .ok (ofNat 1) ∧
      mid (ofDec 1 1073741824) (ofDec 1 1073741824) ≠ mid (ofNat 0) (ofNat 0) := by
  refine ⟨by decide!, by decide!, by decide!, by decide!, by decide!⟩

/-- For a sequence of at least 33 entries whose landmarks 11, 12, 23 and 24
are present, `calculateBackStraightness` returns the binary64
quotient of `|dy|` by the rounded Euclidean distance of the two midpoints, and
this value is never negative: it is NaN or at least `0`. -/
theorem calculateBackStraightness_value (l : List (Option Landmark))
    (leftShoulder rightShoulder leftHip rightHip : Landmark) (hlen : 33 ≤ l.length)
    (h11 : Landmarks.at l 11 = some leftShoulder) (h12 : Landmarks.at l 12 = some rightShoulder)
    (h23 : Landmarks.at l 23 = some leftHip) (h24 : Landmarks.at l 24 = some rightHip) :
    ∃ r, calculateBackStraightness (some l) = .ok r ∧
      r = div (F64.abs (sub (mid leftShoulder.y rightShoulder.y) (mid leftHip.y rightHip.y)))
        (sqrt (add (add
          (F64.sq (sub (mid leftShoulder.x rightShoulder.x) (mid leftHip.x rightHip.x)))
          (F64.sq (sub (mid leftShoulder.y rightShoulder.y) (mid leftHip.y rightHip.y))))
          (F64.sq (sub (mid leftShoulder.z rightShoulder.z) (mid leftHip.z rightHip.z))))) ∧
      (r = nan ∨ le (ofNat 0) r = true) := by
  have h : ¬ l.length < 33 := by omega
  refine ⟨_, ?_, rfl, ?_⟩
  · simp only [calculateBackStraightness, h, if_false, h11, h12, h23, h24]
  · exact nonNeg_nan_or_le _ (div_nonNeg _ _ (abs_nonNeg _)
      (sqrt_nonNeg _ (add_nonNeg _ _ (add_nonNeg _ _ (sq_nonNeg _) (sq_nonNeg _)) (sq_nonNeg _))))

/-- The value of an upright pose with shoulders at `y = 0.3` and hips at
`y = 0.6` is NaN or at least `0`. -/
theorem calculateBackStraightness_value_witness :
    33 ≤ uprightPose.length ∧
      ∃ r, calculateBackStraightness (some uprightPose) = .ok r ∧
        (r = nan ∨ le (ofNat 0) r = true) :=
  ⟨by decide,
    (calculateBackStraightness_value uprightPose ⟨ofDec 4 10, ofDec 3 10, ofNat 0, ofNat 1⟩
      ⟨ofDec 6 10, ofDec 3 10, ofNat 0, ofNat 1⟩ ⟨ofDec 5 10, ofDec 6 10, ofNat 0, ofNat 1⟩
      ⟨ofDec 6 10, ofDec 6 10, ofNat 0, ofNat 1⟩ (by decide) rfl rfl rfl rfl).imp
      fun _ h => ⟨h.1, h.2.2⟩⟩

theorem validateAngle_some (v : F64) (t : Range) (hv : v.truthy = true) :
    validateAngle (some v) (some t) =
      if (ge v t.min && le v t.max) = true then .correct
      else if ((ge v (sub t.min (mul (sub t.max t.min) (ofDec 15 100))) && lt v t.min) ||
          (gt v t.max && le v (add t.max (mul (sub t.max t.min) (ofDec 15 100))))) = true
        then .slight
      else .incorrect := by
  simp [validateAngle, hv]

theorem validateAngle_falsy (v : F64) (t : Option Range) (hv : v.truthy = false) :
    validateAngle (some v) t = .incorrect := by
  cases t <;> simp [validateAngle, hv]

theorem lt_le_exclusive (x y : F64) (h : lt x y = true) : le y x = false := by
  simp only [lt, le, Bool.and_eq_true, decide_eq_true_eq] at h ⊢
  have h2 : ¬ y.key ≤ x.key := by omega
  simp [h2]

theorem validateAngle_trichotomy (v mn mx : F64) (hv : v.truthy = true) :
    (validateAngle (some v) (some { min := mn, max := mx }) = .correct ↔
        le mn v = true ∧ le v mx = true) ∧
      (validateAngle (some v) (some { min := mn, max := mx }) = .slight ↔
        (le (sub mn (mul (sub mx mn) (ofDec 15 100))) v = true ∧ lt v mn = true) ∨
        (lt mx v = true ∧ le v (add mx (mul (sub mx mn) (ofDec 15 100))) = true)) ∧
      (validateAngle (some v) (some { min := mn, max := mx }) = .incorrect ↔
        ¬ (le mn v = true ∧ le v mx = true) ∧
        ¬ ((le (sub mn (mul (sub mx mn) (ofDec 15 100))) v = true ∧ lt v mn = true) ∨
          (lt mx v = true ∧ le v (add mx (mul (sub mx mn) (ofDec 15 100))) = true))) := by
  rw [validateAngle_some v _ hv]
  simp only []
  generalize sub mn (mul (sub mx mn) (ofDec 15 100)) = lo
  generalize add mx (mul (sub mx mn) (ofDec 15 100)) = hi
  by_cases hc : le mn v = true ∧ le v mx = true
  · have hn1 : lt v mn = false := by
      cases h : lt v mn
      · rfl
      · have := lt_le_exclusive _ _ h
        simp [this] at hc
    have hn2 : lt mx v = false := by
      cases h : lt mx v
      · rfl
      · have := lt_le_exclusive _ _ h
        simp [this] at hc
    simp [ge, gt, hc, hn1, hn2]
  · by_cases hs : (le lo v = true ∧ lt v mn = true) ∨ (lt mx v = true ∧ le v hi = true)
    · have hc2 : (ge v mn && le v mx) = false := by
        simpa [ge] using hc
      have hs2 : ((ge v lo && lt v mn) || (gt v mx && le v hi)) = true := by
        simpa [ge, gt] using hs
      simp [hc2, hs2, hc, hs]
    · have hc2 : (ge v mn && le v mx) = false := by
        simpa [ge] using hc
      have hs2 : ((ge v lo && lt v mn) || (gt v mx && le v hi)) = false := by
        simpa [ge, gt] using hs
      simp [hc2, hs2, hc, hs]

/-- C8 (as stated, refuted): the value `0` lies inside the target
`{min: 0, max: 30}`, yet `validateAngle(0, target)` is `'incorrect'`, because
the guard `!angle` treats `0` like an absent value. -/
theorem validateAngle_zero_incorrect :
    le (ofNat 0) (ofNat 30) = true ∧ le (ofNat 0) (ofNat 0) = true ∧
      validateAngle (some (ofNat 0)) (some { min := ofNat 0, max := ofNat 30 }) = .incorrect := by
  refine ⟨by decide!, by decide!, by decide!⟩

/-- C8 (amended): for a value that is neither `0`, `-0` nor NaN and any
target, with `tolerance = (max - min) * 0.15`, `validateAngle` is `'correct'`
exactly for `min <= v <= max`, `'slight'` exactly for
`min - tolerance <= v < min` or `max < v <= max + tolerance`, and `'incorrect'`
otherwise; it is `'incorrect'` whenever the value is absent, `0`, `-0` or NaN,
or the target is absent. -/
theorem validateAngle_spec (v : F64) (t : Range) :
    (v.truthy = true →
      (validateAngle (some v) (some t) = .correct ↔ le t.min v = true ∧ le v t.max = true) ∧
      (validateAngle (some v) (some t) = .slight ↔
        (le (sub t.min (mul (sub t.max t.min) (ofDec 15 100))) v = true ∧ lt v t.min = true) ∨
        (lt t.max v = true ∧ le v (add t.max (mul (sub t.max t.min) (ofDec 15 100))) = true)) ∧
      (validateAngle (some v) (some t) = .incorrect ↔
        ¬ (le t.min v = true ∧ le v t.max = true) ∧
        ¬ ((le (sub t.min (mul (sub t.max t.min) (ofDec 15 100))) v = true ∧ lt v t.min = true) ∨
          (lt t.max v = true ∧ le v (add t.max (mul (sub t.max t.min) (ofDec 15 100))) = true)))) ∧
      (v.truthy = false → validateAngle (some v) (some t) = .incorrect) ∧
      (v.truthy = false ↔ v = nan ∨ v = fin false 0 ∨ v = fin true 0) ∧
      validateAngle none (some t) = .incorrect ∧
      validateAngle (some v) none = .incorrect ∧
      validateAngle none none = .incorrect := by
  refine ⟨validateAngle_trichotomy v t.min t.max, validateAngle_falsy v (some t), ?_, rfl, ?_, rfl⟩
  · cases v with
    | nan => simp [truthy]
    | inf s => simp [truthy]
    | fin s k => cases s <;> simp [truthy]
  · cases v <;> rfl

/-- Witness for C8: the value `90` against the target `{min: 80, max: 110}`
is truthy and classified `'correct'`. -/
theorem validateAngle_spec_witness :
    (ofNat 90).truthy = true ∧
      (validateAngle (some (ofNat 90)) (some { min := ofNat 80, max := ofNat 110 }) = .correct ↔
        le (ofNat 80) (ofNat 90) = true ∧ le (ofNat 90) (ofNat 110) = true) :=
  by
  have ht : (ofNat 90).truthy = true := by decide!
  have h := ((validateAngle_spec (ofNat 90) { min := ofNat 80, max := ofNat 110 }).1 ht).1
  exact ⟨ht, by simpa only using h⟩

theorem truthy_false_cases (v : F64) (h : v.truthy = false) :
    v = nan ∨ v = fin false 0 ∨ v = fin true 0 := by
  cases v with
  | nan => simp
  | inf s => simp [truthy] at h
  | fin s k =>
    cases s <;> simp [truthy] at h <;> simp [h]

/-- C9: for the target `{min: 80, max: 110}` the tolerance is `4.5`, and for
every value `v` `validateAngle` is `'correct'` iff `80 <= v <= 110`, `'slight'`
iff `75.5 <= v < 80` or `110 < v <= 114.5`, and `'incorrect'` otherwise; `75`
is incorrect, `76` slight, `90` correct, `112` slight and `115` incorrect. -/
theorem validateAngle_knee_target (v : F64) :
    mul (sub (ofNat 110) (ofNat 80)) (ofDec 15 100) = ofDec 45 10 ∧
      (validateAngle (some v) (some { min := ofNat 80, max := ofNat 110 }) = .correct ↔
        le (ofNat 80) v = true ∧ le v (ofNat 110) = true) ∧
      (validateAngle (some v) (some { min := ofNat 80, max := ofNat 110 }) = .slight ↔
        (le (ofDec 755 10) v = true ∧ lt v (ofNat 80) = true) ∨
        (lt (ofNat 110) v = true ∧ le v (ofDec 1145 10) = true)) ∧
      (validateAngle (some v) (some { min := ofNat 80, max := ofNat 110 }) = .incorrect ↔
        ¬ (le (ofNat 80) v = true ∧ le v (ofNat 110) = true) ∧
        ¬ ((le (ofDec 755 10) v = true ∧ lt v (ofNat 80) = true) ∨
          (lt (ofNat 110) v = true ∧ le v (ofDec 1145 10) = true))) ∧
      validateAngle (some (ofNat 75)) (some { min := ofNat 80, max := ofNat 110 }) = .incorrect ∧
      validateAngle (some (ofNat 76)) (some { min := ofNat 80, max := ofNat 110 }) = .slight ∧
      validateAngle (some (ofNat 90)) (some { min := ofNat 80, max := ofNat 110 }) = .correct ∧
      validateAngle (some (ofNat 112)) (some { min := ofNat 80, max := ofNat 110 }) = .slight ∧
      validateAngle (some (ofNat 115)) (some { min := ofNat 80, max := ofNat 110 }) = .incorrect := by
  have htol : mul (sub (ofNat 110) (ofNat 80)) (ofDec 15 100) = ofDec 45 10 := by decide!
  have hlo : sub (ofNat 80) (ofDec 45 10) = ofDec 755 10 := by decide!
  have hhi : add (ofNat 110) (ofDec 45 10) = ofDec 1145 10 := by decide!
  have key : (validateAngle (some v) (some { min := ofNat 80, max := ofNat 110 }) = .correct ↔
        le (ofNat 80) v = true ∧ le v (ofNat 110) = true) ∧
      (validateAngle (some v) (some { min := ofNat 80, max := ofNat 110 }) = .slight ↔
        (le (ofDec 755 10) v = true ∧ lt v (ofNat 80) = true) ∨
        (lt (ofNat 110) v = true ∧ le v (ofDec 1145 10) = true)) ∧
      (validateAngle (some v) (some { min := ofNat 80, max := ofNat 110 }) = .incorrect ↔
        ¬ (le (ofNat 80) v = true ∧ le v (ofNat 110) = true) ∧
        ¬ ((le (ofDec 755 10) v = true ∧ lt v (ofNat 80) = true) ∨
          (lt (ofNat 110) v = true ∧ le v (ofDec 1145 10) = true))) := by
    cases hv : v.truthy with
    | true =>
      have h := validateAngle_trichotomy v (ofNat 80) (ofNat 110) hv
      rw [htol, hlo, hhi] at h
      exact h
    | false =>
      rcases truthy_false_cases v hv with rfl | rfl | rfl
      · refine ⟨?_, ?_, ?_⟩ <;> decide!
      · refine ⟨?_, ?_, ?_⟩ <;> decide!
      · refine ⟨?_, ?_, ?_⟩ <;> decide!
  exact ⟨htol, key.1, key.2.1, key.2.2, by decide!, by decide!, by decide!, by decide!, by decide!⟩

/-! ## Facts about the validation loop -/

theorem measure_ok (angles : AngleSet) (landmarks : Landmarks) (entry : String × Target)
    (h : entry.1 = "backStraightness" → ∃ v, calculateBackStraightness landmarks = .ok v) :
    measure angles landmarks entry.1 entry.2 = .ok (measured angles landmarks entry) := by
  unfold measured measure
  by_cases hb : entry.1 = "backStraightness"
  · obtain ⟨v, hv⟩ := h hb
    simp [hb, hv]
  · simp [hb]

theorem validateLoop_ok (angles : AngleSet) (landmarks : Landmarks)
    (targets : List (String × Target))
    (h : ∀ t ∈ targets, t.1 = "backStraightness" →
      ∃ v, calculateBackStraightness landmarks = .ok v) :
    ∀ st, validateLoop angles landmarks targets st =
      .ok (recordAll angles landmarks targets st) := by
  induction targets with
  | nil => intro st; rfl
  | cons entry rest ih =>
    intro st
    have h1 := measure_ok angles landmarks entry (h entry (List.mem_cons_self _ _))
    simp only [validateLoop, validateStep, h1, recordAll]
    exact ih (fun t ht => h t (List.mem_cons_of_mem _ ht)) _

theorem EXERCISES_profile (key : String) (e : Exercise) (h : EXERCISES key = .profile e) :
    (key = "SQUAT" ∧ e = SQUAT) ∨ (key = "LATERAL_RAISE" ∧ e = LATERAL_RAISE) := by
  unfold EXERCISES at h
  split_ifs at h with h1 h2 h3
  · left; exact ⟨h1, by injection h with h; exact h.symm⟩
  · right; exact ⟨h2, by injection h with h; exact h.symm⟩

theorem EXERCISES_SQUAT : EXERCISES "SQUAT" = .profile SQUAT := by
  simp [EXERCISES]

theorem EXERCISES_LATERAL_RAISE : EXERCISES "LATERAL_RAISE" = .profile LATERAL_RAISE := by
  simp [EXERCISES]

theorem validateExercise_profile (angles : AngleSet) (landmarks : Landmarks) (key : String)
    (e : Exercise) (hkey : EXERCISES key = .profile e)
    (hv : ∀ t ∈ e.targets, t.1 = "backStraightness" →
      ∃ v, calculateBackStraightness landmarks = .ok v) :
    validateExercise (some angles) landmarks (some key) =
      .ok (resultOf (recordAll angles landmarks e.targets initialState)) := by
  have hne : key ≠ "" := by
    rcases EXERCISES_profile key e hkey with ⟨h, _⟩ | ⟨h, _⟩ <;> simp [h]
  simp only [validateExercise, hne, if_false, hkey]
  rw [show ({ jointStatus := [], errors := [], totalScore := ofNat 0, totalWeight := ofNat 0 } :
    LoopState) = initialState from rfl, validateLoop_ok angles landmarks e.targets hv]
  rfl

theorem recordAll_jointStatus (angles : AngleSet) (landmarks : Landmarks)
    (targets : List (String × Target)) : ∀ st,
    (recordAll angles landmarks targets st).jointStatus =
      st.jointStatus ++ targets.map fun t =>
        (t.1, { value := (measured angles landmarks t).1
                status := (measured angles landmarks t).2
                target := t.2
                color := getJointColor (measured angles landmarks t).2 }) := by
  induction targets with
  | nil => intro st; simp [recordAll]
  | cons entry rest ih =>
    intro st
    simp [recordAll, ih, record]

theorem recordAll_totalScore (angles : AngleSet) (landmarks : Landmarks)
    (targets : List (String × Target)) : ∀ st,
    (recordAll angles landmarks targets st).totalScore =
      targets.foldl (fun acc t =>
        add acc (mul (jointScore (measured angles landmarks t).2) t.2.weight)) st.totalScore := by
  induction targets with
  | nil => intro st; rfl
  | cons entry rest ih =>
    intro st
    simp [recordAll, ih, record]

theorem recordAll_totalWeight (angles : AngleSet) (landmarks : Landmarks)
    (targets : List (String × Target)) : ∀ st,
    (recordAll angles landmarks targets st).totalWeight =
      targets.foldl (fun acc t => add acc t.2.weight) st.totalWeight := by
  induction targets with
  | nil => intro st; rfl
  | cons entry rest ih =>
    intro st
    simp [recordAll, ih, record]

set_option maxHeartbeats 4000000 in
theorem squat_accuracy (s1 s2 s3 : Status) :
    F64.round (rawAccuracy
      (add (add (add (ofNat 0) (mul (jointScore s1) (ofDec 10 10)))
        (mul (jointScore s2) (ofDec 10 10))) (mul (jointScore s3) (ofDec 8 10)))
      (add (add (add (ofNat 0) (ofDec 10 10)) (ofDec 10 10)) (ofDec 8 10))) =
    ofNat (accuracySpec [(s1, F64.toRat (ofDec 10 10)), (s2, F64.toRat (ofDec 10 10)),
      (s3, F64.toRat (ofDec 8 10))]).toNat := by
  cases s1 <;> cases s2 <;> cases s3 <;> decide!

set_option maxHeartbeats 4000000 in
theorem lateralRaise_accuracy (s1 s2 : Status) :
    F64.round (rawAccuracy
      (add (add (ofNat 0) (mul (jointScore s1) (ofDec 10 10))) (mul (jointScore s2) (ofDec 10 10)))
      (add (add (ofNat 0) (ofDec 10 10)) (ofDec 10 10))) =
    ofNat (accuracySpec [(s1, F64.toRat (ofDec 10 10)), (s2, F64.toRat (ofDec 10 10))]).toNat := by
  cases s1 <;> cases s2 <;> decide!

theorem profile_accuracy (e : Exercise) (he : e = SQUAT ∨ e = LATERAL_RAISE)
    (f : String × Target → Status) :
    F64.round (rawAccuracy
      (e.targets.foldl (fun acc t => add acc (mul (jointScore (f t)) t.2.weight)) (ofNat 0))
      (e.targets.foldl (fun acc t => add acc t.2.weight) (ofNat 0))) =
    ofNat (accuracySpec (e.targets.map fun t => (f t, F64.toRat t.2.weight))).toNat := by
  rcases he with rfl | rfl
  · simp only [SQUAT, List.foldl, List.map]
    exact squat_accuracy _ _ _
  · simp only [LATERAL_RAISE, List.foldl, List.map]
    exact lateralRaise_accuracy _ _

/-- C10: for a known profile key, a present angle set and landmarks on which
`calculateBackStraightness` does not raise where the profile has a
`backStraightness` target, `validateExercise` returns a result with one
`jointStatus` entry per target of the profile, in order, whose accuracy is `round(100 * Σ score * weight / Σ weight)` over these entries
(score 1 for `'correct'`, 1/2 for `'slight'`, 0 for `'incorrect'`), the sum
taken in exact arithmetic.  For SQUAT with the left knee at 90 (correct), the
right knee at 112 (slight) and no landmarks (back straightness incorrect), the
score is `1.5`, the weight `2.8` and the accuracy `54`. -/
theorem validateExercise_accuracy (angles : AngleSet) (landmarks : Landmarks) (key : String)
    (e : Exercise) (hkey : EXERCISES key = .profile e)
    (hv : ∀ t ∈ e.targets, t.1 = "backStraightness" →
      ∃ v, calculateBackStraightness landmarks = .ok v) :
    (∃ r, validateExercise (some angles) landmarks (some key) = .ok r ∧
      r.jointStatus.map (fun p => (p.1, p.2.target)) = e.targets ∧
      r.accuracy = ofNat (accuracySpec (statusWeights r.jointStatus)).toNat) ∧
    (validateLoop (kneeAngles (ofNat 90) (ofNat 112)) none SQUAT.targets initialState).map
        (fun st => (st.jointStatus.map (fun p => p.2.status), st.totalScore, st.totalWeight)) =
      .ok ([.correct, .slight, .incorrect], ofDec 15 10, ofDec 28 10) ∧
    (validateExercise (some (kneeAngles (ofNat 90) (ofNat 112))) none (some "SQUAT")).map
        (fun r => r.accuracy) = .ok (ofNat 54) ∧
    accuracySpec [(.correct, 1), (.slight, 1), (.incorrect, 4 / 5)] = 54 := by
  refine ⟨⟨_, validateExercise_profile angles landmarks key e hkey hv, ?_, ?_⟩,
    by decide!, by decide!, by decide!⟩
  · simp only [resultOf, recordAll_jointStatus, initialState, List.nil_append, List.map_map]
    simp [Function.comp_def]
  · have he : e = SQUAT ∨ e = LATERAL_RAISE := by
      rcases EXERCISES_profile key e hkey with ⟨_, h⟩ | ⟨_, h⟩
      · exact Or.inl h
      · exact Or.inr h
    simp only [resultOf, recordAll_jointStatus, recordAll_totalScore, recordAll_totalWeight,
      initialState, List.nil_append, statusWeights, List.map_map, Function.comp_def]
    exact profile_accuracy e he fun t => (measured angles landmarks t).2

/-- Witness for C10: the SQUAT profile with knee angles 90 and 112 and no
landmarks, for which `calculateBackStraightness` returns `0`. -/
theorem validateExercise_accuracy_witness :
    EXERCISES "SQUAT" = .profile SQUAT ∧
      (∀ t ∈ SQUAT.targets, t.1 = "backStraightness" →
        ∃ v, calculateBackStraightness none = .ok v) ∧
      ∃ r, validateExercise (some (kneeAngles (ofNat 90) (ofNat 112))) none (some "SQUAT") = .ok r ∧
        r.jointStatus.map (fun p => (p.1, p.2.target)) = SQUAT.targets ∧
        r.accuracy = ofNat (accuracySpec (statusWeights r.jointStatus)).toNat :=
  ⟨EXERCISES_SQUAT, fun _ _ _ => ⟨ofNat 0, rfl⟩,
    (validateExercise_accuracy (kneeAngles (ofNat 90) (ofNat 112)) none "SQUAT" SQUAT
      EXERCISES_SQUAT (fun _ _ _ => ⟨ofNat 0, rfl⟩)).1⟩

theorem validateLoop_eq_ok (angles : AngleSet) (landmarks : Landmarks)
    (targets : List (String × Target)) :
    ∀ st st1, validateLoop angles landmarks targets st = .ok st1 →
      st1 = recordAll angles landmarks targets st := by
  induction targets with
  | nil =>
    intro st st1 h
    simp only [validateLoop] at h
    injection h with h
    exact h.symm
  | cons entry rest ih =>
    intro st st1 h
    simp only [validateLoop, validateStep] at h
    cases hm : measure angles landmarks entry.1 entry.2 with
    | error e => simp [hm] at h
    | ok p =>
      have hp : measured angles landmarks entry = p := by simp [measured, hm]
      simp only [hm] at h
      simp only [recordAll, hp]
      exact ih _ _ h

theorem validateExercise_ok_cases (angles : Option AngleSet) (landmarks : Landmarks)
    (exerciseType : Option String) (r : ValidationResult)
    (h : validateExercise angles landmarks exerciseType = .ok r) :
    r = emptyResult ∨ ∃ a key e, angles = some a ∧ exerciseType = some key ∧
      EXERCISES key = .profile e ∧ r = resultOf (recordAll a landmarks e.targets initialState) := by
  cases angles with
  | none =>
    left
    simp only [validateExercise] at h
    injection h with h
    exact h.symm
  | some a =>
    cases exerciseType with
    | none =>
      left
      simp only [validateExercise] at h
      injection h with h
      exact h.symm
    | some key =>
      simp only [validateExercise] at h
      by_cases hk : key = ""
      · left
        simp only [hk, if_true] at h
        injection h with h
        exact h.symm
      · simp only [hk, if_false] at h
        cases hm : EXERCISES key with
        | undefined =>
          left
          simp only [hm] at h
          injection h with h
          exact h.symm
        | inherited => simp [hm] at h
        | profile e =>
          right
          simp only [hm] at h
          cases hl : validateLoop a landmarks e.targets
              { jointStatus := [], errors := [], totalScore := ofNat 0, totalWeight := ofNat 0 } with
          | error err => simp [hl] at h
          | ok st =>
            have hst := validateLoop_eq_ok a landmarks e.targets _ _ hl
            simp only [hl] at h
            injection h with h
            refine ⟨a, key, e, rfl, rfl, hm, ?_⟩
            rw [← h, hst]
            rfl

theorem recordAll_errors (angles : AngleSet) (landmarks : Landmarks)
    (targets : List (String × Target)) : ∀ st,
    (recordAll angles landmarks targets st).errors =
      st.errors ++ (targets.map fun t =>
        ((t.1, { value := (measured angles landmarks t).1
                 status := (measured angles landmarks t).2
                 target := t.2
                 color := getJointColor (measured angles landmarks t).2 }) :
          String × JointEntry)).filterMap errorLineOf := by
  induction targets with
  | nil => intro st; simp [recordAll]
  | cons entry rest ih =>
    intro st
    by_cases hs : (measured angles landmarks entry).2 = .incorrect
    · simp [recordAll, ih, record, errorLineOf, hs]
    · simp [recordAll, ih, record, errorLineOf, hs]

set_option maxHeartbeats 4000000 in
theorem squat_accuracy_le (s1 s2 s3 : Status) :
    (accuracySpec [(s1, F64.toRat (ofDec 10 10)), (s2, F64.toRat (ofDec 10 10)),
      (s3, F64.toRat (ofDec 8 10))]).toNat ≤ 100 := by
  cases s1 <;> cases s2 <;> cases s3 <;> decide!

set_option maxHeartbeats 4000000 in
theorem lateralRaise_accuracy_le (s1 s2 : Status) :
    (accuracySpec [(s1, F64.toRat (ofDec 10 10)), (s2, F64.toRat (ofDec 10 10))]).toNat ≤ 100 := by
  cases s1 <;> cases s2 <;> decide!

theorem profile_accuracy_le (e : Exercise) (he : e = SQUAT ∨ e = LATERAL_RAISE)
    (f : String × Target → Status) :
    (accuracySpec (e.targets.map fun t => (f t, F64.toRat t.2.weight))).toNat ≤ 100 := by
  rcases he with rfl | rfl
  · simp only [SQUAT, List.map]
    exact squat_accuracy_le _ _ _
  · simp only [LATERAL_RAISE, List.map]
    exact lateralRaise_accuracy_le _ _

set_option maxHeartbeats 4000000 in
theorem squat_isValid (s1 s2 s3 : Status) :
    ge (rawAccuracy
      (add (add (add (ofNat 0) (mul (jointScore s1) (ofDec 10 10)))
        (mul (jointScore s2) (ofDec 10 10))) (mul (jointScore s3) (ofDec 8 10)))
      (add (add (add (ofNat 0) (ofDec 10 10)) (ofDec 10 10)) (ofDec 8 10))) (ofNat 70) =
    ge (F64.round (rawAccuracy
      (add (add (add (ofNat 0) (mul (jointScore s1) (ofDec 10 10)))
        (mul (jointScore s2) (ofDec 10 10))) (mul (jointScore s3) (ofDec 8 10)))
      (add (add (add (ofNat 0) (ofDec 10 10)) (ofDec 10 10)) (ofDec 8 10)))) (ofNat 70) := by
  cases s1 <;> cases s2 <;> cases s3 <;> decide!

set_option maxHeartbeats 4000000 in
theorem lateralRaise_isValid (s1 s2 : Status) :
    ge (rawAccuracy
      (add (add (ofNat 0) (mul (jointScore s1) (ofDec 10 10))) (mul (jointScore s2) (ofDec 10 10)))
      (add (add (ofNat 0) (ofDec 10 10)) (ofDec 10 10))) (ofNat 70) =
    ge (F64.round (rawAccuracy
      (add (add (ofNat 0) (mul (jointScore s1) (ofDec 10 10))) (mul (jointScore s2) (ofDec 10 10)))
      (add (add (ofNat 0) (ofDec 10 10)) (ofDec 10 10)))) (ofNat 70) := by
  cases s1 <;> cases s2 <;> decide!

theorem profile_isValid (e : Exercise) (he : e = SQUAT ∨ e = LATERAL_RAISE)
    (f : String × Target → Status) :
    ge (rawAccuracy
      (e.targets.foldl (fun acc t => add acc (mul (jointScore (f t)) t.2.weight)) (ofNat 0))
      (e.targets.foldl (fun acc t => add acc t.2.weight) (ofNat 0))) (ofNat 70) =
    ge (F64.round (rawAccuracy
      (e.targets.foldl (fun acc t => add acc (mul (jointScore (f t)) t.2.weight)) (ofNat 0))
      (e.targets.foldl (fun acc t => add acc t.2.weight) (ofNat 0)))) (ofNat 70) := by
  rcases he with rfl | rfl
  · simp only [SQUAT, List.foldl]
    exact squat_isValid _ _ _
  · simp only [LATERAL_RAISE, List.foldl]
    exact lateralRaise_isValid _ _

theorem profile_known (key : String) (e : Exercise) (h : EXERCISES key = .profile e) :
    e = SQUAT ∨ e = LATERAL_RAISE := by
  rcases EXERCISES_profile key e h with ⟨_, h⟩ | ⟨_, h⟩
  · exact Or.inl h
  · exact Or.inr h

/-- C11: whenever `validateExercise` returns a result, whatever the angle
set, the landmarks and the profile key are, its accuracy is an integer between
`0` and `100`. -/
theorem validateExercise_accuracy_range (angles : Option AngleSet) (landmarks : Landmarks)
    (exerciseType : Option String) (r : ValidationResult)
    (h : validateExercise angles landmarks exerciseType = .ok r) :
    ∃ n : Nat, n ≤ 100 ∧ r.accuracy = ofNat n := by
  rcases validateExercise_ok_cases angles landmarks exerciseType r h with
    rfl | ⟨a, key, e, _, _, hkey, rfl⟩
  · exact ⟨0, by omega, rfl⟩
  · refine ⟨_, profile_accuracy_le e (profile_known key e hkey)
      (fun t => (measured a landmarks t).2), ?_⟩
    simp only [resultOf, recordAll_totalScore, recordAll_totalWeight, initialState]
    exact profile_accuracy e (profile_known key e hkey) fun t => (measured a landmarks t).2

/-- Witness for C11: the SQUAT profile with knee angles 90 and 112 and no
landmarks. -/
theorem validateExercise_accuracy_range_witness :
    validateExercise (some (kneeAngles (ofNat 90) (ofNat 112))) none (some "SQUAT") =
        .ok (resultOf (recordAll (kneeAngles (ofNat 90) (ofNat 112)) none SQUAT.targets
          initialState)) ∧
      ∃ n : Nat, n ≤ 100 ∧
        (resultOf (recordAll (kneeAngles (ofNat 90) (ofNat 112)) none SQUAT.targets
          initialState)).accuracy = ofNat n :=
  ⟨validateExercise_profile _ none "SQUAT" SQUAT EXERCISES_SQUAT (fun _ _ _ => ⟨ofNat 0, rfl⟩),
    validateExercise_accuracy_range _ none (some "SQUAT") _
      (validateExercise_profile _ none "SQUAT" SQUAT EXERCISES_SQUAT
        (fun _ _ _ => ⟨ofNat 0, rfl⟩))⟩

/-- C12: whenever `validateExercise` returns a result `r`, `r.isValid` is true
exactly when the rounded accuracy `r.accuracy` is at least `70`, although the
code compares the accuracy before rounding. -/
theorem validateExercise_isValid_iff (angles : Option AngleSet) (landmarks : Landmarks)
    (exerciseType : Option String) (r : ValidationResult)
    (h : validateExercise angles landmarks exerciseType = .ok r) :
    r.isValid = true ↔ ge r.accuracy (ofNat 70) = true := by
  rcases validateExercise_ok_cases angles landmarks exerciseType r h with
    rfl | ⟨a, key, e, _, _, hkey, rfl⟩
  · have h0 : ge (ofNat 0) (ofNat 70) = false := by decide!
    simp [emptyResult, h0]
  · simp only [resultOf, recordAll_totalScore, recordAll_totalWeight, initialState]
    rw [profile_isValid e (profile_known key e hkey) fun t => (measured a landmarks t).2]

/-- Witness for C12: the LATERAL_RAISE profile with an empty angle set. -/
theorem validateExercise_isValid_iff_witness :
    validateExercise (some fun _ => none) none (some "LATERAL_RAISE") =
        .ok (resultOf (recordAll (fun _ => none) none LATERAL_RAISE.targets initialState)) ∧
      ((resultOf (recordAll (fun _ => none) none LATERAL_RAISE.targets initialState)).isValid = true ↔
        ge (resultOf (recordAll (fun _ => none) none LATERAL_RAISE.targets initialState)).accuracy
          (ofNat 70) = true) :=
  ⟨validateExercise_profile _ none "LATERAL_RAISE" LATERAL_RAISE EXERCISES_LATERAL_RAISE
      (fun _ _ _ => ⟨ofNat 0, rfl⟩),
    validateExercise_isValid_iff _ none (some "LATERAL_RAISE") _
      (validateExercise_profile _ none "LATERAL_RAISE" LATERAL_RAISE EXERCISES_LATERAL_RAISE
        (fun _ _ _ => ⟨ofNat 0, rfl⟩))⟩

theorem validateExercise_profile_ok (a : AngleSet) (landmarks : Landmarks) (key : String)
    (e : Exercise) (r : ValidationResult) (hkey : EXERCISES key = .profile e)
    (h : validateExercise (some a) landmarks (some key) = .ok r) :
    r = resultOf (recordAll a landmarks e.targets initialState) := by
  have hne : key ≠ "" := by
    rcases EXERCISES_profile key e hkey with ⟨h1, _⟩ | ⟨h1, _⟩ <;> simp [h1]
  simp only [validateExercise, hne, if_false, hkey] at h
  cases hl : validateLoop a landmarks e.targets
      { jointStatus := [], errors := [], totalScore := ofNat 0, totalWeight := ofNat 0 } with
  | error err => simp [hl] at h
  | ok st =>
    have hst := validateLoop_eq_ok a landmarks e.targets _ _ hl
    simp only [hl] at h
    injection h with h
    rw [← h, hst]
    rfl

/-- For an absent angle set, an absent or empty profile key, or a key whose
lookup `EXERCISES[key]` is `undefined`, `validateExercise` returns, for
all landmarks and without raising, exactly the result
`{isValid: false, accuracy: 0, jointStatus: {}, errors: []}`. -/
theorem validateExercise_unknown (angles : Option AngleSet) (landmarks : Landmarks)
    (exerciseType : Option String)
    (h : angles = none ∨ exerciseType = none ∨ exerciseType = some "" ∨
      ∃ key, exerciseType = some key ∧ EXERCISES key = .undefined) :
    validateExercise angles landmarks exerciseType =
      .ok { isValid := false, accuracy := ofNat 0, jointStatus := [], errors := [] } := by
  rcases h with rfl | rfl | rfl | ⟨key, rfl, hkey⟩
  · rfl
  · cases angles <;> rfl
  · cases angles with
    | none => rfl
    | some a => simp [validateExercise, emptyResult]
  · cases angles with
    | none => rfl
    | some a =>
      by_cases hk : key = ""
      · simp [validateExercise, emptyResult, hk]
      · simp [validateExercise, emptyResult, hk, hkey]

/-- The unknown profile key `LUNGE`, with bad landmarks, gives the empty
result. -/
theorem validateExercise_unknown_witness :
    EXERCISES "LUNGE" = .undefined ∧
      validateExercise (some (kneeAngles (ofNat 90) (ofNat 112))) (some (List.replicate 33 none))
          (some "LUNGE") =
        .ok { isValid := false, accuracy := ofNat 0, jointStatus := [], errors := [] } :=
  ⟨by simp [EXERCISES, objectPrototypeKeys],
    validateExercise_unknown _ _ _
      (Or.inr (Or.inr (Or.inr ⟨"LUNGE", rfl, by simp [EXERCISES, objectPrototypeKeys]⟩)))⟩

/-- C15: whenever `validateExercise` returns a result, its `jointStatus` has
one entry per target of the profile in the order of the targets, and its
errors list is, in that order, one line for each entry whose status is
`'incorrect'` and none for any other entry; each line renders as
`<metric>: <value>° (target: <min>-<max>°)` with the entry's value passed
through `Math.round` and the target's `min` and `max`. -/
theorem validateExercise_errors (angles : Option AngleSet) (landmarks : Landmarks)
    (exerciseType : Option String) (r : ValidationResult) (numToString : F64 → String)
    (h : validateExercise angles landmarks exerciseType = .ok r) :
    r.errors = r.jointStatus.filterMap errorLineOf ∧
      (∀ key e, exerciseType = some key → EXERCISES key = .profile e → angles ≠ none →
        r.jointStatus.map (fun p => (p.1, p.2.target)) = e.targets) ∧
      r.errors.map (ErrorLine.render numToString) =
        (r.jointStatus.filter fun p => p.2.status = .incorrect).map fun p =>
          p.1 ++ ": " ++ numToString (roundValue p.2.value) ++ "° (target: " ++
            numToString p.2.target.min ++ "-" ++ numToString p.2.target.max ++ "°)" := by
  have herr : r.errors = r.jointStatus.filterMap errorLineOf := by
    rcases validateExercise_ok_cases angles landmarks exerciseType r h with
      rfl | ⟨a, key, e, _, _, _, rfl⟩
    · rfl
    · simp only [resultOf, recordAll_errors, recordAll_jointStatus, initialState,
        List.nil_append]
  refine ⟨herr, ?_, ?_⟩
  · intro key e hk hkey ha
    cases angles with
    | none => exact absurd rfl ha
    | some a =>
      subst hk
      rw [validateExercise_profile_ok a landmarks key e r hkey h]
      simp only [resultOf, recordAll_jointStatus, initialState, List.nil_append, List.map_map]
      simp [Function.comp_def]
  · rw [herr]
    induction r.jointStatus with
    | nil => rfl
    | cons p rest ih =>
      by_cases hs : p.2.status = .incorrect
      · simp [List.filterMap_cons, errorLineOf, hs, ErrorLine.render, ih]
      · simp [List.filterMap_cons, errorLineOf, hs, ih]

/-- Witness for C15: the SQUAT profile with knee angles 90 and 112 and no
landmarks. -/
theorem validateExercise_errors_witness :
    validateExercise (some (kneeAngles (ofNat 90) (ofNat 112))) none (some "SQUAT") =
        .ok (resultOf (recordAll (kneeAngles (ofNat 90) (ofNat 112)) none SQUAT.targets
          initialState)) ∧
      (resultOf (recordAll (kneeAngles (ofNat 90) (ofNat 112)) none SQUAT.targets
          initialState)).errors =
        (resultOf (recordAll (kneeAngles (ofNat 90) (ofNat 112)) none SQUAT.targets
          initialState)).jointStatus.filterMap errorLineOf :=
  ⟨validateExercise_profile _ none "SQUAT" SQUAT EXERCISES_SQUAT (fun _ _ _ => ⟨ofNat 0, rfl⟩),
    (validateExercise_errors _ none (some "SQUAT") _ (fun _ => "")
      (validateExercise_profile _ none "SQUAT" SQUAT EXERCISES_SQUAT
        (fun _ _ _ => ⟨ofNat 0, rfl⟩))).1⟩

theorem calculateBackStraightness_absent (l : List (Option Landmark)) (hlen : 33 ≤ l.length)
    (h : Landmarks.at l 11 = none ∨ Landmarks.at l 12 = none ∨ Landmarks.at l 23 = none ∨
      Landmarks.at l 24 = none) :
    calculateBackStraightness (some l) = .error .typeError := by
  have hl : ¬ l.length < 33 := by omega
  simp only [calculateBackStraightness, hl, if_false]
  rcases h with h | h | h | h
  · rw [h]
  · rw [h]
    cases Landmarks.at l 11 <;> rfl
  · rw [h]
    cases Landmarks.at l 11 <;> cases Landmarks.at l 12 <;> rfl
  · rw [h]
    cases Landmarks.at l 11 <;> cases Landmarks.at l 12 <;> cases Landmarks.at l 23 <;> rfl

/-- C17: `calculateBackStraightness` returns `0` for an absent sequence and for
a sequence shorter than 33, but for a sequence of 33 or more entries in which
landmark 11, 12, 23 or 24 is absent it raises a `TypeError`, and so does
`validateExercise` on the SQUAT profile with any angle set; a frame of 33
absent entries is such an input. -/
theorem calculateBackStraightness_raises :
    calculateBackStraightness none = .ok (ofNat 0) ∧
      (∀ l : List (Option Landmark), l.length < 33 →
        calculateBackStraightness (some l) = .ok (ofNat 0)) ∧
      (∀ l : List (Option Landmark), 33 ≤ l.length →
        (Landmarks.at l 11 = none ∨ Landmarks.at l 12 = none ∨ Landmarks.at l 23 = none ∨
          Landmarks.at l 24 = none) →
        calculateBackStraightness (some l) = .error .typeError ∧
        ∀ angles : AngleSet,
          validateExercise (some angles) (some l) (some "SQUAT") = .error .typeError) ∧
      calculateBackStraightness (some (List.replicate 33 none)) = .error .typeError ∧
      validateExercise (some (kneeAngles (ofNat 90) (ofNat 90))) (some (List.replicate 33 none))
        (some "SQUAT") = .error .typeError := by
  have key : ∀ l : List (Option Landmark), 33 ≤ l.length →
      (Landmarks.at l 11 = none ∨ Landmarks.at l 12 = none ∨ Landmarks.at l 23 = none ∨
        Landmarks.at l 24 = none) →
      calculateBackStraightness (some l) = .error .typeError ∧
      ∀ angles : AngleSet,
        validateExercise (some angles) (some l) (some "SQUAT") = .error .typeError := by
    intro l hlen h
    have hb := calculateBackStraightness_absent l hlen h
    refine ⟨hb, fun angles => ?_⟩
    simp [validateExercise, EXERCISES, SQUAT, validateLoop, validateStep, measure, hb]
  have h33 : 33 ≤ (List.replicate 33 (none : Option Landmark)).length := by simp
  have hn : Landmarks.at (List.replicate 33 (none : Option Landmark)) 11 = none := by
    simp [Landmarks.at]
  refine ⟨rfl, fun l hl => ?_, key, (key _ h33 (Or.inl hn)).1, (key _ h33 (Or.inl hn)).2 _⟩
  simp [calculateBackStraightness, hl]

/-- C16: for a known profile key `getFeedbackMessage` returns the success
message for an accuracy of at least 90, the minor-adjustments message with the
comma-joined error lines from 70 up to 90 and the needs-correction message
below 70.  For a non-empty key whose lookup `EXERCISES[key]` is `undefined`
it raises a `TypeError` as soon as the accuracy is at least 90 (reading
`exercise.name`), as for an accuracy of 95 and the key `LUNGE`, where the
sibling `getExerciseInstructions` returns the empty string. -/
theorem getFeedbackMessage_unknown_raises (numToString : F64 → String) :
    (∀ (v : ValidationResult) (key : String) (e : Exercise), EXERCISES key = .profile e →
      getFeedbackMessage numToString (some v) (some key) =
        .ok (if ge v.accuracy (ofNat 90) = true then
            "Excellent form! " ++ e.name ++ " performed correctly."
          else if ge v.accuracy (ofNat 70) = true then
            "Good effort! Minor adjustments needed: " ++
              ", ".intercalate (v.errors.map (ErrorLine.render numToString))
          else
            "Form needs correction: " ++
              ", ".intercalate (v.errors.map (ErrorLine.render numToString)))) ∧
      (∀ (v : ValidationResult) (key : String), key ≠ "" → EXERCISES key = .undefined →
        ge v.accuracy (ofNat 90) = true →
        getFeedbackMessage numToString (some v) (some key) = .error .typeError) ∧
      getFeedbackMessage numToString
        (some { isValid := true, accuracy := ofNat 95, jointStatus := [], errors := [] })
        (some "LUNGE") = .error .typeError ∧
      getExerciseInstructions "LUNGE" = some "" := by
  have h2 : ∀ (v : ValidationResult) (key : String), key ≠ "" → EXERCISES key = .undefined →
      ge v.accuracy (ofNat 90) = true →
      getFeedbackMessage numToString (some v) (some key) = .error .typeError := by
    intro v key hne hkey hacc
    simp [getFeedbackMessage, hne, hkey, hacc]
  have hl : EXERCISES "LUNGE" = .undefined := by simp [EXERCISES, objectPrototypeKeys]
  refine ⟨?_, h2, h2 _ "LUNGE" (by simp) hl (by decide!), by simp [getExerciseInstructions, hl]⟩
  intro v key e hkey
  have hne : key ≠ "" := by
    rcases EXERCISES_profile key e hkey with ⟨h1, _⟩ | ⟨h1, _⟩ <;> simp [h1]
  by_cases h90 : ge v.accuracy (ofNat 90) = true
  · simp [getFeedbackMessage, hne, hkey, h90]
  · by_cases h70 : ge v.accuracy (ofNat 70) = true
    · simp [getFeedbackMessage, hne, h90, h70]
    · simp [getFeedbackMessage, hne, h90, h70]

/-! ## Facts about the session state -/

theorem lookup_map_set (m : List (String × PatientStats)) (k : String) (v : PatientStats)
    (h : (m.lookup k).isSome = true) :
    (m.map fun p => if p.1 = k then (k, v) else p).lookup k = some v := by
  induction m with
  | nil => simp at h
  | cons p rest ih =>
    obtain ⟨pk, pv⟩ := p
    simp only [List.map_cons]
    by_cases hp : pk = k
    · rw [if_pos hp]
      simp [List.lookup]
    · rw [if_neg hp]
      have hk : (k == pk) = false := by
        simp only [beq_eq_false_iff_ne, ne_eq]
        exact fun h1 => hp h1.symm
      simp only [List.lookup, hk] at h ⊢
      exact ih h

theorem lookup_append_new (m : List (String × PatientStats)) (k : String) (v : PatientStats)
    (h : (m.lookup k).isSome = false) : (m ++ [(k, v)]).lookup k = some v := by
  induction m with
  | nil => simp [List.lookup]
  | cons p rest ih =>
    obtain ⟨pk, pv⟩ := p
    cases hk : (k == pk) with
    | true => simp [List.lookup, hk] at h
    | false =>
      simp only [List.lookup, hk] at h
      simp only [List.cons_append, List.lookup, hk]
      exact ih h

theorem statsOf_setStats (m : List (String × PatientStats)) (k : String) (v : PatientStats) :
    statsOf (setStats m k v) k = some v := by
  unfold statsOf setStats
  cases h : (m.lookup k).isSome with
  | true =>
    simp only [if_true]
    exact lookup_map_set m k v h
  | false =>
    simp only [Bool.false_eq_true, if_false]
    exact lookup_append_new m k v h

theorem handle_accuracyUpdate (now : Nat) (st : SessionState) (P : String) (a : F64)
    (hrole : st.userRole = "therapist") :
    handleWebSocketMessage now st (accuracyUpdate P a) = updatePatientAccuracy st P (some a) := by
  simp [handleWebSocketMessage, accuracyUpdate, hrole, keyOf]

theorem historyOf_accuracyUpdate (now : Nat) (st : SessionState) (P : String) (a : F64)
    (hrole : st.userRole = "therapist") :
    historyOf (handleWebSocketMessage now st (accuracyUpdate P a)) P =
      historyOf st P ++ [some a] := by
  rw [handle_accuracyUpdate now st P a hrole]
  simp only [historyOf, updatePatientAccuracy, statsOf_setStats]
  cases h : statsOf st.patientStats P <;> simp [PatientStats.empty]

theorem handle_accuracyUpdate_role (now : Nat) (st : SessionState) (P : String) (a : F64) :
    (handleWebSocketMessage now st (accuracyUpdate P a)).userRole = st.userRole := by
  by_cases hrole : st.userRole = "therapist"
  · rw [handle_accuracyUpdate now st P a hrole]
    rfl
  · simp [handleWebSocketMessage, accuracyUpdate, hrole]

theorem historyOf_handleAll (now : Nat) (P : String) (a : F64) (n : Nat) :
    ∀ st : SessionState, st.userRole = "therapist" →
      historyOf (handleAll now st (List.replicate n (accuracyUpdate P a))) P =
        historyOf st P ++ List.replicate n (some a) := by
  induction n with
  | zero => intro st _; simp [handleAll]
  | succ n ih =>
    intro st hrole
    have hrole1 : (handleWebSocketMessage now st (accuracyUpdate P a)).userRole = "therapist" := by
      rw [handle_accuracyUpdate_role, hrole]
    have h := ih _ hrole1
    simp only [handleAll] at h ⊢
    rw [List.replicate_succ, List.foldl_cons, h, historyOf_accuracyUpdate now st P a hrole]
    simp [List.replicate_succ]

/-- When the role the handler reads is `'therapist'`, handling an
`accuracy_update` with value `a` from patient `P` makes `P`'s entry the previous entry (the empty entry if `P`
had none) with accuracy `a` and with `a` appended at the end of the previous
history; `n` identical messages append `n` copies, so from no history the
history has length `n`. -/
theorem accuracyUpdate_appends (now : Nat) (st : SessionState) (P : String) (a : F64) (n : Nat)
    (hrole : st.userRole = "therapist") :
    statsOf (handleWebSocketMessage now st (accuracyUpdate P a)).patientStats P =
        some { accuracy := some a
               accuracyHistory := some (historyOf st P ++ [some a])
               lastPoseData := (statsOf st.patientStats P).bind fun e => e.lastPoseData
               lastUpdate := (statsOf st.patientStats P).bind fun e => e.lastUpdate } ∧
      historyOf (handleAll now st (List.replicate n (accuracyUpdate P a))) P =
        historyOf st P ++ List.replicate n (some a) ∧
      (historyOf st P = [] →
        (historyOf (handleAll now st (List.replicate n (accuracyUpdate P a))) P).length = n) := by
  refine ⟨?_, historyOf_handleAll now P a n st hrole, fun h0 => ?_⟩
  · rw [handle_accuracyUpdate now st P a hrole]
    simp only [updatePatientAccuracy, statsOf_setStats, historyOf]
    cases h : statsOf st.patientStats P <;> simp [PatientStats.empty]
  · rw [historyOf_handleAll now P a n st hrole, h0]
    simp

/-- A handler that reads the role `'therapist'` and handles three identical
updates of 80 from patient `p1`, starting without patient statistics, records
a history of length three. -/
theorem accuracyUpdate_appends_witness :
    (freshState "t1" "therapist").userRole = "therapist" ∧
      historyOf (handleAll 1000 (freshState "t1" "therapist")
        (List.replicate 3 (accuracyUpdate "p1" (ofNat 80)))) "p1" =
        historyOf (freshState "t1" "therapist") "p1" ++ List.replicate 3 (some (ofNat 80)) :=
  ⟨rfl, (accuracyUpdate_appends 1000 (freshState "t1" "therapist") "p1" (ofNat 80) 3 rfl).2.1⟩

/-- C19: on the therapist side, handling an `accuracy_update` from patient `P`
leaves `P`'s `lastUpdate` as it was (absent when `P` had no entry), whatever
the handling time is; only a `pose_update` sets it to the handling time.  A
therapist without statistics who handles an update of 80 from `p1` at time
1000 has no `lastUpdate` for `p1` afterwards. -/
theorem accuracyUpdate_keeps_lastUpdate :
    (∀ (now : Nat) (st : SessionState) (P : String) (a : F64), st.userRole = "therapist" →
      lastUpdateOf (handleWebSocketMessage now st (accuracyUpdate P a)) P = lastUpdateOf st P) ∧
      (∀ (now : Nat) (st : SessionState) (P : String) (d : String), st.userRole = "therapist" →
        lastUpdateOf (handleWebSocketMessage now st (poseUpdate P d)) P = some now) ∧
      lastUpdateOf (handleWebSocketMessage 1000 (freshState "t1" "therapist")
        (accuracyUpdate "p1" (ofNat 80))) "p1" = none := by
  have h1 : ∀ (now : Nat) (st : SessionState) (P : String) (a : F64), st.userRole = "therapist" →
      lastUpdateOf (handleWebSocketMessage now st (accuracyUpdate P a)) P = lastUpdateOf st P := by
    intro now st P a hrole
    rw [handle_accuracyUpdate now st P a hrole]
    simp only [lastUpdateOf, updatePatientAccuracy, statsOf_setStats]
    cases h : statsOf st.patientStats P <;> simp [PatientStats.empty]
  refine ⟨h1, ?_, ?_⟩
  · intro now st P d hrole
    have hh : handleWebSocketMessage now st (poseUpdate P d) =
        updatePatientPoseData now st P (some d) := by
      simp [handleWebSocketMessage, poseUpdate, hrole, keyOf]
    rw [hh]
    simp [lastUpdateOf, updatePatientPoseData, statsOf_setStats]
  · rw [h1 1000 _ "p1" (ofNat 80) rfl]
    rfl

/-- C20 (as stated, refuted): a feedback message targeted at patient `p1` and
received by patient `p2`, or by the therapist `t1`, is added to the visible
queue of that participant. -/
theorem feedback_shown_to_others :
    (handleWebSocketMessage 1000 (freshState "p2" "patient")
        (feedbackFor "p1" "Bend your knees")).feedbackMessages =
        [{ id := 1000, message := some "Bend your knees", timestamp := 1000 }] ∧
      (handleWebSocketMessage 1000 (freshState "t1" "therapist")
        (feedbackFor "p1" "Bend your knees")).feedbackMessages =
        [{ id := 1000, message := some "Bend your knees", timestamp := 1000 }] := by
  constructor <;> rfl

/-- C20 (amended): `handleWebSocketMessage` appends the message of every
received `feedback` envelope at the end of the visible queue, whatever the
envelope's `target_patient` and the local user's id and role are; it leaves
the rest of the session state alone apart from the expiry timer it sets. -/
theorem feedback_always_shown (now : Nat) (st : SessionState) (data : Envelope)
    (htype : data.type = "feedback") :
    handleWebSocketMessage now st data =
      { st with
        feedbackMessages := st.feedbackMessages ++
          [{ id := now, message := data.message, timestamp := now }]
        timers := st.timers ++ [(now + 5000, now)] } := by
  simp [handleWebSocketMessage, htype, addFeedbackMessage]

/-- Witness for C20: patient `p2` receives feedback addressed to `p1`. -/
theorem feedback_always_shown_witness :
    (feedbackFor "p1" "Bend your knees").type = "feedback" ∧
      handleWebSocketMessage 1000 (freshState "p2" "patient") (feedbackFor "p1" "Bend your knees") =
        { freshState "p2" "patient" with
          feedbackMessages := (freshState "p2" "patient").feedbackMessages ++
            [{ id := 1000, message := (feedbackFor "p1" "Bend your knees").message,
               timestamp := 1000 }]
          timers := (freshState "p2" "patient").timers ++ [(1000 + 5000, 1000)] } :=
  ⟨rfl, feedback_always_shown 1000 (freshState "p2" "patient") (feedbackFor "p1" "Bend your knees")
    rfl⟩

/-! ## Facts about rounding -/

namespace F64

theorem shiftRight_window (n j : Nat) : n >>> (1 <<< j) = 0 ↔ n < 2 ^ (2 ^ j) := by
  rw [Nat.shiftRight_eq_div_pow, Nat.one_shiftLeft, Nat.div_eq_zero_iff (by positivity)]

theorem bitLenUp_window (n : Nat) : ∀ fuel j, n < 2 ^ (2 ^ (j + fuel)) →
    n < 2 ^ (2 ^ bitLenUp fuel n j) := by
  intro fuel
  induction fuel with
  | zero => intro j h; simpa [bitLenUp] using h
  | succ fuel ih =>
    intro j h
    unfold bitLenUp
    by_cases hz : n >>> (1 <<< j) = 0
    · rw [if_pos hz]
      exact (shiftRight_window n j).1 hz
    · rw [if_neg hz]
      apply ih
      have : j + 1 + fuel = j + (fuel + 1) := by omega
      rw [this]
      exact h

theorem size_div_pow (n t : Nat) (h : 2 ^ t ≤ n) : Nat.size (n / 2 ^ t) + t = Nat.size n := by
  have hpos : 0 < n / 2 ^ t := Nat.div_pos h (by positivity)
  have hs : 0 < Nat.size (n / 2 ^ t) := Nat.size_pos.2 hpos
  apply le_antisymm
  · have h1 : 2 ^ (Nat.size (n / 2 ^ t) - 1) ≤ n / 2 ^ t := Nat.lt_size.1 (by omega)
    have h2 : 2 ^ (Nat.size (n / 2 ^ t) - 1) * 2 ^ t ≤ n :=
      le_trans (Nat.mul_le_mul_right _ h1) (Nat.div_mul_le_self n (2 ^ t))
    rw [← pow_add] at h2
    have h3 : Nat.size (n / 2 ^ t) - 1 + t < Nat.size n := Nat.lt_size.2 h2
    omega
  · rw [Nat.size_le]
    have h1 : n / 2 ^ t < 2 ^ Nat.size (n / 2 ^ t) := Nat.lt_size_self _
    rw [pow_add]
    exact (Nat.div_lt_iff_lt_mul (by positivity)).1 h1

theorem bitLenDown_size : ∀ j n acc, n < 2 ^ (2 ^ j) → bitLenDown j n acc = acc + Nat.size n := by
  intro j
  induction j with
  | zero =>
    intro n acc h
    have h2 : n < 2 := by simpa using h
    unfold bitLenDown
    interval_cases n
    · simp
    · simp [Nat.size_one]
  | succ j ih =>
    intro n acc h
    unfold bitLenDown
    by_cases hz : n >>> (1 <<< j) = 0
    · rw [if_pos hz]
      exact ih n acc ((shiftRight_window n j).1 hz)
    · rw [if_neg hz]
      have hge : 2 ^ (2 ^ j) ≤ n := by
        by_contra hlt
        exact hz ((shiftRight_window n j).2 (by omega))
      have hlt : n >>> (1 <<< j) < 2 ^ (2 ^ j) := by
        rw [Nat.shiftRight_eq_div_pow, Nat.one_shiftLeft]
        apply (Nat.div_lt_iff_lt_mul (by positivity)).2
        rw [← pow_add]
        have : 2 ^ j + 2 ^ j = 2 ^ (j + 1) := by rw [pow_succ]; omega
        rw [this]
        exact h
      rw [ih _ _ hlt, Nat.shiftRight_eq_div_pow, Nat.one_shiftLeft]
      have := size_div_pow n (2 ^ j) hge
      omega

theorem bitLen_eq_size (n : Nat) : bitLen n = Nat.size n := by
  unfold bitLen
  rw [bitLenDown_size _ n 0 (bitLenUp_window n n 0 ?_)]
  · simp
  · have h1 : n < 2 ^ n := Nat.lt_two_pow n
    have h2 : n ≤ 2 ^ (0 + n) := by
      rw [Nat.zero_add]
      exact le_of_lt h1
    exact lt_of_lt_of_le h1 (Nat.pow_le_pow_right (by decide) h2)


theorem roundUnits_eq (N D : Nat) :
    roundUnits N D = if overflowBound ≤ roundRaw N D then none else some (roundRaw N D) := rfl

theorem roundRaw_scale (x c : Nat) (hc : 0 < c) :
    roundRaw (x * c) c = rne x (2 ^ (Nat.size x - 53)) := by
  unfold roundRaw rne
  simp only [Nat.mul_div_cancel x hc, bitLen_eq_size, Nat.one_shiftLeft]
  generalize 2 ^ (Nat.size x - 53) = g
  have hR : x * c - x / g * g * c = (x % g) * c := by
    rw [← Nat.sub_mul]
    congr 1
    have := Nat.div_add_mod x g
    have h2 : x / g * g = g * (x / g) := Nat.mul_comm _ _
    omega
  rw [hR]
  have e1 : (2 * (x % g * c) > g * c) ↔ (2 * (x % g) > g) := by
    rw [← Nat.mul_assoc]
    exact Nat.mul_lt_mul_right hc
  have e2 : (2 * (x % g * c) = g * c) ↔ (2 * (x % g) = g) := by
    rw [← Nat.mul_assoc]
    exact Nat.mul_right_cancel_iff hc
  simp only [e1, e2]

theorem rne_floor_le (x g : Nat) : x / g * g ≤ rne x g := by
  unfold rne
  apply Nat.mul_le_mul_right
  split_ifs <;> omega

theorem rne_le_ceil (x g : Nat) : rne x g ≤ (x / g + 1) * g := by
  unfold rne
  apply Nat.mul_le_mul_right
  split_ifs <;> omega

theorem rne_mono (x y g : Nat) (h : x ≤ y) : rne x g ≤ rne y g := by
  have hd : x / g ≤ y / g := Nat.div_le_div_right h
  rcases Nat.lt_or_ge (x / g) (y / g) with hlt | hge
  · exact le_trans (rne_le_ceil x g) (le_trans (Nat.mul_le_mul_right g hlt) (rne_floor_le y g))
  · have heq : x / g = y / g := le_antisymm hd hge
    have hm : x % g ≤ y % g := by
      have hx := Nat.div_add_mod x g
      have hy := Nat.div_add_mod y g
      rw [heq] at hx
      omega
    unfold rne
    apply Nat.mul_le_mul_right
    rw [heq]
    split_ifs <;> omega

theorem roundRaw_scale_rInt (x c : Nat) (hc : 0 < c) : roundRaw (x * c) c = rInt x := by
  rw [roundRaw_scale x c hc, rInt, bitLen_eq_size]

theorem pow_le_rInt (x : Nat) (hx : 0 < x) : 2 ^ (Nat.size x - 1) ≤ rInt x := by
  have hs : 0 < Nat.size x := Nat.size_pos.2 hx
  have h1 : 2 ^ (Nat.size x - 1) ≤ x := Nat.lt_size.1 (by omega)
  have hdvd : 2 ^ (Nat.size x - 53) ∣ 2 ^ (Nat.size x - 1) := pow_dvd_pow 2 (by omega)
  obtain ⟨c, hc⟩ := hdvd
  have hg : 0 < 2 ^ (Nat.size x - 53) := by positivity
  have h2 : c ≤ x / 2 ^ (Nat.size x - 53) := by
    rw [Nat.le_div_iff_mul_le hg, Nat.mul_comm, ← hc]
    exact h1
  calc 2 ^ (Nat.size x - 1) = c * 2 ^ (Nat.size x - 53) := by rw [hc, Nat.mul_comm]
    _ ≤ x / 2 ^ (Nat.size x - 53) * 2 ^ (Nat.size x - 53) := Nat.mul_le_mul_right _ h2
    _ ≤ rInt x := by
      rw [rInt, bitLen_eq_size]
      exact rne_floor_le _ _

theorem rInt_le_pow (x : Nat) : rInt x ≤ 2 ^ Nat.size x := by
  have h1 : x < 2 ^ Nat.size x := Nat.lt_size_self x
  have hdvd : 2 ^ (Nat.size x - 53) ∣ 2 ^ Nat.size x := pow_dvd_pow 2 (by omega)
  obtain ⟨c, hc⟩ := hdvd
  have hg : 0 < 2 ^ (Nat.size x - 53) := by positivity
  have h2 : x / 2 ^ (Nat.size x - 53) < c := by
    rw [Nat.div_lt_iff_lt_mul hg, Nat.mul_comm, ← hc]
    exact h1
  calc rInt x ≤ (x / 2 ^ (Nat.size x - 53) + 1) * 2 ^ (Nat.size x - 53) := by
        rw [rInt, bitLen_eq_size]
        exact rne_le_ceil _ _
    _ ≤ c * 2 ^ (Nat.size x - 53) := Nat.mul_le_mul_right _ h2
    _ = 2 ^ Nat.size x := by rw [hc, Nat.mul_comm]

theorem rInt_mono (x y : Nat) (h : x ≤ y) : rInt x ≤ rInt y := by
  rcases Nat.eq_zero_or_pos x with rfl | hx
  · simp [rInt, rne, bitLen_eq_size]
  · have hy : 0 < y := lt_of_lt_of_le hx h
    have hs : Nat.size x ≤ Nat.size y := Nat.size_le_size h
    rcases Nat.lt_or_ge (Nat.size x) (Nat.size y) with hlt | hge
    · calc rInt x ≤ 2 ^ Nat.size x := rInt_le_pow x
        _ ≤ 2 ^ (Nat.size y - 1) := Nat.pow_le_pow_right (by decide) (by omega)
        _ ≤ rInt y := pow_le_rInt y hy
    · have heq : Nat.size x = Nat.size y := le_antisymm hs hge
      unfold rInt
      rw [bitLen_eq_size, bitLen_eq_size, heq]
      exact rne_mono x y _ h

theorem rInt_pos (x : Nat) (hx : 0 < x) : 0 < rInt x :=
  lt_of_lt_of_le (by positivity) (pow_le_rInt x hx)

theorem rne_rep (x : Nat) : Rep (rInt x) := by
  have h1 : x < 2 ^ Nat.size x := Nat.lt_size_self x
  have hg : 0 < 2 ^ (Nat.size x - 53) := by positivity
  have h2 : x / 2 ^ (Nat.size x - 53) < 2 ^ 53 := by
    rw [Nat.div_lt_iff_lt_mul hg, ← pow_add]
    exact lt_of_lt_of_le h1 (Nat.pow_le_pow_right (by decide) (by omega))
  refine ⟨_, Nat.size x - 53, ?_, by rw [rInt, bitLen_eq_size, rne]⟩
  split_ifs <;> omega

theorem rep_lt_pred (k m e : Nat) (hk : Rep k) (hm : 2 ^ 52 < m) (hlt : k < m * 2 ^ e) :
    k ≤ (m - 1) * 2 ^ e := by
  obtain ⟨n, s, hn, rfl⟩ := hk
  by_contra hcon
  have hgt : (m - 1) * 2 ^ e < n * 2 ^ s := by omega
  rcases Nat.lt_or_ge s e with hse | hse
  · have he : 2 ^ e = 2 ^ (e - s) * 2 ^ s := by rw [← pow_add]; congr 1; omega
    rw [he, ← Nat.mul_assoc] at hgt
    have h1 : (m - 1) * 2 ^ (e - s) < n := Nat.lt_of_mul_lt_mul_right hgt
    have h2 : 2 ≤ 2 ^ (e - s) := by
      calc 2 = 2 ^ 1 := by norm_num
        _ ≤ 2 ^ (e - s) := Nat.pow_le_pow_right (by decide) (by omega)
    have h3 : 2 ^ 52 * 2 ≤ (m - 1) * 2 ^ (e - s) := Nat.mul_le_mul (by omega) h2
    have h4 : (2 : Nat) ^ 53 = 2 ^ 52 * 2 := by norm_num
    omega
  · have hs : 2 ^ s = 2 ^ (s - e) * 2 ^ e := by rw [← pow_add]; congr 1; omega
    rw [hs, ← Nat.mul_assoc] at hgt hlt
    have h1 : m - 1 < n * 2 ^ (s - e) := Nat.lt_of_mul_lt_mul_right hgt
    have h2 : n * 2 ^ (s - e) < m := Nat.lt_of_mul_lt_mul_right hlt
    omega

theorem rep_gt_succ (k m e : Nat) (hk : Rep k) (hm : 2 ^ 52 ≤ m) (hgt : m * 2 ^ e < k) :
    (m + 1) * 2 ^ e ≤ k := by
  obtain ⟨n, s, hn, rfl⟩ := hk
  by_contra hcon
  have hlt : n * 2 ^ s < (m + 1) * 2 ^ e := by omega
  rcases Nat.lt_or_ge s e with hse | hse
  · have he : 2 ^ e = 2 ^ (e - s) * 2 ^ s := by rw [← pow_add]; congr 1; omega
    rw [he, ← Nat.mul_assoc] at hgt
    have h1 : m * 2 ^ (e - s) < n := Nat.lt_of_mul_lt_mul_right hgt
    have h2 : 2 ≤ 2 ^ (e - s) := by
      calc 2 = 2 ^ 1 := by norm_num
        _ ≤ 2 ^ (e - s) := Nat.pow_le_pow_right (by decide) (by omega)
    have h3 : 2 ^ 52 * 2 ≤ m * 2 ^ (e - s) := Nat.mul_le_mul hm h2
    have h4 : (2 : Nat) ^ 53 = 2 ^ 52 * 2 := by norm_num
    omega
  · have hs : 2 ^ s = 2 ^ (s - e) * 2 ^ e := by rw [← pow_add]; congr 1; omega
    rw [hs, ← Nat.mul_assoc] at hgt hlt
    have h1 : m < n * 2 ^ (s - e) := Nat.lt_of_mul_lt_mul_right hgt
    have h2 : n * 2 ^ (s - e) < m + 1 := Nat.lt_of_mul_lt_mul_right hlt
    omega

theorem roundRaw_rep (N D : Nat) : Rep (roundRaw N D) := by
  have h1 : N / D < 2 ^ Nat.size (N / D) := Nat.lt_size_self _
  have hg : 0 < 2 ^ (Nat.size (N / D) - 53) := by positivity
  have h2 : N / D / 2 ^ (Nat.size (N / D) - 53) < 2 ^ 53 := by
    rw [Nat.div_lt_iff_lt_mul hg, ← pow_add]
    exact lt_of_lt_of_le h1 (Nat.pow_le_pow_right (by decide) (by omega))
  have e : roundRaw N D =
      (if 2 * (N - N / D / 2 ^ (Nat.size (N / D) - 53) * 2 ^ (Nat.size (N / D) - 53) * D) >
          2 ^ (Nat.size (N / D) - 53) * D then N / D / 2 ^ (Nat.size (N / D) - 53) + 1
        else if 2 * (N - N / D / 2 ^ (Nat.size (N / D) - 53) * 2 ^ (Nat.size (N / D) - 53) * D) =
            2 ^ (Nat.size (N / D) - 53) * D then
          N / D / 2 ^ (Nat.size (N / D) - 53) + N / D / 2 ^ (Nat.size (N / D) - 53) % 2
        else N / D / 2 ^ (Nat.size (N / D) - 53)) * 2 ^ (Nat.size (N / D) - 53) := by
    simp only [roundRaw, bitLen_eq_size, Nat.one_shiftLeft]
  rw [e]
  refine ⟨_, Nat.size (N / D) - 53, ?_, rfl⟩
  split_ifs <;> omega

theorem ofRounded_rep (s t : Bool) (N D k : Nat) (h : ofRounded s N D = fin t k) : Rep k := by
  unfold ofRounded at h
  rw [roundUnits_eq] at h
  by_cases ho : overflowBound ≤ roundRaw N D
  · simp [ho] at h
  · simp only [ho, if_false] at h
    injection h with _ hk
    rw [← hk]
    exact roundRaw_rep N D

theorem rep_zero : Rep 0 := ⟨0, 0, by omega, by simp⟩

theorem div_rep (x y : F64) (t : Bool) (k : Nat) (h : div x y = fin t k) : Rep k := by
  cases x with
  | nan => simp [div] at h
  | inf s => cases y <;> simp [div] at h
  | fin s a =>
    cases y with
    | nan => simp [div] at h
    | inf s1 =>
      simp only [div] at h
      injection h with _ hk
      rw [← hk]
      exact rep_zero
    | fin s1 b =>
      by_cases hb : b = 0
      · by_cases ha : a = 0
        · simp [div, hb, ha] at h
        · simp [div, hb, ha] at h
      · simp only [div, hb, if_false] at h
        exact ofRounded_rep _ _ _ _ _ h

theorem ofRounded_eq (s : Bool) (N D : Nat) :
    ofRounded s N D = if overflowBound ≤ roundRaw N D then inf s else fin s (roundRaw N D) := by
  unfold ofRounded
  rw [roundUnits_eq]
  by_cases h : overflowBound ≤ roundRaw N D
  · rw [if_pos h, if_pos h]
  · rw [if_neg h, if_neg h]

theorem mul_fin_fin (s t : Bool) (a b : Nat) :
    mul (fin s a) (fin t b) = ofRounded (xor s t) (a * b) unit := rfl

theorem mul_hundred (k : Nat) :
    mul (fin false k) (ofNat 100) =
      if overflowBound ≤ rInt (k * 100) then inf false else fin false (rInt (k * 100)) := by
  have h100 : ofNat 100 = fin false (100 * unit) := by decide!
  have hu : 0 < unit := by decide!
  rw [h100, mul_fin_fin, ofRounded_eq, ← Nat.mul_assoc, roundRaw_scale_rInt _ _ hu]
  rfl

theorem thr_ge (k m e c : Nat) (hk : Rep k) (hm : 2 ^ 52 < m)
    (ha : c ≤ rInt (m * 2 ^ e * 100)) (hb : rInt ((m - 1) * 2 ^ e * 100) < c) :
    c ≤ rInt (k * 100) ↔ m * 2 ^ e ≤ k := by
  constructor
  · intro h
    by_contra hlt
    have h1 : k ≤ (m - 1) * 2 ^ e := rep_lt_pred k m e hk hm (by omega)
    have h2 : rInt (k * 100) ≤ rInt ((m - 1) * 2 ^ e * 100) :=
      rInt_mono _ _ (Nat.mul_le_mul_right 100 h1)
    omega
  · intro h
    exact le_trans ha (rInt_mono _ _ (Nat.mul_le_mul_right 100 h))

theorem thr_le (k m e c : Nat) (hk : Rep k) (hm : 2 ^ 52 ≤ m)
    (ha : rInt (m * 2 ^ e * 100) ≤ c) (hb : c < rInt ((m + 1) * 2 ^ e * 100)) :
    rInt (k * 100) ≤ c ↔ k ≤ m * 2 ^ e := by
  constructor
  · intro h
    by_contra hgt
    have h1 : (m + 1) * 2 ^ e ≤ k := rep_gt_succ k m e hk hm (by omega)
    have h2 : rInt ((m + 1) * 2 ^ e * 100) ≤ rInt (k * 100) :=
      rInt_mono _ _ (Nat.mul_le_mul_right 100 h1)
    omega
  · intro h
    exact le_trans (rInt_mono _ _ (Nat.mul_le_mul_right 100 h)) ha

theorem le_fin_fin (a b : Nat) : le (fin false a) (fin false b) = decide (a ≤ b) := by
  simp [le, isNaN, key]

theorem lt_fin_fin (a b : Nat) : lt (fin false a) (fin false b) = decide (a < b) := by
  simp [lt, isNaN, key]

theorem le_fin_inf (a : Nat) (h : a < overflowBound) : le (fin false a) (inf false) = true := by
  simp only [le, isNaN, key, Bool.not_false, Bool.true_and, decide_eq_true_eq, Bool.false_eq_true,
    if_false]
  exact_mod_cast le_of_lt h

theorem lt_fin_inf (a : Nat) (h : a < overflowBound) : lt (fin false a) (inf false) = true := by
  simp only [lt, isNaN, key, Bool.not_false, Bool.true_and, decide_eq_true_eq, Bool.false_eq_true,
    if_false]
  exact_mod_cast h

theorem le_inf_fin (a : Nat) (h : a < overflowBound) : le (inf false) (fin false a) = false := by
  simp only [le, isNaN, key, Bool.not_false, Bool.true_and, decide_eq_false_iff_not,
    Bool.false_eq_true, if_false, not_le]
  exact_mod_cast h

theorem lt_inf_fin (a : Nat) (h : a < overflowBound) : lt (inf false) (fin false a) = false := by
  simp only [lt, isNaN, key, Bool.not_false, Bool.true_and, decide_eq_false_iff_not,
    Bool.false_eq_true, if_false, not_lt]
  exact_mod_cast le_of_lt h

theorem le_fin_capped (a r : Nat) (h : a < overflowBound) :
    le (fin false a) (capped r) = decide (a ≤ r) := by
  unfold capped
  by_cases ho : overflowBound ≤ r
  · rw [if_pos ho, le_fin_inf a h]
    exact (decide_eq_true (by omega)).symm
  · rw [if_neg ho, le_fin_fin]

theorem lt_fin_capped (a r : Nat) (h : a < overflowBound) :
    lt (fin false a) (capped r) = decide (a < r) := by
  unfold capped
  by_cases ho : overflowBound ≤ r
  · rw [if_pos ho, lt_fin_inf a h]
    exact (decide_eq_true (by omega)).symm
  · rw [if_neg ho, lt_fin_fin]

theorem le_capped_fin (a r : Nat) (h : a < overflowBound) :
    le (capped r) (fin false a) = decide (r ≤ a) := by
  unfold capped
  by_cases ho : overflowBound ≤ r
  · rw [if_pos ho, le_inf_fin a h]
    exact (decide_eq_false (by omega)).symm
  · rw [if_neg ho, le_fin_fin]

theorem lt_capped_fin (a r : Nat) (h : a < overflowBound) :
    lt (capped r) (fin false a) = decide (r < a) := by
  unfold capped
  by_cases ho : overflowBound ≤ r
  · rw [if_pos ho, lt_inf_fin a h]
    exact (decide_eq_false (by omega)).symm
  · rw [if_neg ho, lt_fin_fin]

theorem capped_truthy (r : Nat) (h : 0 < r) : (capped r).truthy = true := by
  unfold capped
  by_cases ho : overflowBound ≤ r
  · rw [if_pos ho]; rfl
  · rw [if_neg ho]
    simp only [truthy, bne_iff_ne, ne_eq]
    omega

end F64

theorem capped_eq (r : Nat) :
    (if overflowBound ≤ r then inf false else fin false r) = F64.capped r := rfl

theorem status_eq_of_iff (a b : Status) (h1 : a = .correct ↔ b = .correct)
    (h2 : a = .slight ↔ b = .slight) : a = b := by
  cases a <;> cases b <;> simp_all

theorem scaled_eq_unscaled_pos (k : Nat) (hk0 : 0 < k) (hk : F64.Rep k) :
    validateAngle (some (mul (fin false k) (ofNat 100)))
        (some { min := mul (ofDec 85 100) (ofNat 100), max := mul (ofDec 10 10) (ofNat 100) }) =
      validateAngle (some (fin false k)) (some { min := ofDec 85 100, max := ofDec 10 10 }) := by
  have a_min : mul (ofDec 85 100) (ofNat 100) = fin false (85 * F64.unit) := by decide!
  have a_max : mul (ofDec 10 10) (ofNat 100) = fin false (100 * F64.unit) := by decide!
  have a_lo : sub (fin false (85 * F64.unit))
      (mul (sub (fin false (100 * F64.unit)) (fin false (85 * F64.unit))) (ofDec 15 100)) =
      fin false (331 * 2 ^ 1072) := by decide!
  have a_hi : add (fin false (100 * F64.unit))
      (mul (sub (fin false (100 * F64.unit)) (fin false (85 * F64.unit))) (ofDec 15 100)) =
      fin false (409 * 2 ^ 1072) := by decide!
  have b_min : ofDec 85 100 = fin false (7656119366529843 * 2 ^ 1021) := by decide!
  have b_max : ofDec 10 10 = fin false (4503599627370496 * 2 ^ 1022) := by decide!
  have b_lo : sub (fin false (7656119366529843 * 2 ^ 1021))
      (mul (sub (fin false (4503599627370496 * 2 ^ 1022)) (fin false (7656119366529843 * 2 ^ 1021)))
        (ofDec 15 100)) = fin false (7453457383298171 * 2 ^ 1021) := by decide!
  have b_hi : add (fin false (4503599627370496 * 2 ^ 1022))
      (mul (sub (fin false (4503599627370496 * 2 ^ 1022)) (fin false (7656119366529843 * 2 ^ 1021)))
        (ofDec 15 100)) = fin false (4604930618986332 * 2 ^ 1022) := by decide!
  have o1 : 85 * F64.unit < F64.overflowBound := by decide!
  have o2 : 100 * F64.unit < F64.overflowBound := by decide!
  have o3 : 331 * 2 ^ 1072 < F64.overflowBound := by decide!
  have o4 : 409 * 2 ^ 1072 < F64.overflowBound := by decide!
  have e1 := F64.thr_ge k 7656119366529843 1021 (85 * F64.unit) hk (by decide!) (by decide!)
    (by decide!)
  have e2 := F64.thr_le k 4503599627370496 1022 (100 * F64.unit) hk (by decide!) (by decide!)
    (by decide!)
  have e3 := F64.thr_ge k 7453457383298171 1021 (331 * 2 ^ 1072) hk (by decide!) (by decide!)
    (by decide!)
  have e4 := F64.thr_le k 4604930618986332 1022 (409 * 2 ^ 1072) hk (by decide!) (by decide!)
    (by decide!)
  have hr : 0 < F64.rInt (k * 100) := F64.rInt_pos _ (by omega)
  have hvt : (fin false k).truthy = true := by
    simp only [truthy, bne_iff_ne, ne_eq]
    omega
  rw [F64.mul_hundred, capped_eq, a_min, a_max, b_min, b_max]
  have hA := validateAngle_trichotomy (F64.capped (F64.rInt (k * 100))) (fin false (85 * F64.unit))
    (fin false (100 * F64.unit)) (F64.capped_truthy _ hr)
  have hB := validateAngle_trichotomy (fin false k) (fin false (7656119366529843 * 2 ^ 1021))
    (fin false (4503599627370496 * 2 ^ 1022)) hvt
  rw [a_lo, a_hi] at hA
  rw [b_lo, b_hi] at hB
  simp only [F64.le_fin_capped _ _ o1, F64.le_capped_fin _ _ o2, F64.le_fin_capped _ _ o3,
    F64.lt_capped_fin _ _ o1, F64.lt_fin_capped _ _ o2, F64.le_capped_fin _ _ o4,
    decide_eq_true_eq] at hA
  simp only [F64.le_fin_fin, F64.lt_fin_fin, decide_eq_true_eq] at hB
  apply status_eq_of_iff
  · rw [hA.1, hB.1, e1, e2]
  · rw [hA.2.1, hB.2.1, e3, e4]
    have n1 : F64.rInt (k * 100) < 85 * F64.unit ↔ k < 7656119366529843 * 2 ^ 1021 := by
      rw [← not_le, ← not_le, e1]
    have n2 : 100 * F64.unit < F64.rInt (k * 100) ↔ 4503599627370496 * 2 ^ 1022 < k := by
      rw [← not_le, ← not_le, e2]
    rw [n1, n2]

theorem scaled_eq_unscaled (v : F64) (hn : NonNeg v) (hrep : ∀ s k, v = fin s k → F64.Rep k) :
    validateAngle (some (mul v (ofNat 100)))
        (some { min := mul (ofDec 85 100) (ofNat 100), max := mul (ofDec 10 10) (ofNat 100) }) =
      validateAngle (some v) (some { min := ofDec 85 100, max := ofDec 10 10 }) := by
  have h100 : ofNat 100 = fin false (100 * F64.unit) := by decide!
  cases v with
  | nan =>
    rw [nan_mul, validateAngle_falsy nan _ rfl, validateAngle_falsy nan _ rfl]
  | inf s =>
    simp only [NonNeg] at hn
    subst hn
    have hm : mul (inf false) (ofNat 100) = inf false := by decide!
    rw [hm]
    have h1 : validateAngle (some (inf false))
        (some { min := mul (ofDec 85 100) (ofNat 100), max := mul (ofDec 10 10) (ofNat 100) }) =
        .incorrect := by decide!
    have h2 : validateAngle (some (inf false)) (some { min := ofDec 85 100, max := ofDec 10 10 }) =
        .incorrect := by decide!
    rw [h1, h2]
  | fin s k =>
    simp only [NonNeg] at hn
    subst hn
    rcases Nat.eq_zero_or_pos k with rfl | hk0
    · have hm : mul (fin false 0) (ofNat 100) = fin false 0 := by decide!
      rw [hm, validateAngle_falsy (fin false 0) _ rfl, validateAngle_falsy (fin false 0) _ rfl]
    · exact scaled_eq_unscaled_pos k hk0 (hrep false k rfl)

theorem calculateBackStraightness_wf (landmarks : Landmarks) (v : F64)
    (h : calculateBackStraightness landmarks = .ok v) :
    NonNeg v ∧ ∀ s k, v = fin s k → F64.Rep k := by
  have h0 : ofNat 0 = fin false 0 := by decide!
  have hz : NonNeg (ofNat 0) ∧ ∀ s k, ofNat 0 = fin s k → F64.Rep k := by
    rw [h0]
    refine ⟨rfl, fun s k hk => ?_⟩
    injection hk with _ hk
    rw [← hk]
    exact F64.rep_zero
  cases landmarks with
  | none =>
    simp only [calculateBackStraightness] at h
    injection h with h
    rw [← h]
    exact hz
  | some l =>
    simp only [calculateBackStraightness] at h
    by_cases hl : l.length < 33
    · simp only [hl, if_true] at h
      injection h with h
      rw [← h]
      exact hz
    · simp only [hl, if_false] at h
      cases h11 : Landmarks.at l 11 with
      | none => simp [h11] at h
      | some p11 =>
        cases h12 : Landmarks.at l 12 with
        | none => simp [h11, h12] at h
        | some p12 =>
          cases h23 : Landmarks.at l 23 with
          | none => simp [h11, h12, h23] at h
          | some p23 =>
            cases h24 : Landmarks.at l 24 with
            | none => simp [h11, h12, h23, h24] at h
            | some p24 =>
              simp only [h11, h12, h23, h24] at h
              injection h with h
              rw [← h]
              exact ⟨div_nonNeg _ _ (abs_nonNeg _)
                (sqrt_nonNeg _ (add_nonNeg _ _ (add_nonNeg _ _ (sq_nonNeg _) (sq_nonNeg _))
                  (sq_nonNeg _))), fun s k hk => F64.div_rep _ _ s k hk⟩

theorem measured_status (a : AngleSet) (landmarks : Landmarks) (t : String × Target)
    (ht : t.1 = "backStraightness" →
      t.2.min = ofDec 85 100 ∧ t.2.max = ofDec 10 10) :
    (measured a landmarks t).2 = validateAngle (measured a landmarks t).1 (some t.2.range) := by
  unfold measured measure
  by_cases hb : t.1 = "backStraightness"
  · obtain ⟨hmin, hmax⟩ := ht hb
    simp only [hb, if_true]
    cases hc : calculateBackStraightness landmarks with
    | error err => rfl
    | ok v =>
      obtain ⟨hn, hrep⟩ := calculateBackStraightness_wf landmarks v hc
      simp only [Target.range, hmin, hmax]
      exact scaled_eq_unscaled v hn hrep
  · simp only [hb, if_false]

theorem profile_backStraightness (e : Exercise) (he : e = SQUAT ∨ e = LATERAL_RAISE)
    (t : String × Target) (ht : t ∈ e.targets) (hb : t.1 = "backStraightness") :
    t.2.min = ofDec 85 100 ∧ t.2.max = ofDec 10 10 := by
  rcases he with rfl | rfl
  · simp only [SQUAT, List.mem_cons, List.mem_singleton, List.mem_nil_iff, or_false] at ht
    rcases ht with rfl | rfl | rfl
    · simp at hb
    · simp at hb
    · exact ⟨rfl, rfl⟩
  · simp only [LATERAL_RAISE, List.mem_cons, List.mem_singleton, List.mem_nil_iff,
      or_false] at ht
    rcases ht with rfl | rfl
    · simp at hb
    · simp at hb

theorem calculateBackStraightness_present (l : List (Option Landmark)) (p11 p12 p23 p24 : Landmark)
    (hlen : 33 ≤ l.length) (h11 : Landmarks.at l 11 = some p11) (h12 : Landmarks.at l 12 = some p12)
    (h23 : Landmarks.at l 23 = some p23) (h24 : Landmarks.at l 24 = some p24) :
    ∃ v, calculateBackStraightness (some l) = .ok v := by
  have hl : ¬ l.length < 33 := by omega
  simp only [calculateBackStraightness, hl, if_false, h11, h12, h23, h24]
  exact ⟨_, rfl⟩

theorem uprightPose_ok : ∃ v, calculateBackStraightness (some uprightPose) = .ok v :=
  calculateBackStraightness_present uprightPose _ _ _ _ (by decide) rfl rfl rfl rfl

/-- C14: in every result `validateExercise` returns for a known profile, each
`jointStatus` entry has the status `validateAngle` gives for the stored value
and the stored target, and the colour of that status.  For the
`backStraightness` entry the code classifies `value * 100` against the bounds
times 100; in binary64 this agrees with classifying the stored value against
the stored bounds for every value `calculateBackStraightness` can return. -/
theorem jointStatus_function (a : AngleSet) (landmarks : Landmarks) (key : String)
    (e : Exercise) (r : ValidationResult) (hkey : EXERCISES key = .profile e)
    (h : validateExercise (some a) landmarks (some key) = .ok r) :
    ∀ p ∈ r.jointStatus,
      p.2.status = validateAngle p.2.value (some p.2.target.range) ∧
      p.2.color = getJointColor p.2.status := by
  intro p hp
  rw [validateExercise_profile_ok a landmarks key e r hkey h] at hp
  simp only [resultOf, recordAll_jointStatus, initialState, List.nil_append, List.mem_map] at hp
  obtain ⟨t, ht, rfl⟩ := hp
  exact ⟨measured_status a landmarks t
    (profile_backStraightness e (profile_known key e hkey) t ht), rfl⟩

/-- Witness for C14: the SQUAT profile with knee angles 90 and 112 on an
upright pose. -/
theorem jointStatus_function_witness :
    EXERCISES "SQUAT" = .profile SQUAT ∧
      validateExercise (some (kneeAngles (ofNat 90) (ofNat 112))) (some uprightPose)
          (some "SQUAT") =
        .ok (resultOf (recordAll (kneeAngles (ofNat 90) (ofNat 112)) (some uprightPose)
          SQUAT.targets initialState)) ∧
      ∀ p ∈ (resultOf (recordAll (kneeAngles (ofNat 90) (ofNat 112)) (some uprightPose)
          SQUAT.targets initialState)).jointStatus,
        p.2.status = validateAngle p.2.value (some p.2.target.range) ∧
        p.2.color = getJointColor p.2.status :=
  ⟨EXERCISES_SQUAT,
    validateExercise_profile _ _ "SQUAT" SQUAT EXERCISES_SQUAT
      (fun _ _ _ => uprightPose_ok),
    jointStatus_function _ _ "SQUAT" SQUAT _ EXERCISES_SQUAT
      (validateExercise_profile _ _ "SQUAT" SQUAT EXERCISES_SQUAT
        (fun _ _ _ => uprightPose_ok))⟩

/-! ## Facts about entries of other patients -/

theorem lookup_map_set_ne (m : List (String × PatientStats)) (k q : String) (v : PatientStats)
    (hq : q ≠ k) :
    (m.map fun p => if p.1 = k then (k, v) else p).lookup q = m.lookup q := by
  induction m with
  | nil => rfl
  | cons p rest ih =>
    obtain ⟨pk, pv⟩ := p
    simp only [List.map_cons]
    by_cases hp : pk = k
    · rw [if_pos hp]
      have h1 : (q == k) = false := by simpa using hq
      have h2 : (q == pk) = false := by simpa [hp] using hq
      simp only [List.lookup, h1, h2]
      exact ih
    · rw [if_neg hp]
      cases hk : (q == pk) with
      | true => simp [List.lookup, hk]
      | false =>
        simp only [List.lookup, hk]
        exact ih

theorem lookup_append_ne (m : List (String × PatientStats)) (k q : String) (v : PatientStats)
    (hq : q ≠ k) : (m ++ [(k, v)]).lookup q = m.lookup q := by
  induction m with
  | nil =>
    have h1 : (q == k) = false := by simpa using hq
    simp [List.lookup, h1]
  | cons p rest ih =>
    obtain ⟨pk, pv⟩ := p
    cases hk : (q == pk) with
    | true => simp [List.lookup, hk]
    | false =>
      simp only [List.cons_append, List.lookup, hk]
      exact ih

theorem statsOf_setStats_ne (m : List (String × PatientStats)) (k q : String) (v : PatientStats)
    (hq : q ≠ k) : statsOf (setStats m k v) q = statsOf m q := by
  unfold statsOf setStats
  cases h : (m.lookup k).isSome with
  | true =>
    simp only [if_true]
    exact lookup_map_set_ne m k q v hq
  | false =>
    simp only [Bool.false_eq_true, if_false]
    exact lookup_append_ne m k q v hq

theorem handle_update_not_therapist (now : Nat) (st : SessionState) (data : Envelope)
    (h : data.type = "pose_update" ∨ data.type = "accuracy_update")
    (hrole : st.userRole ≠ "therapist") : handleWebSocketMessage now st data = st := by
  rcases h with h | h <;> simp [handleWebSocketMessage, h, hrole]

theorem handle_poseUpdate_therapist (now : Nat) (st : SessionState) (data : Envelope)
    (h : data.type = "pose_update") (hrole : st.userRole = "therapist") :
    handleWebSocketMessage now st data =
      updatePatientPoseData now st (keyOf data.user_id) data.pose_data := by
  simp [handleWebSocketMessage, h, hrole]

theorem handle_accuracyUpdate_therapist (now : Nat) (st : SessionState) (data : Envelope)
    (h : data.type = "accuracy_update") (hrole : st.userRole = "therapist") :
    handleWebSocketMessage now st data =
      updatePatientAccuracy st (keyOf data.user_id) data.accuracy := by
  simp [handleWebSocketMessage, h, hrole]
/-- C23: for a `pose_update` or `accuracy_update` envelope, a participant
whose role is not `'therapist'` is left by `handleWebSocketMessage` exactly as
it was (patientStats and every other piece of state); for a therapist, the
entry of every key other than the envelope's `user_id` is as before and every
piece of state other than patientStats is unchanged. -/
theorem updates_acted_on_by_therapist_only (now : Nat) (st : SessionState) (data : Envelope)
    (h : data.type = "pose_update" ∨ data.type = "accuracy_update") :
    (st.userRole ≠ "therapist" → handleWebSocketMessage now st data = st) ∧
      (st.userRole = "therapist" →
        (∀ q, q ≠ keyOf data.user_id →
          statsOf (handleWebSocketMessage now st data).patientStats q =
            statsOf st.patientStats q) ∧
        { handleWebSocketMessage now st data with patientStats := st.patientStats } = st) := by
  refine ⟨handle_update_not_therapist now st data h, fun hrole => ?_⟩
  rcases h with h | h
  · rw [handle_poseUpdate_therapist now st data h hrole]
    exact ⟨fun q hq => statsOf_setStats_ne _ _ q _ hq, rfl⟩
  · rw [handle_accuracyUpdate_therapist now st data h hrole]
    exact ⟨fun q hq => statsOf_setStats_ne _ _ q _ hq, rfl⟩

/-- Witness for C23: a patient `p2` receives an accuracy update of 80 sent
by `p1` and is left unchanged. -/
theorem updates_acted_on_by_therapist_only_witness :
    (accuracyUpdate "p1" (ofNat 80)).type = "accuracy_update" ∧
      (freshState "p2" "patient").userRole ≠ "therapist" ∧
      handleWebSocketMessage 1000 (freshState "p2" "patient") (accuracyUpdate "p1" (ofNat 80)) =
        freshState "p2" "patient" :=
  ⟨rfl, by simp [freshState],
    (updates_acted_on_by_therapist_only 1000 (freshState "p2" "patient")
      (accuracyUpdate "p1" (ofNat 80)) (Or.inr rfl)).1 (by simp [freshState])⟩

/-- C27: handling an `accuracy_update` or a `pose_update` whose `user_id` is
`P` leaves the entry of every other patient identical; within the entry of `P`
an accuracy update keeps `lastPoseData` (and `lastUpdate`), and a pose update
keeps `accuracy` and `accuracyHistory`. -/
theorem update_changes_own_entry_only (now : Nat) (st : SessionState) (data : Envelope)
    (h : data.type = "accuracy_update" ∨ data.type = "pose_update") :
    (∀ q, q ≠ keyOf data.user_id →
        statsOf (handleWebSocketMessage now st data).patientStats q =
          statsOf st.patientStats q) ∧
      (data.type = "accuracy_update" →
        ((statsOf (handleWebSocketMessage now st data).patientStats (keyOf data.user_id)).bind
            fun e => e.lastPoseData) =
          ((statsOf st.patientStats (keyOf data.user_id)).bind fun e => e.lastPoseData) ∧
        ((statsOf (handleWebSocketMessage now st data).patientStats (keyOf data.user_id)).bind
            fun e => e.lastUpdate) =
          ((statsOf st.patientStats (keyOf data.user_id)).bind fun e => e.lastUpdate)) ∧
      (data.type = "pose_update" →
        ((statsOf (handleWebSocketMessage now st data).patientStats (keyOf data.user_id)).bind
            fun e => e.accuracy) =
          ((statsOf st.patientStats (keyOf data.user_id)).bind fun e => e.accuracy) ∧
        ((statsOf (handleWebSocketMessage now st data).patientStats (keyOf data.user_id)).bind
            fun e => e.accuracyHistory) =
          ((statsOf st.patientStats (keyOf data.user_id)).bind fun e => e.accuracyHistory)) := by
  by_cases hrole : st.userRole = "therapist"
  · refine ⟨fun q hq => ?_, fun ha => ?_, fun hp => ?_⟩
    · rcases h with h | h
      · rw [handle_accuracyUpdate_therapist now st data h hrole]
        exact statsOf_setStats_ne _ _ q _ hq
      · rw [handle_poseUpdate_therapist now st data h hrole]
        exact statsOf_setStats_ne _ _ q _ hq
    · rw [handle_accuracyUpdate_therapist now st data ha hrole]
      simp only [updatePatientAccuracy, statsOf_setStats]
      cases hs : statsOf st.patientStats (keyOf data.user_id) <;> simp [PatientStats.empty]
    · rw [handle_poseUpdate_therapist now st data hp hrole]
      simp only [updatePatientPoseData, statsOf_setStats]
      cases hs : statsOf st.patientStats (keyOf data.user_id) <;> simp [PatientStats.empty]
  · rw [handle_update_not_therapist now st data h.symm hrole]
    exact ⟨fun _ _ => rfl, fun _ => ⟨rfl, rfl⟩, fun _ => ⟨rfl, rfl⟩⟩

/-- Witness for C27: a therapist handles a pose update from `p1`; the entry
of `p2` is as before. -/
theorem update_changes_own_entry_only_witness :
    (poseUpdate "p1" "pose").type = "pose_update" ∧
      statsOf (handleWebSocketMessage 1000 (freshState "t1" "therapist")
          (poseUpdate "p1" "pose")).patientStats "p2" =
        statsOf (freshState "t1" "therapist").patientStats "p2" :=
  ⟨rfl, (update_changes_own_entry_only 1000 (freshState "t1" "therapist")
      (poseUpdate "p1" "pose") (Or.inr rfl)).1 "p2" (by simp [keyOf, poseUpdate])⟩
theorem expireFeedback_unique (st : SessionState) (pre post : List FeedbackMessage)
    (m : FeedbackMessage) (hq : st.feedbackMessages = pre ++ m :: post)
    (hpre : ∀ f ∈ pre, f.id ≠ m.id) (hpost : ∀ f ∈ post, f.id ≠ m.id) :
    (expireFeedback st m.id).feedbackMessages = pre ++ post := by
  have h1 : pre.filter (fun f => decide (f.id ≠ m.id)) = pre :=
    List.filter_eq_self.2 fun f hf => by simpa using hpre f hf
  have h2 : post.filter (fun f => decide (f.id ≠ m.id)) = post :=
    List.filter_eq_self.2 fun f hf => by simpa using hpost f hf
  simp only [expireFeedback, hq, List.filter_append, List.filter_cons, h1, h2]
  simp

/-- C21 fails as stated: two feedback messages received in the same
millisecond 1000 are both in the queue, and the expiry of the first empties
the queue, so the second does not stay. -/
theorem feedback_expiry_same_millisecond :
    (addFeedbackMessage 1000 (addFeedbackMessage 1000 (freshState "p1" "patient") (some "a"))
        (some "b")).feedbackMessages =
        [{ id := 1000, message := some "a", timestamp := 1000 },
         { id := 1000, message := some "b", timestamp := 1000 }] ∧
      (expireFeedback
        (addFeedbackMessage 1000 (addFeedbackMessage 1000 (freshState "p1" "patient") (some "a"))
          (some "b")) 1000).feedbackMessages = [] := by
  constructor
  · rfl
  · simp [expireFeedback, addFeedbackMessage, freshState]

/-- C21, amended: a received feedback message is appended at the end of the
visible queue with the reception time as its id, and a timer for that id is
set 5000 ms later; when an expiry for an id fires, the queue keeps exactly the
messages with another id, in place and in order, so no message with that id is
left, and when only one message carries the id exactly that message is
removed. -/
theorem feedback_expiry (now : Nat) (st : SessionState) (message : Option String)
    (later : SessionState) (feedbackId : Nat) :
    (addFeedbackMessage now st message).feedbackMessages =
        st.feedbackMessages ++ [{ id := now, message := message, timestamp := now }] ∧
      (now + 5000, now) ∈ (addFeedbackMessage now st message).timers ∧
      (expireFeedback later feedbackId).feedbackMessages =
        later.feedbackMessages.filter (fun f => decide (f.id ≠ feedbackId)) ∧
      (∀ f, f ∈ (expireFeedback later feedbackId).feedbackMessages ↔
        f ∈ later.feedbackMessages ∧ f.id ≠ feedbackId) ∧
      (expireFeedback later feedbackId).feedbackMessages.Sublist later.feedbackMessages ∧
      (∀ pre post m, later.feedbackMessages = pre ++ m :: post → m.id = feedbackId →
        (∀ f ∈ pre, f.id ≠ m.id) → (∀ f ∈ post, f.id ≠ m.id) →
        (expireFeedback later feedbackId).feedbackMessages = pre ++ post) := by
  refine ⟨rfl, ?_, rfl, ?_, ?_, ?_⟩
  · simp [addFeedbackMessage]
  · intro f
    simp [expireFeedback, List.mem_filter]
  · exact List.filter_sublist _
  · intro pre post m hq hm hpre hpost
    rw [← hm]
    exact expireFeedback_unique later pre post m hq hpre hpost

/-- Witness for C21: messages received at 1000, 1001 and 1002; the expiry of
the one received at 1001 leaves the other two in order. -/
theorem feedback_expiry_witness :
    (expireFeedback
      (addFeedbackMessage 1002 (addFeedbackMessage 1001
        (addFeedbackMessage 1000 (freshState "p1" "patient") (some "a")) (some "b")) (some "c"))
      1001).feedbackMessages =
      [{ id := 1000, message := some "a", timestamp := 1000 },
       { id := 1002, message := some "c", timestamp := 1002 }] :=
  (feedback_expiry 0 (freshState "p1" "patient") none
    (addFeedbackMessage 1002 (addFeedbackMessage 1001
      (addFeedbackMessage 1000 (freshState "p1" "patient") (some "a")) (some "b")) (some "c"))
    1001).2.2.2.2.2 [{ id := 1000, message := some "a", timestamp := 1000 }]
      [{ id := 1002, message := some "c", timestamp := 1002 }]
      { id := 1001, message := some "b", timestamp := 1001 } rfl rfl
      (by simp) (by simp)

/-- C26: handling `user_left` for patient `X` leaves `patientStats` as it
was, whatever the state is.  A therapist that has handled an accuracy update
of 80 from `p1` and then `user_left` for `p1` still holds the entry of `p1`,
and the dashboard still counts one active patient. -/
theorem userLeft_keeps_patientStats :
    (∀ (now : Nat) (st : SessionState) (X : String),
      (handleWebSocketMessage now st (userLeft X)).patientStats = st.patientStats) ∧
      (patients (handleAll 1000 (freshState "t1" "therapist")
        [accuracyUpdate "p1" (ofNat 80), userLeft "p1"])).length = 1 ∧
      (statsOf (handleAll 1000 (freshState "t1" "therapist")
        [accuracyUpdate "p1" (ofNat 80), userLeft "p1"]).patientStats "p1").isSome = true := by
  refine ⟨fun now st X => ?_, ?_, ?_⟩
  · simp [handleWebSocketMessage, userLeft]
  · simp [patients, handleAll, handleWebSocketMessage, userLeft, accuracyUpdate, freshState,
      updatePatientAccuracy, setStats, statsOf, keyOf]
  · simp [handleAll, handleWebSocketMessage, userLeft, accuracyUpdate, freshState,
      updatePatientAccuracy, setStats, statsOf, keyOf]

/-- C25: with frames processed at 2000, 2033 and 2066 ms, `handlePoseResults`
sends three accuracy updates within one 2000 ms period; with frames processed
every 500 ms from 2100 to 3600 ms it sends none in the period from 2000 to
4000 ms. -/
theorem handlePoseResults_not_periodic :
    accuracyUpdatesSent (processFrames (freshState "p1" "patient")
        [(2000, ofNat 80), (2033, ofNat 80), (2066, ofNat 80)]) = 3 ∧
      accuracyUpdatesSent (processFrames (freshState "p1" "patient")
        [(2100, ofNat 80), (2600, ofNat 80), (3100, ofNat 80), (3600, ofNat 80)]) = 0 := by
  constructor
  · simp [accuracyUpdatesSent, processFrames, handlePoseResults, sendAccuracyUpdate, sendMessage,
      transmitted, freshState]
  · simp [accuracyUpdatesSent, processFrames, handlePoseResults, sendAccuracyUpdate, sendMessage,
      transmitted, freshState]

/-! ## Facts about the order of the outer points -/

theorem F64.mul_swap (x y : F64) : mul x y = mul y x := by
  cases x <;> cases y <;> simp [mul, Bool.xor_comm, Nat.mul_comm]

theorem dot_swap (u v : F64 × F64 × F64) : dot u v = dot v u := by
  simp only [dot]
  rw [F64.mul_swap u.1, F64.mul_swap u.2.1, F64.mul_swap u.2.2]

theorem cosArg_swap (a b c : Landmark) : cosArg a b c = cosArg c b a := by
  simp only [cosArg]
  rw [dot_swap, F64.mul_swap (magnitude (vecFrom a b))]

/-- C30: for all points `A`, `B`, `C`, present or absent, and whatever
`Math.acos` returns inside its domain, `calculateAngle(A, B, C)` and
`calculateAngle(C, B, A)` return the same Number (both NaN when one is NaN):
swapping the outer points swaps the factors of each product of the dot
product and of the product of the magnitudes, and binary64 multiplication is
commutative. -/
theorem calculateAngle_symmetric (acosApprox : F64 → F64) (A B C : Option Landmark) :
    calculateAngle acosApprox A B C = calculateAngle acosApprox C B A := by
  cases A with
  | none => cases B <;> cases C <;> rfl
  | some a =>
    cases B with
    | none => cases C <;> rfl
    | some b =>
      cases C with
      | none => rfl
      | some c => rw [calculateAngle_eq, calculateAngle_eq, cosArg_swap]

/-! ## Facts about a torn down connection -/

theorem close_tornDown (w : WebSocket) :
    (WebSocket.close w).readyState = .closing ∨ (WebSocket.close w).readyState = .closed := by
  unfold WebSocket.close
  cases h : w.readyState <;> simp [h]

theorem close_sent (w : WebSocket) : (WebSocket.close w).sent = w.sent := by
  unfold WebSocket.close
  cases h : w.readyState <;> rfl

theorem handleSessionEnd_tornDown (st : SessionState) (report : Option String) :
    TornDown (handleSessionEnd st report) := by
  intro w hw
  simp only [handleSessionEnd] at hw
  cases h : st.ws with
  | none => simp [h] at hw
  | some v =>
    simp only [h, Option.map_some', Option.some.injEq] at hw
    rw [← hw]
    exact close_tornDown v

theorem handleSessionEnd_transmitted (st : SessionState) (report : Option String) :
    transmitted (handleSessionEnd st report) = transmitted st := by
  simp only [transmitted, handleSessionEnd]
  cases h : st.ws with
  | none => rfl
  | some v => simp [close_sent]

theorem sendMessage_tornDown (st : SessionState) (data : Envelope) (h : TornDown st) :
    sendMessage st data = st := by
  unfold sendMessage
  cases hw : st.ws with
  | none => rfl
  | some w =>
    have hne : w.readyState ≠ .opened := by
      rcases h w hw with h1 | h1 <;> simp [h1]
    simp [hne]

theorem handle_cases (now : Nat) (st : SessionState) (data : Envelope) :
    ((handleWebSocketMessage now st data).ws = st.ws ∧
      (handleWebSocketMessage now st data).isInSession = st.isInSession) ∨
    handleWebSocketMessage now st data = handleSessionEnd st data.report := by
  unfold handleWebSocketMessage
  split_ifs
  all_goals first
    | exact Or.inr rfl
    | exact Or.inl ⟨rfl, rfl⟩

theorem tornDown_of_ws (st st2 : SessionState) (hw : st2.ws = st.ws) (h : TornDown st) :
    TornDown st2 := by
  intro w h2
  exact h w (hw ▸ h2)

theorem onmessage_isInSession (now : Nat) (c : Closure) (st : SessionState) (data : Envelope) :
    (onmessage now c st data).isInSession = st.isInSession ∨
      (onmessage now c st data).isInSession = false := by
  rcases handle_cases now { st with userRole := c.userRole, ws := c.ws } data with ⟨_, hi⟩ | he
  · exact Or.inl hi
  · right
    show (handleWebSocketMessage now { st with userRole := c.userRole, ws := c.ws }
      data).isInSession = false
    rw [he]
    rfl

theorem step_tornDown (c : Closure) (st : SessionState) (a : Action) (h : TornDown st)
    (hs : st.isInSession = false) :
    TornDown (step c st a) ∧ (step c st a).isInSession = false ∧
      transmitted (step c st a) = transmitted st := by
  cases a with
  | receive now data =>
    refine ⟨tornDown_of_ws st _ rfl h, ?_, rfl⟩
    rcases onmessage_isInSession now c st data with h1 | h1
    · exact h1.trans hs
    · exact h1
  | send data => simp only [step, sendMessage_tornDown st data h]; exact ⟨h, hs, trivial⟩
  | feedback patientId message =>
    simp only [step, sendFeedback, sendMessage_tornDown st _ h]; exact ⟨h, hs, trivial⟩
  | pose poseData =>
    simp only [step, sendPoseUpdate, sendMessage_tornDown st _ h]; exact ⟨h, hs, trivial⟩
  | accuracy now value =>
    simp only [step, sendAccuracyUpdate, sendMessage_tornDown st _ h]; exact ⟨h, hs, trivial⟩
  | frame now value =>
    simp only [step, handlePoseResults, sendAccuracyUpdate, sendMessage_tornDown st _ h, ite_self]
    exact ⟨h, hs, trivial⟩
  | expire feedbackId => exact ⟨tornDown_of_ws st _ rfl h, hs, rfl⟩
  | opened =>
    have hst : onopen st = st := by
      unfold onopen
      cases hw : st.ws with
      | none => rfl
      | some w =>
        have hne : w.readyState ≠ .connecting := by
          rcases h w hw with h1 | h1 <;> simp [h1]
        simp [hne]
    simp only [step, hst]
    exact ⟨h, hs, trivial⟩
  | closed =>
    refine ⟨?_, hs, ?_⟩
    · intro w hw
      simp only [step, onclose] at hw
      cases h2 : st.ws with
      | none => simp [h2] at hw
      | some v =>
        simp only [h2, Option.map_some', Option.some.injEq] at hw
        rw [← hw]
        exact Or.inr rfl
    · simp only [step, onclose, transmitted]
      cases h2 : st.ws <;> rfl
  | endRequest response =>
    cases response with
    | error e => exact ⟨h, hs, rfl⟩
    | ok report =>
      exact ⟨handleSessionEnd_tornDown st _, rfl, handleSessionEnd_transmitted st _⟩

theorem run_tornDown (c : Closure) (actions : List Action) : ∀ st : SessionState, TornDown st →
    st.isInSession = false →
    TornDown (run c st actions) ∧ (run c st actions).isInSession = false ∧
      transmitted (run c st actions) = transmitted st := by
  induction actions with
  | nil => intro st h hs; exact ⟨h, hs, rfl⟩
  | cons a rest ih =>
    intro st h hs
    obtain ⟨h1, h2, h3⟩ := step_tornDown c st a h hs
    obtain ⟨k1, k2, k3⟩ := ih (step c st a) h1 h2
    exact ⟨k1, k2, k3.trans h3⟩

/-- After a successful end request, where `handleSessionEnd` closes the
connection of the current state: whatever messages arrive on the socket
(handled with any closure), send functions are called, frames are processed,
timers fire, socket events occur or end requests return, the connection (if
there is one) is closing or closed, `isInSession` is false and nothing more
has been handed to the connection than before the end; each further call of
`sendMessage`, `sendFeedback`, `sendPoseUpdate` or the message part of
`sendAccuracyUpdate` leaves the state, and with it the connection, as it
is. -/
theorem no_message_after_end_request (c : Closure) (st : SessionState)
    (report : Option String) (actions : List Action) :
    endSession st (.ok report) = handleSessionEnd st report ∧
      TornDown (run c (endSession st (.ok report)) actions) ∧
      (run c (endSession st (.ok report)) actions).isInSession = false ∧
      transmitted (run c (endSession st (.ok report)) actions) = transmitted st ∧
      (∀ m, sendMessage (run c (endSession st (.ok report)) actions) m =
        run c (endSession st (.ok report)) actions) ∧
      (∀ p m, sendFeedback (run c (endSession st (.ok report)) actions) p m =
        run c (endSession st (.ok report)) actions) ∧
      (∀ d, sendPoseUpdate (run c (endSession st (.ok report)) actions) d =
        run c (endSession st (.ok report)) actions) ∧
      (∀ t a, (sendAccuracyUpdate t (run c (endSession st (.ok report)) actions) a).1 =
        run c (endSession st (.ok report)) actions) := by
  obtain ⟨h1, h2, h3⟩ := run_tornDown c actions (handleSessionEnd st report)
    (handleSessionEnd_tornDown st report) rfl
  refine ⟨rfl, h1, h2, h3.trans (handleSessionEnd_transmitted st report), ?_, ?_, ?_, ?_⟩
  · exact fun m => sendMessage_tornDown _ m h1
  · exact fun p m => sendMessage_tornDown _ _ h1
  · exact fun d => sendMessage_tornDown _ _ h1
  · exact fun t a => sendMessage_tornDown _ _ h1

theorem sendMessage_opened (st : SessionState) (w : WebSocket) (data : Envelope)
    (hw : st.ws = some w) (ho : w.readyState = .opened) :
    transmitted (sendMessage st data) = transmitted st ++ [data] := by
  simp [sendMessage, transmitted, hw, ho]

/-- C24: a `session_ended` message is handled by the socket's handler, which
reads the `ws` of the render in which the session was created or joined and
never the connection it is installed on, so the connection of the state is
left as it is, for every closure, state and message.  A provider that creates
a session (or joins one) and whose socket has opened receives
`session_ended`: `isInSession` becomes false but the connection stays open,
and a later `sendFeedback` (or `sendPoseUpdate`) is transmitted.  On every
state with an open connection a send after a handled `session_ended` is
transmitted. -/
theorem session_ended_keeps_connection :
    (∀ (now : Nat) (c : Closure) (st : SessionState) (data : Envelope),
      (onmessage now c st data).ws = st.ws) ∧
      (onmessage 1000 (closureOf idleState)
        (onopen (createSession idleState "Tina" (.ok ("ABC123", "t1"))).1)
        (sessionEnded "R")).isInSession = false ∧
      (onmessage 1000 (closureOf idleState)
        (onopen (createSession idleState "Tina" (.ok ("ABC123", "t1"))).1)
        (sessionEnded "R")).ws = some { readyState := .opened, sent := [] } ∧
      transmitted (sendFeedback (onmessage 1000 (closureOf idleState)
        (onopen (createSession idleState "Tina" (.ok ("ABC123", "t1"))).1)
        (sessionEnded "R")) "p1" "after end") =
        [{ type := "feedback", user_id := none, target_patient := some "p1",
           message := some "after end", pose_data := none, accuracy := none,
           report := none }] ∧
      transmitted (sendPoseUpdate (onmessage 1000 (closureOf idleState)
        (onopen (joinSession idleState "ABC123" "Dana" (.ok ("ABC123", "p1"))).1)
        (sessionEnded "R")) "pose") =
        [{ type := "pose_update", user_id := none, target_patient := none,
           message := none, pose_data := some "pose", accuracy := none, report := none }] ∧
      (∀ (now : Nat) (c : Closure) (st : SessionState) (w : WebSocket) (report p m : String),
        st.ws = some w → w.readyState = .opened →
        transmitted (sendFeedback (onmessage now c st (sessionEnded report)) p m) =
          transmitted st ++
            [{ type := "feedback", user_id := none, target_patient := some p,
               message := some m, pose_data := none, accuracy := none, report := none }]) := by
  refine ⟨fun _ _ _ _ => rfl, ?_, ?_, ?_, ?_, ?_⟩
  · simp [onmessage, handleWebSocketMessage, sessionEnded, handleSessionEnd]
  · simp [onmessage, onopen, createSession, connectWebSocket]
  · simp [sendFeedback, sendMessage, transmitted, onmessage, onopen, createSession,
      connectWebSocket]
  · simp [sendPoseUpdate, sendMessage, transmitted, onmessage, onopen, joinSession,
      connectWebSocket]
  · intro now c st w report p m hw ho
    exact sendMessage_opened (onmessage now c st (sessionEnded report)) w _ hw ho

/-- C22: a join request for an unknown code is rejected as not found, and
one for a session that holds 3 (or more) patients is rejected for capacity; in
both cases the sessions, and so the patient count of the code, are as before.
On the client, `joinSession` with a rejected request returns
`{success: false, error}` where `error` is the detail of the rejection when
there is a non-empty one and the message of the error otherwise, and returns
the state as it was: `sessionCode`, `userId`, `userRole`, `userName`,
`isInSession` and the connection are unchanged. -/
theorem join_rejected (sessions : List Session) (code patientId patientName : String)
    (st : SessionState) (e : HttpError)
    (h : (sessions.find? fun s => s.code = code) = none ∨
      ∃ s, (sessions.find? fun s => s.code = code) = some s ∧ 3 ≤ s.patients.length) :
    (∃ r, serverJoin sessions code patientId = (sessions, .error r) ∧
        (r = .notFound ↔ (sessions.find? fun s => s.code = code) = none)) ∧
      patientCount (serverJoin sessions code patientId).1 code = patientCount sessions code ∧
      joinSession st code patientName (.error e) =
        (st, { success := false, error := some (detailOrMessage e) }) ∧
      (∀ d, e.detail = some d → d ≠ "" → detailOrMessage e = d) ∧
      (e.detail = none ∨ e.detail = some "" → detailOrMessage e = e.message) := by
  have hs : ∃ r, serverJoin sessions code patientId = (sessions, .error r) ∧
      (r = .notFound ↔ (sessions.find? fun s => s.code = code) = none) := by
    rcases h with h | ⟨s, h, hlen⟩
    · exact ⟨.notFound, by simp [serverJoin, h], by simp [h]⟩
    · have hn : ¬ s.patients.length < 3 := by omega
      exact ⟨.capacity, by simp [serverJoin, h, hn], by simp [h]⟩
  obtain ⟨r, hr, hiff⟩ := hs
  refine ⟨⟨r, hr, hiff⟩, by rw [hr], rfl, ?_, ?_⟩
  · intro d hd hne
    simp [detailOrMessage, hd, hne]
  · intro hd
    rcases hd with hd | hd <;> simp [detailOrMessage, hd]

/-- Witness for C22: a fourth patient asks to join the session `ABC123`,
which holds three patients, and the client receives the rejection with the
detail `Session is full`. -/
theorem join_rejected_witness :
    serverJoin [{ code := "ABC123", patients := ["p1", "p2", "p3"] }] "ABC123" "p4" =
        ([{ code := "ABC123", patients := ["p1", "p2", "p3"] }], .error .capacity) ∧
      joinSession idleState "ABC123" "Dana"
          (.error { message := "Request failed with status code 400",
                    detail := some "Session is full" }) =
        (idleState, { success := false, error := some "Session is full" }) := by
  have h := join_rejected [{ code := "ABC123", patients := ["p1", "p2", "p3"] }] "ABC123" "p4"
    "Dana" idleState
    { message := "Request failed with status code 400", detail := some "Session is full" }
    (Or.inr ⟨{ code := "ABC123", patients := ["p1", "p2", "p3"] }, by simp [List.find?], by simp⟩)
  obtain ⟨⟨r, hr, hiff⟩, _, hj, hd, _⟩ := h
  have hr2 : r = .capacity := by
    cases r with
    | capacity => rfl
    | notFound => simp [List.find?] at hiff
  refine ⟨by rw [hr, hr2], ?_⟩
  rw [hj, hd "Session is full" rfl (by simp)]

/-! ## Facts about the extreme and ordered accuracies -/

set_option maxHeartbeats 4000000 in
theorem squat_extremes (s1 s2 s3 : Status) :
    (F64.round (rawAccuracy
      (add (add (add (ofNat 0) (mul (jointScore s1) (ofDec 10 10)))
        (mul (jointScore s2) (ofDec 10 10))) (mul (jointScore s3) (ofDec 8 10)))
      (add (add (add (ofNat 0) (ofDec 10 10)) (ofDec 10 10)) (ofDec 8 10))) = ofNat 100 ↔
      s1 = .correct ∧ s2 = .correct ∧ s3 = .correct) ∧
    (F64.round (rawAccuracy
      (add (add (add (ofNat 0) (mul (jointScore s1) (ofDec 10 10)))
        (mul (jointScore s2) (ofDec 10 10))) (mul (jointScore s3) (ofDec 8 10)))
      (add (add (add (ofNat 0) (ofDec 10 10)) (ofDec 10 10)) (ofDec 8 10))) = ofNat 0 ↔
      s1 = .incorrect ∧ s2 = .incorrect ∧ s3 = .incorrect) := by
  cases s1 <;> cases s2 <;> cases s3 <;> decide!

set_option maxHeartbeats 4000000 in
theorem lateralRaise_extremes (s1 s2 : Status) :
    (F64.round (rawAccuracy
      (add (add (ofNat 0) (mul (jointScore s1) (ofDec 10 10))) (mul (jointScore s2) (ofDec 10 10)))
      (add (add (ofNat 0) (ofDec 10 10)) (ofDec 10 10))) = ofNat 100 ↔
      s1 = .correct ∧ s2 = .correct) ∧
    (F64.round (rawAccuracy
      (add (add (ofNat 0) (mul (jointScore s1) (ofDec 10 10))) (mul (jointScore s2) (ofDec 10 10)))
      (add (add (ofNat 0) (ofDec 10 10)) (ofDec 10 10))) = ofNat 0 ↔
      s1 = .incorrect ∧ s2 = .incorrect) := by
  cases s1 <;> cases s2 <;> decide!

theorem profile_extremes (e : Exercise) (he : e = SQUAT ∨ e = LATERAL_RAISE)
    (f : String × Target → Status) :
    (F64.round (rawAccuracy
      (e.targets.foldl (fun acc t => add acc (mul (jointScore (f t)) t.2.weight)) (ofNat 0))
      (e.targets.foldl (fun acc t => add acc t.2.weight) (ofNat 0))) = ofNat 100 ↔
      ∀ t ∈ e.targets, f t = .correct) ∧
    (F64.round (rawAccuracy
      (e.targets.foldl (fun acc t => add acc (mul (jointScore (f t)) t.2.weight)) (ofNat 0))
      (e.targets.foldl (fun acc t => add acc t.2.weight) (ofNat 0))) = ofNat 0 ↔
      ∀ t ∈ e.targets, f t = .incorrect) := by
  rcases he with rfl | rfl
  · simp only [SQUAT, List.foldl, List.forall_mem_cons, List.not_mem_nil, false_imp_iff,
      implies_true, and_true]
    exact squat_extremes _ _ _
  · simp only [LATERAL_RAISE, List.foldl, List.forall_mem_cons, List.not_mem_nil, false_imp_iff,
      implies_true, and_true]
    exact lateralRaise_extremes _ _
theorem errors_nil_of_correct (js : List (String × JointEntry))
    (h : ∀ p ∈ js, p.2.status = .correct) : js.filterMap errorLineOf = [] := by
  induction js with
  | nil => rfl
  | cons p rest ih =>
    have hp : errorLineOf p = none := by
      simp [errorLineOf, h p (List.mem_cons_self _ _)]
    rw [List.filterMap_cons, hp]
    exact ih fun q hq => h q (List.mem_cons_of_mem _ hq)

/-- C29: for a profile of EXERCISES, a present angle set and landmarks on
which `calculateBackStraightness` does not raise where the profile needs it,
`validateExercise` returns a result with one `jointStatus` entry per target
whose accuracy is 100 exactly when every entry is `'correct'` (and then errors
is empty and isValid is true), and 0 exactly when every entry is
`'incorrect'`. -/
theorem validateExercise_extremes (angles : AngleSet) (landmarks : Landmarks) (key : String)
    (e : Exercise) (hkey : EXERCISES key = .profile e)
    (hv : ∀ t ∈ e.targets, t.1 = "backStraightness" →
      ∃ v, calculateBackStraightness landmarks = .ok v) :
    ∃ r, validateExercise (some angles) landmarks (some key) = .ok r ∧
      r.jointStatus.map (fun p => (p.1, p.2.target)) = e.targets ∧
      (r.accuracy = ofNat 100 ↔ ∀ p ∈ r.jointStatus, p.2.status = .correct) ∧
      (r.accuracy = ofNat 100 → r.errors = [] ∧ r.isValid = true) ∧
      (r.accuracy = ofNat 0 ↔ ∀ p ∈ r.jointStatus, p.2.status = .incorrect) := by
  have he := profile_known key e hkey
  have hx := profile_extremes e he fun t => (measured angles landmarks t).2
  have hval := profile_isValid e he fun t => (measured angles landmarks t).2
  have h100 : (resultOf (recordAll angles landmarks e.targets initialState)).accuracy = ofNat 100 ↔
      ∀ p ∈ (resultOf (recordAll angles landmarks e.targets initialState)).jointStatus,
        p.2.status = .correct := by
    simp only [resultOf, recordAll_totalScore, recordAll_totalWeight, recordAll_jointStatus,
      initialState, List.nil_append, List.forall_mem_map]
    exact hx.1
  refine ⟨_, validateExercise_profile angles landmarks key e hkey hv, ?_, h100, ?_, ?_⟩
  · simp only [resultOf, recordAll_jointStatus, initialState, List.nil_append, List.map_map]
    simp [Function.comp_def]
  · intro hacc
    constructor
    · have hall := h100.1 hacc
      simp only [resultOf] at hall ⊢
      rw [recordAll_errors]
      rw [recordAll_jointStatus] at hall
      simp only [initialState, List.nil_append] at hall ⊢
      exact errors_nil_of_correct _ hall
    · simp only [resultOf, recordAll_totalScore, recordAll_totalWeight, initialState] at hacc ⊢
      rw [hval, hacc]
      decide!
  · simp only [resultOf, recordAll_totalScore, recordAll_totalWeight, recordAll_jointStatus,
      initialState, List.nil_append, List.forall_mem_map]
    exact hx.2
/-- Witness for C29: the LATERAL_RAISE profile with an empty angle set, where
both shoulders are incorrect. -/
theorem validateExercise_extremes_witness :
    ∃ r, validateExercise (some fun _ => none) none (some "LATERAL_RAISE") = .ok r ∧
      (r.accuracy = ofNat 0 ↔ ∀ p ∈ r.jointStatus, p.2.status = .incorrect) := by
  obtain ⟨r, h1, _, _, _, h5⟩ := validateExercise_extremes (fun _ => none) none "LATERAL_RAISE"
    LATERAL_RAISE EXERCISES_LATERAL_RAISE (fun _ _ _ => ⟨ofNat 0, rfl⟩)
  exact ⟨r, h1, h5⟩

set_option maxHeartbeats 16000000 in
theorem squat_monotone (s1 s2 s3 t1 t2 t3 : Status) (h1 : s1.rank ≤ t1.rank)
    (h2 : s2.rank ≤ t2.rank) (h3 : s3.rank ≤ t3.rank) :
    le (F64.round (rawAccuracy
      (add (add (add (ofNat 0) (mul (jointScore s1) (ofDec 10 10)))
        (mul (jointScore s2) (ofDec 10 10))) (mul (jointScore s3) (ofDec 8 10)))
      (add (add (add (ofNat 0) (ofDec 10 10)) (ofDec 10 10)) (ofDec 8 10))))
      (F64.round (rawAccuracy
      (add (add (add (ofNat 0) (mul (jointScore t1) (ofDec 10 10)))
        (mul (jointScore t2) (ofDec 10 10))) (mul (jointScore t3) (ofDec 8 10)))
      (add (add (add (ofNat 0) (ofDec 10 10)) (ofDec 10 10)) (ofDec 8 10)))) = true := by
  cases s1 <;> cases t1 <;> (try exact absurd h1 (by decide)) <;>
    cases s2 <;> cases t2 <;> (try exact absurd h2 (by decide)) <;>
    cases s3 <;> cases t3 <;> (try exact absurd h3 (by decide)) <;> decide!

set_option maxHeartbeats 4000000 in
theorem lateralRaise_monotone (s1 s2 t1 t2 : Status) (h1 : s1.rank ≤ t1.rank)
    (h2 : s2.rank ≤ t2.rank) :
    le (F64.round (rawAccuracy
      (add (add (ofNat 0) (mul (jointScore s1) (ofDec 10 10))) (mul (jointScore s2) (ofDec 10 10)))
      (add (add (ofNat 0) (ofDec 10 10)) (ofDec 10 10))))
      (F64.round (rawAccuracy
      (add (add (ofNat 0) (mul (jointScore t1) (ofDec 10 10))) (mul (jointScore t2) (ofDec 10 10)))
      (add (add (ofNat 0) (ofDec 10 10)) (ofDec 10 10)))) = true := by
  cases s1 <;> cases t1 <;> (try exact absurd h1 (by decide)) <;>
    cases s2 <;> cases t2 <;> (try exact absurd h2 (by decide)) <;> decide!

theorem profile_monotone (e : Exercise) (he : e = SQUAT ∨ e = LATERAL_RAISE)
    (f g : String × Target → Status) (h : ∀ t ∈ e.targets, (f t).rank ≤ (g t).rank) :
    le (F64.round (rawAccuracy
      (e.targets.foldl (fun acc t => add acc (mul (jointScore (f t)) t.2.weight)) (ofNat 0))
      (e.targets.foldl (fun acc t => add acc t.2.weight) (ofNat 0))))
      (F64.round (rawAccuracy
      (e.targets.foldl (fun acc t => add acc (mul (jointScore (g t)) t.2.weight)) (ofNat 0))
      (e.targets.foldl (fun acc t => add acc t.2.weight) (ofNat 0)))) = true := by
  rcases he with rfl | rfl
  · simp only [SQUAT, List.forall_mem_cons, List.not_mem_nil, false_imp_iff, implies_true,
      and_true] at h
    simp only [SQUAT, List.foldl]
    exact squat_monotone _ _ _ _ _ _ h.1 h.2.1 h.2.2
  · simp only [LATERAL_RAISE, List.forall_mem_cons, List.not_mem_nil, false_imp_iff, implies_true,
      and_true] at h
    simp only [LATERAL_RAISE, List.foldl]
    exact lateralRaise_monotone _ _ _ _ h.1 h.2
theorem jointStatus_forall₂ (a1 a2 : AngleSet) (l1 l2 : Landmarks)
    (targets : List (String × Target)) :
    List.Forall₂ (fun p q => p.1 = q.1 ∧ p.2.status.rank ≤ q.2.status.rank)
        (resultOf (recordAll a1 l1 targets initialState)).jointStatus
        (resultOf (recordAll a2 l2 targets initialState)).jointStatus ↔
      ∀ t ∈ targets, (measured a1 l1 t).2.rank ≤ (measured a2 l2 t).2.rank := by
  simp only [resultOf, recordAll_jointStatus, initialState, List.nil_append,
    List.forall₂_map_left_iff, List.forall₂_map_right_iff, List.forall₂_same, true_and]

/-- C28: for a profile of EXERCISES and two inputs on which
`calculateBackStraightness` does not raise where the profile needs it,
`validateExercise` returns a result for each, and if every metric's status in
the second result is at least as good as in the first (incorrect below slight
below correct), the accuracy of the second is greater than or equal to the
accuracy of the first. -/
theorem validateExercise_accuracy_monotone (a1 a2 : AngleSet) (l1 l2 : Landmarks) (key : String)
    (e : Exercise) (hkey : EXERCISES key = .profile e)
    (hv1 : ∀ t ∈ e.targets, t.1 = "backStraightness" →
      ∃ v, calculateBackStraightness l1 = .ok v)
    (hv2 : ∀ t ∈ e.targets, t.1 = "backStraightness" →
      ∃ v, calculateBackStraightness l2 = .ok v) :
    ∃ r1 r2, validateExercise (some a1) l1 (some key) = .ok r1 ∧
      validateExercise (some a2) l2 (some key) = .ok r2 ∧
      (List.Forall₂ (fun p q => p.1 = q.1 ∧ p.2.status.rank ≤ q.2.status.rank)
          r1.jointStatus r2.jointStatus →
        le r1.accuracy r2.accuracy = true) := by
  refine ⟨_, _, validateExercise_profile a1 l1 key e hkey hv1,
    validateExercise_profile a2 l2 key e hkey hv2, fun hf => ?_⟩
  rw [jointStatus_forall₂] at hf
  simp only [resultOf, recordAll_totalScore, recordAll_totalWeight, initialState]
  exact profile_monotone e (profile_known key e hkey) _ _ hf

set_option maxHeartbeats 4000000 in
/-- Witness for C28: the SQUAT profile without landmarks, with knee angles 90
and 112 (correct, slight, incorrect) and with knee angles 90 and 90 (correct,
correct, incorrect). -/
theorem validateExercise_accuracy_monotone_witness :
    le (resultOf (recordAll (kneeAngles (ofNat 90) (ofNat 112)) none SQUAT.targets
          initialState)).accuracy
        (resultOf (recordAll (kneeAngles (ofNat 90) (ofNat 90)) none SQUAT.targets
          initialState)).accuracy = true := by
  obtain ⟨r1, r2, h1, h2, h⟩ := validateExercise_accuracy_monotone
    (kneeAngles (ofNat 90) (ofNat 112)) (kneeAngles (ofNat 90) (ofNat 90)) none none "SQUAT" SQUAT
    EXERCISES_SQUAT (fun _ _ _ => ⟨ofNat 0, rfl⟩) (fun _ _ _ => ⟨ofNat 0, rfl⟩)
  have e1 := validateExercise_profile_ok _ none "SQUAT" SQUAT r1 EXERCISES_SQUAT h1
  have e2 := validateExercise_profile_ok _ none "SQUAT" SQUAT r2 EXERCISES_SQUAT h2
  subst e1 e2
  apply h
  rw [jointStatus_forall₂]
  simp only [SQUAT, List.forall_mem_cons, List.not_mem_nil, false_imp_iff, implies_true,
    and_true]
  refine ⟨?_, ?_, ?_⟩ <;> decide!

/-! ## Facts about inherited keys and the handler's closure -/

theorem EXERCISES_inherited (key : String) (h : key ∈ objectPrototypeKeys) :
    EXERCISES key = .inherited := by
  have h1 : key ≠ "SQUAT" := by
    rintro rfl
    simp [objectPrototypeKeys] at h
  have h2 : key ≠ "LATERAL_RAISE" := by
    rintro rfl
    simp [objectPrototypeKeys] at h
  simp [EXERCISES, h1, h2, h]

theorem ne_empty_of_inherited (key : String) (h : key ∈ objectPrototypeKeys) : key ≠ "" := by
  rintro rfl
  simp [objectPrototypeKeys] at h

/-- C13: a key that is not a profile of EXERCISES but names a member every
object inherits from `Object.prototype`, such as `constructor`, passes the
guard `!EXERCISES[exerciseType]`, and `validateExercise` raises a `TypeError`
instead of returning the empty result, for every angle set and all
landmarks. -/
theorem validateExercise_inherited_raises :
    (∀ (angles : AngleSet) (landmarks : Landmarks) (key : String),
      key ∈ objectPrototypeKeys →
        (∀ e, EXERCISES key ≠ .profile e) ∧
        validateExercise (some angles) landmarks (some key) = .error .typeError) ∧
      "constructor" ∈ objectPrototypeKeys ∧
      validateExercise (some (kneeAngles (ofNat 90) (ofNat 112))) none (some "constructor") =
        .error .typeError := by
  have key : ∀ (angles : AngleSet) (landmarks : Landmarks) (key : String),
      key ∈ objectPrototypeKeys →
        validateExercise (some angles) landmarks (some key) = .error .typeError := by
    intro angles landmarks key h
    simp [validateExercise, ne_empty_of_inherited key h, EXERCISES_inherited key h]
  refine ⟨fun angles landmarks k h => ⟨fun e he => ?_, key angles landmarks k h⟩, ?_, ?_⟩
  · rw [EXERCISES_inherited k h] at he
    exact Member.noConfusion he
  · simp [objectPrototypeKeys]
  · exact key _ _ _ (by simp [objectPrototypeKeys])

theorem onmessage_not_therapist (now : Nat) (c : Closure) (st : SessionState) (data : Envelope)
    (h : data.type = "pose_update" ∨ data.type = "accuracy_update")
    (hrole : c.userRole ≠ "therapist") : onmessage now c st data = st := by
  unfold onmessage
  rw [handle_update_not_therapist now _ data h hrole]

theorem receiveAll_not_therapist (now : Nat) (c : Closure) (P : String) (a : F64) (n : Nat)
    (hrole : c.userRole ≠ "therapist") (st : SessionState) :
    receiveAll now c st (List.replicate n (accuracyUpdate P a)) = st := by
  induction n with
  | zero => rfl
  | succ n ih =>
    simp only [receiveAll, List.replicate_succ, List.foldl_cons] at ih ⊢
    rw [onmessage_not_therapist now c st _ (Or.inr rfl) hrole]
    exact ih

/-- C18: the handler installed on a socket reads the role of the render in
which the session was created; when that role is not `'therapist'`, as in a
provider that has just created its first session, every `accuracy_update` is
dropped: the state, and so the history of the patient, stays as it was.  A
provider that creates a session from the idle state holds the role
`'therapist'`, and after three updates of 80 from `p1` arrived on its open
socket it has no patient statistics and the history of `p1` is empty. -/
theorem accuracyUpdate_dropped_after_createSession :
    (∀ (now : Nat) (c : Closure) (st : SessionState) (P : String) (a : F64) (n : Nat),
      c.userRole ≠ "therapist" →
        receiveAll now c st (List.replicate n (accuracyUpdate P a)) = st) ∧
      (onopen (createSession idleState "Tina" (.ok ("ABC123", "t1"))).1).userRole =
        "therapist" ∧
      (receiveAll 1000 (closureOf idleState)
        (onopen (createSession idleState "Tina" (.ok ("ABC123", "t1"))).1)
        (List.replicate 3 (accuracyUpdate "p1" (ofNat 80)))).patientStats = [] ∧
      historyOf (receiveAll 1000 (closureOf idleState)
        (onopen (createSession idleState "Tina" (.ok ("ABC123", "t1"))).1)
        (List.replicate 3 (accuracyUpdate "p1" (ofNat 80)))) "p1" = [] := by
  have hidle : (closureOf idleState).userRole ≠ "therapist" := by
    simp [closureOf, idleState]
  refine ⟨fun now c st P a n h => receiveAll_not_therapist now c P a n h st, ?_, ?_, ?_⟩
  · simp [onopen, createSession, connectWebSocket]
  · rw [receiveAll_not_therapist 1000 _ "p1" (ofNat 80) 3 hidle]
    simp [onopen, createSession, connectWebSocket, idleState]
  · rw [receiveAll_not_therapist 1000 _ "p1" (ofNat 80) 3 hidle]
    simp [historyOf, statsOf, onopen, createSession, connectWebSocket, idleState]

end Physio
